import Mathlib

/-!
# ovgl: the launcher's ELF classifier and dispatch, and the interception module

A shallow embedding of `src/ovgl.c` and of the `execve` hook of `src/ovgl_preload.c`.

* Memory is a function `buf : Nat → Nat` giving the byte found at an offset from the
  start of the 4096-byte stack array `buf` of `analyze_binary`; pointer arithmetic is
  that of a flat 64-bit address space, so offsets are taken modulo `2^64`.  The first `n`
  offsets hold the bytes `read` returned, every other offset holds whatever the machine
  has there.
* Every load the classifier performs is logged, so that "reads only below `n`" is a
  statement about the log.
* Multi-byte fields are little-endian (the launcher is built for aarch64 Android).
* `main` is a function from the answers of the operating system (`World`) and `argv` to
  the way the run ends (`Outcome`): an exit status, or the `execve` call it makes.
  Diagnostics on stderr, `chdir` and the relay script are not part of the outcome.
* The hooked `execve` is a function from the same answers, for the process it is loaded
  into, and its arguments to the call of the real `execve` it makes (`HookOutcome`).
-/

namespace Ovgl

/-! ## Constants of `<elf.h>` (ELF64 standard layout) -/

/-- Index of the class byte in `e_ident`. -/
def EI_CLASS : Nat := 4
/-- Class byte of a 64-bit image. -/
def ELFCLASS64 : Nat := 2
/-- Machine value of AArch64. -/
def EM_AARCH64 : Nat := 183
/-- Machine value of x86-64. -/
def EM_X86_64 : Nat := 62
/-- Program-header type of the interpreter request. -/
def PT_INTERP : Nat := 3
/-- The value of `sizeof(Elf64_Ehdr)`. -/
def sizeof_Elf64_Ehdr : Nat := 64
/-- The value of `sizeof(Elf64_Phdr)`. -/
def sizeof_Elf64_Phdr : Nat := 56
/-- Offset of `e_machine` (16 bits) in `Elf64_Ehdr`. -/
def off_e_machine : Nat := 18
/-- Offset of `e_phoff` (64 bits) in `Elf64_Ehdr`. -/
def off_e_phoff : Nat := 32
/-- Offset of `e_phnum` (16 bits) in `Elf64_Ehdr`. -/
def off_e_phnum : Nat := 56
/-- Offset of `p_type` (32 bits) in `Elf64_Phdr`. -/
def off_p_type : Nat := 0
/-- Offset of `p_offset` (64 bits) in `Elf64_Phdr`. -/
def off_p_offset : Nat := 8
/-- Offset of `p_filesz` (64 bits) in `Elf64_Phdr`. -/
def off_p_filesz : Nat := 32

/-- The value of `sizeof(info.interp_path)`. -/
def sizeof_interp_path : Nat := 256

/-- Number of values of a 64-bit unsigned integer (`size_t`, `Elf64_Off`, `Elf64_Xword`). -/
def U64 : Nat := 2 ^ 64

/-! ## Data model -/

inductive elf_arch_t where
  | ARCH_UNKNOWN
  | ARCH_AARCH64
  | ARCH_X86_64
  | ARCH_NOT_ELF
  | ARCH_ERROR
  deriving DecidableEq, Repr

inductive interp_type_t where
  | INTERP_NONE
  | INTERP_GLIBC
  | INTERP_BIONIC
  | INTERP_MUSL
  | INTERP_OTHER
  deriving DecidableEq, Repr

open elf_arch_t interp_type_t

/-- The struct `binary_info_t`; `interp_path` is the content of the 256-byte array. -/
structure binary_info_t where
  arch : elf_arch_t
  interp : interp_type_t
  interp_path : List Nat
  deriving DecidableEq, Repr

/-! ## Loads from the buffer -/

/-- The byte at `buf + off`, the address computed in 64-bit arithmetic. -/
def byteAt (buf : Nat → Nat) (off : Nat) : Nat := buf (off % U64) % 256

/-- A little-endian load of `w` bytes at `buf + off`. -/
def loadLE (buf : Nat → Nat) (off : Nat) : Nat → Nat
  | 0 => 0
  | w + 1 => byteAt buf off + 256 * loadLE buf (off + 1) w

/-- The offsets touched by a load of `w` bytes at `buf + off`. -/
def span (off w : Nat) : List Nat := (List.range w).map (fun k => (off + k) % U64)

/-- The bytes `memcpy(dst, buf + off, len)` copies. -/
def copyBytes (buf : Nat → Nat) (off len : Nat) : List Nat :=
  (List.range len).map (fun k => byteAt buf (off + k))

/-! ## C strings -/

/-- The bytes of a string literal. -/
def cbytes (s : String) : List Nat := s.toList.map Char.toNat

/-- The C string held by a char array: the bytes before the first NUL. -/
def cstr (a : List Nat) : List Nat := a.takeWhile (fun b => b != 0)

/-- Whether `needle` occurs in the byte string `h`, as `strstr(h, needle) != NULL` tests
(on NUL-free `h`). -/
def occursIn (needle : List Nat) : List Nat → Bool
  | [] => needle.isEmpty
  | c :: t => needle.isPrefixOf (c :: t) || occursIn needle t

/-- The test `strstr(a, needle) != NULL` on a char array `a` and a string literal. -/
def strstr (a : List Nat) (needle : String) : Bool := occursIn (cbytes needle) (cstr a)

/-- The classification chain of lines 138-147. -/
def classify_interp (interp_path : List Nat) : interp_type_t :=
  if strstr interp_path "ld-linux" then INTERP_GLIBC
  else if strstr interp_path "linker64" || strstr interp_path "linker" then INTERP_BIONIC
  else if strstr interp_path "ld-musl" then INTERP_MUSL
  else INTERP_OTHER

/-! ## Header fields -/

/-- The field `ehdr->e_machine`. -/
def e_machine (buf : Nat → Nat) : Nat := loadLE buf off_e_machine 2
/-- The field `ehdr->e_phoff`. -/
def e_phoff (buf : Nat → Nat) : Nat := loadLE buf off_e_phoff 8
/-- The field `ehdr->e_phnum`. -/
def e_phnum (buf : Nat → Nat) : Nat := loadLE buf off_e_phnum 2
/-- The offset from `buf` of `phdr[i]`, for `phdr = (Elf64_Phdr *)(buf + e_phoff)`. -/
def phdr_at (buf : Nat → Nat) (i : Nat) : Nat := e_phoff buf + i * sizeof_Elf64_Phdr
/-- The field `phdr[i].p_type`. -/
def p_type (buf : Nat → Nat) (i : Nat) : Nat := loadLE buf (phdr_at buf i + off_p_type) 4
/-- The field `phdr[i].p_offset`. -/
def p_offset (buf : Nat → Nat) (i : Nat) : Nat := loadLE buf (phdr_at buf i + off_p_offset) 8
/-- The field `phdr[i].p_filesz`. -/
def p_filesz (buf : Nat → Nat) (i : Nat) : Nat := loadLE buf (phdr_at buf i + off_p_filesz) 8

/-! ## analyze_binary -/

/-- The loop `for (i = 0; i < e_phnum; i++)` of `analyze_binary`, entered at index `i`
with `k = e_phnum - i` iterations to go.  `n` is `(size_t)n`; `reads` is the log so far. -/
def scan_phdrs (buf : Nat → Nat) (n : Nat) (info : binary_info_t) :
    Nat → Nat → List Nat → binary_info_t × List Nat
  | 0, _, reads => (info, reads)
  | k + 1, i, reads =>
    let reads := reads ++ span (phdr_at buf i + off_p_type) 4
    if p_type buf i = PT_INTERP then
      let reads := reads ++ span (phdr_at buf i + off_p_offset) 8
        ++ span (phdr_at buf i + off_p_filesz) 8
      if (p_offset buf i + p_filesz buf i) % U64 > n then (info, reads)
      else if p_filesz buf i ≥ sizeof_interp_path then (info, reads)
      else
        let interp_path := copyBytes buf (p_offset buf i) (p_filesz buf i)
          ++ List.replicate (sizeof_interp_path - p_filesz buf i) 0
        ({ info with interp := classify_interp interp_path, interp_path := interp_path },
          reads ++ span (p_offset buf i) (p_filesz buf i))
    else scan_phdrs buf n info k (i + 1) reads

/-- The loads of the magic and class checks when all of them are evaluated. -/
def ident_reads : List Nat := [0, 1, 2, 3, EI_CLASS]

/-- The function `analyze_binary` together with the log of the offsets it loads from.
`fd` is the result of `open`, `n` the result of `read(fd, buf, 4096)`. -/
def analyze_binary_traced (fd : Int) (buf : Nat → Nat) (n : Int) : binary_info_t × List Nat :=
  let info : binary_info_t := ⟨ARCH_ERROR, INTERP_NONE, List.replicate sizeof_interp_path 0⟩
  if fd < 0 then (info, [])
  else if n < (sizeof_Elf64_Ehdr : Int) then ({ info with arch := ARCH_NOT_ELF }, [])
  else if byteAt buf 0 ≠ 0x7f then ({ info with arch := ARCH_NOT_ELF }, [0])
  else if byteAt buf 1 ≠ 69 then ({ info with arch := ARCH_NOT_ELF }, [0, 1])
  else if byteAt buf 2 ≠ 76 then ({ info with arch := ARCH_NOT_ELF }, [0, 1, 2])
  else if byteAt buf 3 ≠ 70 then ({ info with arch := ARCH_NOT_ELF }, [0, 1, 2, 3])
  else if byteAt buf EI_CLASS ≠ ELFCLASS64 then ({ info with arch := ARCH_UNKNOWN }, ident_reads)
  else
    let reads := ident_reads ++ span off_e_machine 2
    if e_machine buf ≠ EM_AARCH64 ∧ e_machine buf ≠ EM_X86_64 then
      ({ info with arch := ARCH_UNKNOWN }, reads)
    else
      let info :=
        { info with arch := if e_machine buf = EM_AARCH64 then ARCH_AARCH64 else ARCH_X86_64 }
      let reads := reads ++ span off_e_phoff 8
      if e_phoff buf = 0 then (info, reads)
      else
        let reads := reads ++ span off_e_phnum 2
        if e_phnum buf = 0 then (info, reads)
        else if (e_phoff buf + e_phnum buf * sizeof_Elf64_Phdr) % U64 > n.toNat then (info, reads)
        else scan_phdrs buf n.toNat info (e_phnum buf) 0 reads

/-- The value `analyze_binary` returns. -/
def analyze_binary (fd : Int) (buf : Nat → Nat) (n : Int) : binary_info_t :=
  (analyze_binary_traced fd buf n).1

/-- The offsets from `buf` that `analyze_binary` loads from, in order. -/
def analyze_binary_reads (fd : Int) (buf : Nat → Nat) (n : Int) : List Nat :=
  (analyze_binary_traced fd buf n).2

/-! ## Header predicates used to state the properties -/

/-- The 4-byte magic is present (the check of line 91 passes). -/
def elf_magic (buf : Nat → Nat) : Prop :=
  byteAt buf 0 = 0x7f ∧ byteAt buf 1 = 69 ∧ byteAt buf 2 = 76 ∧ byteAt buf 3 = 70

instance (buf : Nat → Nat) : Decidable (elf_magic buf) := by
  unfold elf_magic; infer_instance

/-- A header that passes every check of lines 85-115: magic, class and a known machine. -/
def native_header (buf : Nat → Nat) : Prop :=
  elf_magic buf ∧ byteAt buf EI_CLASS = ELFCLASS64 ∧
    (e_machine buf = EM_AARCH64 ∨ e_machine buf = EM_X86_64)

instance (buf : Nat → Nat) : Decidable (native_header buf) := by
  unfold native_header; infer_instance

/-- The architecture a known machine value maps to (the `switch` of lines 105-111). -/
def native_arch (buf : Nat → Nat) : elf_arch_t :=
  if e_machine buf = EM_AARCH64 then ARCH_AARCH64 else ARCH_X86_64

/-- The architecture verdict as a function of the magic, the class byte and `e_machine`. -/
def header_arch (buf : Nat → Nat) : elf_arch_t :=
  if ¬ elf_magic buf then ARCH_NOT_ELF
  else if byteAt buf EI_CLASS ≠ ELFCLASS64 then ARCH_UNKNOWN
  else if e_machine buf = EM_AARCH64 then ARCH_AARCH64
  else if e_machine buf = EM_X86_64 then ARCH_X86_64
  else ARCH_UNKNOWN

/-- The value of `info` while no interpreter has been recorded. -/
def info_init (a : elf_arch_t) : binary_info_t :=
  ⟨a, INTERP_NONE, List.replicate sizeof_interp_path 0⟩

/-- The loads of the header fields up to and including `e_phoff`. -/
def reads_to_phoff : List Nat := ident_reads ++ span off_e_machine 2 ++ span off_e_phoff 8

/-- The loads of all the header fields the classifier looks at. -/
def header_reads : List Nat := reads_to_phoff ++ span off_e_phnum 2

/-- What the loop does once it has reached a `PT_INTERP` entry at index `j`
(lines 131-148). -/
def interp_of_entry (buf : Nat → Nat) (n : Nat) (info : binary_info_t) (j : Nat) :
    binary_info_t :=
  if (p_offset buf j + p_filesz buf j) % U64 > n then info
  else if p_filesz buf j ≥ sizeof_interp_path then info
  else
    { info with
      interp := classify_interp (copyBytes buf (p_offset buf j) (p_filesz buf j)
        ++ List.replicate (sizeof_interp_path - p_filesz buf j) 0)
      interp_path := copyBytes buf (p_offset buf j) (p_filesz buf j)
        ++ List.replicate (sizeof_interp_path - p_filesz buf j) 0 }

/-- Entry `i` is the first program-header entry of type `PT_INTERP`. -/
def first_interp (buf : Nat → Nat) (i : Nat) : Prop :=
  p_type buf i = PT_INTERP ∧ ∀ j, j < i → p_type buf j ≠ PT_INTERP

instance (buf : Nat → Nat) (i : Nat) : Decidable (first_interp buf i) := by
  unfold first_interp; infer_instance

/-- Memory `buf` holds the file content `bytes` at the offsets `read` filled. -/
def holds (buf : Nat → Nat) (bytes : List Nat) : Prop :=
  ∀ i, i < bytes.length → buf i = bytes.getD i 0

/-! ## Configuration of the launcher -/

def GLIBC_PREFIX : String := "/data/data/com.termux/files/usr/glibc"
def GLIBC_LIB : String := GLIBC_PREFIX ++ "/lib"
def GLIBC_LIB_X86_64 : String := GLIBC_PREFIX ++ "/lib_x86_64"
def GLIBC_LOADER : String := GLIBC_LIB ++ "/ld-linux-aarch64.so.1"
/-- The value of `PATH_MAX` in `<limits.h>`. -/
def PATH_MAX : Nat := 4096

/-! ## The process and the file system, as the launcher sees them

C strings are `String`s, one `Char` per byte. -/

/-- The answers of the operating system to the calls the launcher makes. -/
structure World where
  /-- The array `environ`. -/
  environ : List String
  /-- The result of `getcwd(cwd, PATH_MAX)`, when it succeeds. -/
  cwd : Option String
  /-- Whether `access(path, X_OK) == 0`. -/
  access_x : String → Bool
  /-- Whether `access(path, F_OK) == 0`. -/
  access_f : String → Bool
  /-- The result of `realpath`, when it succeeds. -/
  realpath : String → Option String
  /-- For each path: the result of `open`, the buffer after `read`, the result of `read`. -/
  file : String → Int × (Nat → Nat) × Int
  /-- Whether `extract_preload_library` finds or installs the preload library. -/
  preload_ok : Bool
  /-- Whether the allocations of the run (`malloc`, `strdup`) succeed. -/
  alloc_ok : Bool

/-- The test `strncmp(e, lit, strlen(lit)) == 0`. -/
def starts_with (e lit : String) : Bool := lit.toList.isPrefixOf e.toList

/-- The call `getenv(name)` on the array `environ`. -/
def getenv (environ : List String) (name : String) : Option String :=
  (environ.find? (fun e => starts_with e (name ++ "="))).map
    (fun e => String.mk (e.toList.drop (name.length + 1)))

/-- What `snprintf(dst, size, ...)` and `strncpy(dst, src, size - 1); dst[size - 1] = 0`
leave in `dst` when the full text is `s`. -/
def snprintf (size : Nat) (s : String) : String := String.mk (s.toList.take (size - 1))

/-- The tokens `strtok_r(path, ":", ...)` yields: the non-empty pieces between colons. -/
def strtok_colon (path : String) : List String :=
  ((path.toList.splitOn ':').filter (fun t => !t.isEmpty)).map String.mk

/-- The call `analyze_binary(path)` in the world `w`. -/
def analyze_file (w : World) (path : String) : binary_info_t :=
  analyze_binary (w.file path).1 (w.file path).2.1 (w.file path).2.2

/-- The function `find_in_path(name, resolved, size)`: the content of `resolved` when the
result is not `NULL`. -/
def find_in_path (w : World) (name : String) (size : Nat) : Option String :=
  if name.toList.contains '/' then
    let resolved :=
      if name.toList.head? = some '/' then snprintf size name
      else match w.cwd with
        | some cwd => snprintf size (cwd ++ "/" ++ name)
        | none => snprintf size name
    if w.access_x resolved then some resolved else none
  else
    let in_cwd := w.cwd.map (fun cwd => snprintf size (cwd ++ "/" ++ name))
    if in_cwd.any w.access_x then in_cwd
    else match getenv w.environ "PATH" with
      | none => none
      | some path_env =>
        if !w.alloc_ok then none
        else ((strtok_colon path_env).map (fun dir => snprintf size (dir ++ "/" ++ name))).find?
          w.access_x

/-- The function `find_box64(resolved, size)`. -/
def find_box64 (w : World) (size : Nat) : Option String :=
  let prefix_dir := (getenv w.environ "PREFIX").getD "/data/data/com.termux/files/usr"
  let sys_box64 := snprintf PATH_MAX (prefix_dir ++ "/bin/box64")
  match (if w.access_x sys_box64 then w.realpath sys_box64 else none) with
  | some rp => some rp
  | none => find_in_path w "box64" size

/-- The function `extract_preload_library`: the path it returns, if any. -/
def extract_preload_library (w : World) : Option String :=
  if w.preload_ok then some (snprintf PATH_MAX (GLIBC_LIB ++ "/libovgl_preload.so")) else none

/-- The entries of `environ` that the copy loop of `build_environment` skips. -/
def env_filtered (for_box64 : Bool) (e : String) : Bool :=
  starts_with e "LD_PRELOAD=" || starts_with e "OVGL_GLIBC_LIB="
    || starts_with e "OVGL_GLIBC_LOADER=" || starts_with e "OVGL_ORIG_EXE="
    || starts_with e "BOX64_LD_PRELOAD=" || starts_with e "BOX64_PATH="
    || (!for_box64 && starts_with e "BOX64_LD_LIBRARY_PATH=")

/-- The function `build_environment`, on the array `environ`, when its `malloc` succeeds. -/
def build_environment (environ : List String) (preload_path : Option String)
    (for_box64 use_preload : Bool) (orig_binary : Option String) (debug : Bool) :
    List String :=
  let fmt := snprintf (PATH_MAX + 64)
  let prefix_dir := (getenv environ "PREFIX").getD "/data/data/com.termux/files/usr"
  environ.filter (fun e => !env_filtered for_box64 e)
    ++ [fmt ("OVGL_GLIBC_LIB=" ++ GLIBC_LIB), fmt ("OVGL_GLIBC_LOADER=" ++ GLIBC_LOADER)]
    ++ (match orig_binary with
        | some p => [fmt ("OVGL_ORIG_EXE=" ++ p)]
        | none => [])
    ++ (if for_box64 then
          (if (getenv environ "BOX64_LD_LIBRARY_PATH").isNone then
            [fmt ("BOX64_LD_LIBRARY_PATH=" ++ GLIBC_LIB_X86_64)] else [])
          ++ [fmt ("BOX64_PATH=" ++ prefix_dir ++ "/glibc/bin/:" ++ prefix_dir ++ "/bin/")]
          ++ (match preload_path with
              | some p => if use_preload then [fmt ("BOX64_LD_PRELOAD=" ++ p)] else []
              | none => [])
          ++ ["BOX64_UNAME=x86_64", "LD_PRELOAD="]
        else
          (match preload_path with
           | some p => if use_preload then [fmt ("LD_PRELOAD=" ++ p)] else ["LD_PRELOAD="]
           | none => ["LD_PRELOAD="]))
    ++ (if debug then ["OVGL_DEBUG=1"] else [])

/-! ## main -/

/-- How the option loop of `main` ends. -/
inductive Parsed where
  /-- The launcher returns this status from inside the loop. -/
  | stop (status : Nat)
  /-- The loop is left with these values of `debug`, `use_preload`, `arg_start`. -/
  | run (debug use_preload : Bool) (arg_start : Nat)
  deriving DecidableEq, Repr

/-- The loop `while (arg_start < argc && argv[arg_start][0] == '-')` of `main`; the first
argument is `argv` from index `arg_start` on. -/
def parse_options : List String → Bool → Bool → Nat → Parsed
  | [], debug, use_preload, arg_start => .run debug use_preload arg_start
  | a :: rest, debug, use_preload, arg_start =>
    if a.toList.head? = some '-' then
      if a = "-h" ∨ a = "--help" then .stop 0
      else if a = "-v" ∨ a = "--version" then .stop 0
      else if a = "-d" ∨ a = "--debug" then parse_options rest true use_preload (arg_start + 1)
      else if a = "-n" ∨ a = "--no-preload" then parse_options rest debug false (arg_start + 1)
      else if a = "--" then .run debug use_preload (arg_start + 1)
      else .stop 1
    else .run debug use_preload arg_start

/-- The arguments the loops `for (j = 1; j < orig_argc; j++)` append:
`argv[arg_start + 1], ..., argv[arg_start + orig_argc - 1]`. -/
def trailing_args (argv : List String) (arg_start orig_argc : Nat) : List String :=
  (List.range' 1 (orig_argc - 1)).map (fun j => argv.getD (arg_start + j) "")

/-- How a run of the launcher ends. -/
inductive Outcome where
  /-- The launcher returns this exit status and replaces no image. -/
  | exit (status : Nat)
  /-- The launcher calls `execve(program, argv, envp)`, or `execv(program, argv)` with
  `envp` the inherited environment; when the call fails the launcher exits with 1. -/
  | exec (program : String) (argv : List String) (envp : List String)
  deriving DecidableEq, Repr

/-- The branch of `main` for an x86_64 target (lines 546-635). -/
def dispatch_x86_64 (w : World) (argv : List String) (debug use_preload : Bool)
    (arg_start : Nat) (binary_path : String) : Outcome :=
  match find_box64 w PATH_MAX with
  | none => .exit 127
  | some box64_path =>
    let box64_info := analyze_file w box64_path
    let box64_needs_glibc := box64_info.interp = INTERP_GLIBC
    if !w.alloc_ok then .exit 1
    else
      let new_env :=
        build_environment w.environ (extract_preload_library w) true use_preload
          (some binary_path) debug
      let orig_argc := argv.length - arg_start
      if box64_needs_glibc then
        .exec GLIBC_LOADER
          ([GLIBC_LOADER, "--library-path", GLIBC_LIB, "--argv0", "box64", box64_path,
              binary_path] ++ trailing_args argv arg_start orig_argc)
          new_env
      else
        .exec box64_path ([box64_path, binary_path] ++ trailing_args argv arg_start orig_argc)
          new_env

/-- The branch of `main` for an arm64 target (lines 636-701). -/
def dispatch_aarch64 (w : World) (argv : List String) (debug use_preload : Bool)
    (arg_start : Nat) (binary_path : String) (info : binary_info_t) : Outcome :=
  if info.interp = INTERP_BIONIC then .exec binary_path (argv.drop arg_start) w.environ
  else if !w.access_x GLIBC_LOADER then .exit 1
  else if !w.access_f GLIBC_LIB then .exit 1
  else if !w.alloc_ok then .exit 1
  else
    let orig_argc := argv.length - arg_start
    .exec GLIBC_LOADER
      ([GLIBC_LOADER, "--library-path", GLIBC_LIB, "--argv0", argv.getD arg_start "",
          binary_path] ++ trailing_args argv arg_start orig_argc)
      (build_environment w.environ (extract_preload_library w) false use_preload
        (some binary_path) debug)

/-- The function `main(argc, argv)` with `argc = argv.length`. -/
def main (w : World) (argv : List String) : Outcome :=
  match parse_options (argv.drop 1) false true 1 with
  | .stop status => .exit status
  | .run debug use_preload arg_start =>
    if arg_start ≥ argv.length then .exit 1
    else
      let binary_name := argv.getD arg_start ""
      match find_in_path w binary_name PATH_MAX with
      | none => .exit 127
      | some binary_path =>
        let info := analyze_file w binary_path
        if info.arch = ARCH_ERROR then .exit 1
        else if info.arch = ARCH_NOT_ELF then .exit 1
        else if info.arch = ARCH_UNKNOWN then .exit 1
        else if info.arch = ARCH_X86_64 then
          dispatch_x86_64 w argv debug use_preload arg_start binary_path
        else if info.arch = ARCH_AARCH64 then
          dispatch_aarch64 w argv debug use_preload arg_start binary_path info
        else .exit 1

/-! ## Building test images -/

/-- The `w` little-endian bytes of `v`. -/
def leBytes : Nat → Nat → List Nat
  | 0, _ => []
  | w + 1, v => v % 256 :: leBytes w (v / 256)

/-- A 64-byte `Elf64_Ehdr` with the given class byte, machine, `e_phoff` and `e_phnum`. -/
def mkEhdr (cls machine phoff phnum : Nat) : List Nat :=
  [0x7f, 69, 76, 70, cls] ++ List.replicate 11 0 ++ [2, 0] ++ leBytes 2 machine
    ++ List.replicate 12 0 ++ leBytes 8 phoff ++ List.replicate 16 0 ++ leBytes 2 phnum
    ++ List.replicate 6 0

/-- A 56-byte `Elf64_Phdr` with the given `p_type`, `p_offset` and `p_filesz`. -/
def mkPhdr (ty offset filesz : Nat) : List Nat :=
  leBytes 4 ty ++ List.replicate 4 0 ++ leBytes 8 offset ++ List.replicate 16 0
    ++ leBytes 8 filesz ++ List.replicate 16 0

/-- Memory whose first bytes are `bytes` and which holds `fill` everywhere else. -/
def memOf (bytes : List Nat) (fill : Nat) : Nat → Nat := fun i => bytes.getD i fill

/-- An arm64 image: header, a `PT_LOAD` entry, a `PT_INTERP` entry and the string
`/lib/ld-linux-aarch64.so.1` it points to (203 bytes). -/
def img_glibc : List Nat :=
  mkEhdr 2 183 64 2 ++ mkPhdr 1 0 0 ++ mkPhdr 3 176 27
    ++ cbytes "/lib/ld-linux-aarch64.so.1" ++ [0]

/-- The image `img_glibc` with the machine value of RISC-V (243). -/
def img_riscv : List Nat :=
  mkEhdr 2 243 64 2 ++ mkPhdr 1 0 0 ++ mkPhdr 3 176 27
    ++ cbytes "/lib/ld-linux-aarch64.so.1" ++ [0]

/-- An x86-64 image whose interpreter is `/lib64/ld-linux-x86-64.so.2` (148 bytes). -/
def img_x86_64 : List Nat :=
  mkEhdr 2 62 64 1 ++ mkPhdr 3 120 28 ++ cbytes "/lib64/ld-linux-x86-64.so.2" ++ [0]

/-- An arm64 image whose interpreter string names both loaders (153 bytes). -/
def img_both : List Nat :=
  mkEhdr 2 183 64 1 ++ mkPhdr 3 120 33 ++ cbytes "/system/bin/linker64/ld-linux.so" ++ [0]

/-- A 64-byte file: an arm64 header declaring one program-header entry at
`e_phoff = 2^64 - 56`. -/
def img_phoff_wrap : List Nat := mkEhdr 2 183 (2 ^ 64 - 56) 1

/-- A 64-byte file: an x86-64 header declaring two program-header entries at
`e_phoff = 2^64 - 112`. -/
def img_table_wrap : List Nat := mkEhdr 2 62 (2 ^ 64 - 112) 2

/-- A 120-byte file: an arm64 header and one `PT_INTERP` entry with
`p_offset = 2^64 - 1` and `p_filesz = 1`. -/
def img_string_wrap : List Nat := mkEhdr 2 183 64 1 ++ mkPhdr 3 (2 ^ 64 - 1) 1

/-- A 147-byte file: an arm64 header declaring two program-header entries, of which only
the first, a `PT_INTERP` entry, and the string it points to are in the file. -/
def img_table_cut : List Nat :=
  mkEhdr 2 183 64 2 ++ mkPhdr 3 120 27 ++ cbytes "/lib/ld-linux-aarch64.so.1" ++ [0]

/-- A 376-byte file: an arm64 header and one `PT_INTERP` entry whose string has 256
bytes. -/
def img_long_interp : List Nat :=
  mkEhdr 2 183 64 1 ++ mkPhdr 3 120 256 ++ List.replicate 255 47 ++ [0]

/-! ## A world for the examples -/

/-- A process and file system: working directory `/work`, an arm64 glibc program
`/work/app`, an x86-64 program `/work/app64`, a glibc-linked `box64` in the default
`$PREFIX/bin`, the glibc loader and library directory installed. -/
def world_demo : World where
  environ := ["HOME=/home", "LD_PRELOAD=/x/libtermux-exec.so", "PATH=/usr/bin"]
  cwd := some "/work"
  access_x := fun p => p == "/work/app" || p == "/work/app64" || p == GLIBC_LOADER
    || p == "/data/data/com.termux/files/usr/bin/box64"
  access_f := fun p => p == GLIBC_LIB
  realpath := fun p => some p
  file := fun p =>
    if p = "/work/app" then (3, memOf img_glibc 0, 203)
    else if p = "/work/app64" then (3, memOf img_x86_64 0, 148)
    else if p = "/data/data/com.termux/files/usr/bin/box64" then (3, memOf img_glibc 0, 203)
    else (-1, fun _ => 0, 0)
  preload_ok := true
  alloc_ok := true

/-- The paths `main` passes to `analyze_binary` (lines 500 and 563), in order. -/
def analyzed_paths (w : World) (argv : List String) : List String :=
  match parse_options (argv.drop 1) false true 1 with
  | .stop _ => []
  | .run _ _ arg_start =>
    if arg_start ≥ argv.length then []
    else
      match find_in_path w (argv.getD arg_start "") PATH_MAX with
      | none => []
      | some binary_path =>
        [binary_path] ++
          (if (analyze_file w binary_path).arch = ARCH_X86_64 then
            match find_box64 w PATH_MAX with
            | none => []
            | some box64_path => [box64_path]
          else [])

/-- An arm64 image whose interpreter is the host loader `/system/bin/linker64`
(141 bytes). -/
def img_bionic : List Nat :=
  mkEhdr 2 183 64 1 ++ mkPhdr 3 120 21 ++ cbytes "/system/bin/linker64" ++ [0]

/-- A statically linked arm64 image: a 64-byte header without program headers. -/
def img_static : List Nat := mkEhdr 2 183 0 0

/-- A process and file system: working directory `/home/u` holding the host-loader
program `sh`, the static arm64 program `static`, the arm64 glibc program `app` and the
x86-64 program `app64`; `PATH` is `/usr/local/bin`, which holds a host-loader `box64`; the
glibc library directory is installed, the glibc loader is if `loader` is set. -/
def world_host (loader : Bool) : World where
  environ := ["OVGL_DEBUG=1", "PATH=/usr/local/bin", "BOX64_UNAME=aarch64"]
  cwd := some "/home/u"
  access_x := fun p => p == "/home/u/sh" || p == "/home/u/static" || p == "/home/u/app"
    || p == "/home/u/app64" || p == "/usr/local/bin/box64" || (loader && p == GLIBC_LOADER)
  access_f := fun p => p == GLIBC_LIB
  realpath := fun p => some p
  file := fun p =>
    if p = "/home/u/sh" then (3, memOf img_bionic 0, 141)
    else if p = "/home/u/static" then (3, memOf img_static 0, 64)
    else if p = "/home/u/app" then (3, memOf img_glibc 0, 203)
    else if p = "/home/u/app64" then (3, memOf img_x86_64 0, 148)
    else if p = "/usr/local/bin/box64" then (3, memOf img_bionic 0, 141)
    else (-1, fun _ => 0, 0)
  preload_ok := false
  alloc_ok := true

/-- An inherited environment with unique keys that already holds the debug flag, the
emulated-uname override and values for the overridden names. -/
def env_inherited : List String :=
  ["HOME=/home/u", "OVGL_DEBUG=1", "BOX64_UNAME=aarch64", "OVGL_GLIBC_LIB=/old/lib",
    "OVGL_GLIBC_LOADER=/old/ld.so", "OVGL_ORIG_EXE=/old/exe",
    "LD_PRELOAD=/system/lib64/libtermux-exec.so", "BOX64_LD_LIBRARY_PATH=/my/x86/libs"]

/-- The names before the `=` of the entries of an environment. -/
def env_keys (env : List String) : List String :=
  env.map (fun e => String.mk (e.toList.takeWhile (fun c => c != '=')))

/-! ## The interception module (`src/ovgl_preload.c`) -/

/-- Type value of an executable file in `<elf.h>`. -/
def ET_EXEC : Nat := 2
/-- Type value of a shared object in `<elf.h>`. -/
def ET_DYN : Nat := 3
/-- Offset of `e_type` (16 bits) in `Elf64_Ehdr`. -/
def off_e_type : Nat := 16
/-- The field `ehdr->e_type`. -/
def e_type (buf : Nat → Nat) : Nat := loadLE buf off_e_type 2

/-- The C string that starts at `buf + off`: the bytes before the first NUL, looked for in
at most `fuel` bytes (the address space has `2^64`). -/
def cstr_at (buf : Nat → Nat) : Nat → Nat → List Nat
  | 0, _ => []
  | fuel + 1, off =>
    if byteAt buf off = 0 then [] else byteAt buf off :: cstr_at buf fuel (off + 1)

/-- The loop `for (i = 0; i < e_phnum; i++)` of `is_glibc_elf` (lines 78-100), entered at
index `i` with `k = e_phnum - i` iterations to go; `n` is `(size_t)n`. -/
def scan_glibc (environ : List String) (buf : Nat → Nat) (n : Nat) : Nat → Nat → Int
  | 0, _ => 0
  | k + 1, i =>
    if p_type buf i = PT_INTERP then
      if (p_offset buf i + p_filesz buf i) % U64 > n then 0
      else
        let interp := cstr_at buf U64 (p_offset buf i)
        if occursIn (cbytes "ld-linux") interp || occursIn (cbytes "ld-musl") interp then
          match getenv environ "OVGL_GLIBC_LIB" with
          | some glibc_lib => if occursIn (cbytes glibc_lib) interp then 0 else 1
          | none => 1
        else 0
    else scan_glibc environ buf n k (i + 1)

/-- The function `is_glibc_elf` of the interception module: `fd` is the result of `open`,
`n` the result of `read(fd, buf, 4096)`, `environ` the environment of the process. -/
def is_glibc_elf (environ : List String) (fd : Int) (buf : Nat → Nat) (n : Int) : Int :=
  if fd < 0 then -1
  else if n < (sizeof_Elf64_Ehdr : Int) then 0
  else if ¬ elf_magic buf then 0
  else if byteAt buf EI_CLASS ≠ ELFCLASS64 then 0
  else if e_type buf ≠ ET_EXEC ∧ e_type buf ≠ ET_DYN then 0
  else if e_phoff buf = 0 ∨ e_phnum buf = 0 then 0
  else if (e_phoff buf + e_phnum buf * sizeof_Elf64_Phdr) % U64 > n.toNat then 0
  else scan_glibc environ buf n.toNat (e_phnum buf) 0

/-- The function `resolve_path(path, resolved)` of the interception module: the content
of `resolved` (its `strdup` is not checked and taken to succeed). -/
def resolve_path (w : World) (path : String) : String :=
  if path.toList.head? = some '/' then snprintf PATH_MAX path
  else
    let in_path :=
      if path.toList.contains '/' then none
      else match getenv w.environ "PATH" with
        | none => none
        | some path_env =>
          ((strtok_colon path_env).map (fun dir => snprintf PATH_MAX (dir ++ "/" ++ path))).find?
            w.access_x
    match in_path with
    | some resolved => resolved
    | none =>
      match w.cwd with
      | some cwd => snprintf PATH_MAX (cwd ++ "/" ++ path)
      | none => snprintf PATH_MAX path

/-- The function `build_loader_argv`, when its `malloc` succeeds: the vector before the
terminating NULL. -/
def build_loader_argv (loader lib_path binary : String) (argv : List String) : List String :=
  [loader, "--library-path", lib_path, "--argv0", argv.headD binary, binary]
    ++ trailing_args argv 0 argv.length

/-- The value of `new_argc` in `build_loader_argv`. -/
def new_argc (argv : List String) : Nat := 6 + (if argv.length > 0 then argv.length - 1 else 0)

/-- The test `strstr(e, needle) != NULL` on two C strings. -/
def str_contains (e needle : String) : Bool := occursIn (cbytes needle) (cbytes e)

/-- The entries of `envp` that the copy loop of `build_new_envp` skips (lines 189-199). -/
def envp_skipped (e : String) : Bool :=
  (starts_with e "LD_PRELOAD=" && str_contains e "libtermux-exec")
    || starts_with e "OVGL_ORIG_EXE="

/-- The function `build_new_envp`, when its `malloc` succeeds. -/
def build_new_envp (envp : List String) (orig_exe : String) : List String :=
  envp.filter (fun e => !envp_skipped e) ++ ["OVGL_ORIG_EXE=" ++ orig_exe]

/-- What the hooked `execve` does. -/
inductive HookOutcome where
  /-- The hook returns -1 with `errno = ENOSYS` and calls nothing. -/
  | enosys
  /-- The hook returns the result of `real_execve(pathname, argv, envp)`. -/
  | real_execve (pathname : String) (argv : List String) (envp : List String)
  deriving DecidableEq, Repr

/-- The hooked `execve(pathname, argv, envp)` of the interception module, in a process
whose environment and file system are `w`; `dlsym_ok` tells whether
`dlsym(RTLD_NEXT, "execve")` finds the real function. -/
def execve (w : World) (dlsym_ok : Bool) (pathname : String) (argv envp : List String) :
    HookOutcome :=
  if !dlsym_ok then .enosys
  else
    match getenv w.environ "OVGL_GLIBC_LIB", getenv w.environ "OVGL_GLIBC_LOADER" with
    | some glibc_lib, some glibc_loader =>
      let resolved := resolve_path w pathname
      let is_glibc :=
        is_glibc_elf w.environ (w.file resolved).1 (w.file resolved).2.1 (w.file resolved).2.2
      if is_glibc ≠ 1 then .real_execve pathname argv envp
      else if !w.alloc_ok then .real_execve pathname argv envp
      else
        .real_execve glibc_loader (build_loader_argv glibc_loader glibc_lib resolved argv)
          (build_new_envp envp resolved)
    | _, _ => .real_execve pathname argv envp

/-- A process started by the launcher: the protocol variables are set, `PATH` is
`/usr/bin`, which holds the glibc program `tool` and the host-loader program `ls`. -/
def world_hooked : World where
  environ := ["OVGL_GLIBC_LIB=/data/data/com.termux/files/usr/glibc/lib",
    "OVGL_GLIBC_LOADER=/data/data/com.termux/files/usr/glibc/lib/ld-linux-aarch64.so.1",
    "PATH=/usr/bin"]
  cwd := some "/home/u"
  access_x := fun p => p == "/usr/bin/tool" || p == "/usr/bin/ls"
  access_f := fun _ => true
  realpath := fun p => some p
  file := fun p =>
    if p = "/usr/bin/tool" then (3, memOf img_glibc 0, 203)
    else if p = "/usr/bin/ls" then (3, memOf img_bionic 0, 141)
    else (-1, fun _ => 0, 0)
  preload_ok := true
  alloc_ok := true

/-! ## Notions used to state the properties of the option loop, the vectors and the
inherited entries -/

/-- The outcome `o` with the arguments `rest` appended to the argument vector of its
plan, if it has one. -/
def append_args (o : Outcome) (rest : List String) : Outcome :=
  match o with
  | .exit status => .exit status
  | .exec program argv envp => .exec program (argv ++ rest) envp

/-- Whether `a` is one of the spellings of the debug option. -/
def is_debug_option (a : String) : Bool := a = "-d" || a = "--debug"

/-- Whether `a` is one of the spellings of the option that turns the preload off. -/
def is_no_preload_option (a : String) : Bool := a = "-n" || a = "--no-preload"

/-- The number of pointers `build_environment` allocates for `envc` inherited entries:
`malloc((envc + 15) * sizeof(char *))` (line 318 of `ovgl.c`). -/
def build_environment_alloc (envc : Nat) : Nat := envc + 15

/-- The number of pointers `build_new_envp` allocates: `malloc((envc + 2) * sizeof(char *))`
(line 183 of `ovgl_preload.c`). -/
def build_new_envp_alloc (envc : Nat) : Nat := envc + 2

/-- The number of pointers `build_loader_argv` allocates:
`malloc((new_argc + 1) * sizeof(char *))` (line 156 of `ovgl_preload.c`). -/
def build_loader_argv_alloc (argv : List String) : Nat := new_argc argv + 1

/-- The number of pointers `main` allocates for the loader plan:
`malloc((orig_argc + 6) * sizeof(char *))` (line 665 of `ovgl.c`). -/
def loader_plan_alloc (orig_argc : Nat) : Nat := orig_argc + 6

/-- The number of pointers `main` allocates for the nested emulator plan:
`malloc((orig_argc + 8) * sizeof(char *))` (line 584 of `ovgl.c`). -/
def nested_emulator_plan_alloc (orig_argc : Nat) : Nat := orig_argc + 8

/-- The number of pointers `main` allocates for the direct emulator plan:
`malloc((orig_argc + 2) * sizeof(char *))` (line 614 of `ovgl.c`). -/
def direct_emulator_plan_alloc (orig_argc : Nat) : Nat := orig_argc + 2

/-- The name of an environment entry: its text before the first `=`. -/
def env_key (e : String) : String := String.mk (e.toList.takeWhile (fun c => c != '='))

/-- The names whose inherited entries the copy loop of `build_environment` skips. -/
def filtered_names (for_box64 : Bool) : List String :=
  ["LD_PRELOAD", "OVGL_GLIBC_LIB", "OVGL_GLIBC_LOADER", "OVGL_ORIG_EXE", "BOX64_LD_PRELOAD",
    "BOX64_PATH"] ++ (if for_box64 then [] else ["BOX64_LD_LIBRARY_PATH"])

/-! ## The hooks of readlink (`src/ovgl_preload.c`) -/

/-- The hooked `readlink(pathname, buf, bufsiz)` of the interception module (lines
303-324).  `real_readlink pathname bufsiz` is what the real `readlink` does: its result
and the `bufsiz` bytes of `buf` after it.  The value is the result of the hook and the
bytes of `buf` after it. -/
def readlink (environ : List String) (real_readlink : String → Nat → Int × List Nat)
    (pathname : String) (bufsiz : Nat) : Int × List Nat :=
  let ret := real_readlink pathname bufsiz
  if ret.1 > 0 ∧ pathname = "/proc/self/exe" then
    match getenv environ "OVGL_ORIG_EXE" with
    | some orig_exe =>
      if orig_exe.length < bufsiz then
        ((orig_exe.length : Int), cbytes orig_exe ++ ret.2.drop orig_exe.length)
      else ret
    | none => ret
  else ret

/-- The hooked `readlinkat(dirfd, pathname, buf, bufsiz)` of the interception module
(lines 329-350), like `readlink`. -/
def readlinkat (environ : List String) (real_readlinkat : Int → String → Nat → Int × List Nat)
    (dirfd : Int) (pathname : String) (bufsiz : Nat) : Int × List Nat :=
  let ret := real_readlinkat dirfd pathname bufsiz
  if ret.1 > 0 ∧ pathname = "/proc/self/exe" then
    match getenv environ "OVGL_ORIG_EXE" with
    | some orig_exe =>
      if orig_exe.length < bufsiz then
        ((orig_exe.length : Int), cbytes orig_exe ++ ret.2.drop orig_exe.length)
      else ret
    | none => ret
  else ret

/-- A real `readlink` for which every link points to `target`: it stores the first
`bufsiz` bytes of `target` and returns their number; the rest of `buf` holds zeros. -/
def real_readlink_to (target : String) : String → Nat → Int × List Nat :=
  fun _ bufsiz =>
    ((min bufsiz target.length : Nat),
      (cbytes target).take bufsiz ++ List.replicate (bufsiz - target.length) 0)

/-- A real `readlink` that fails: it returns -1 and leaves the zeros `buf` holds. -/
def real_readlink_fails : String → Nat → Int × List Nat :=
  fun _ bufsiz => (-1, List.replicate bufsiz 0)

/-! ## The loads of is_glibc_elf -/

/-- The number of bytes of the C string `s`, its terminating NUL counted as one more, that
`strstr(s, needle)` has to look at: those up to the end of the first occurrence of
`needle`, or all of them through the NUL when there is none. -/
def strstr_examined (needle : List Nat) : List Nat → Nat
  | [] => if needle.isEmpty then 0 else 1
  | c :: t => if needle.isPrefixOf (c :: t) then needle.length
      else 1 + strstr_examined needle t

/-- The loads from the string `interp` at `buf + off` in lines 85-92 of `is_glibc_elf`:
`debug_print("%s")` when debugging is on, the search for `ld-linux`, the search for
`ld-musl` when the first fails, the search for the value of `OVGL_GLIBC_LIB` when one of
them succeeds and the variable is set. -/
def interp_reads (environ : List String) (off : Nat) (interp : List Nat) : List Nat :=
  (if (getenv environ "OVGL_DEBUG").isSome then span off (interp.length + 1) else [])
    ++ span off (strstr_examined (cbytes "ld-linux") interp)
    ++ (if occursIn (cbytes "ld-linux") interp then []
        else span off (strstr_examined (cbytes "ld-musl") interp))
    ++ (if occursIn (cbytes "ld-linux") interp || occursIn (cbytes "ld-musl") interp then
          match getenv environ "OVGL_GLIBC_LIB" with
          | some glibc_lib => span off (strstr_examined (cbytes glibc_lib) interp)
          | none => []
        else [])

/-- The loop of `is_glibc_elf` (lines 78-100) together with the log of the offsets it
loads from; `reads` is the log so far. -/
def scan_glibc_traced (environ : List String) (buf : Nat → Nat) (n : Nat) :
    Nat → Nat → List Nat → Int × List Nat
  | 0, _, reads => (0, reads)
  | k + 1, i, reads =>
    let reads := reads ++ span (phdr_at buf i + off_p_type) 4
    if p_type buf i = PT_INTERP then
      let reads := reads ++ span (phdr_at buf i + off_p_offset) 8
        ++ span (phdr_at buf i + off_p_filesz) 8
      if (p_offset buf i + p_filesz buf i) % U64 > n then (0, reads)
      else
        let interp := cstr_at buf U64 (p_offset buf i)
        let reads := reads ++ interp_reads environ (p_offset buf i) interp
        if occursIn (cbytes "ld-linux") interp || occursIn (cbytes "ld-musl") interp then
          match getenv environ "OVGL_GLIBC_LIB" with
          | some glibc_lib => if occursIn (cbytes glibc_lib) interp then (0, reads) else (1, reads)
          | none => (1, reads)
        else (0, reads)
    else scan_glibc_traced environ buf n k (i + 1) reads

/-- The function `is_glibc_elf` together with the log of the offsets of `buf` it loads
from. -/
def is_glibc_elf_traced (environ : List String) (fd : Int) (buf : Nat → Nat) (n : Int) :
    Int × List Nat :=
  if fd < 0 then (-1, [])
  else if n < (sizeof_Elf64_Ehdr : Int) then (0, [])
  else if byteAt buf 0 ≠ 0x7f then (0, [0])
  else if byteAt buf 1 ≠ 69 then (0, [0, 1])
  else if byteAt buf 2 ≠ 76 then (0, [0, 1, 2])
  else if byteAt buf 3 ≠ 70 then (0, [0, 1, 2, 3])
  else if byteAt buf EI_CLASS ≠ ELFCLASS64 then (0, ident_reads)
  else
    let reads := ident_reads ++ span off_e_type 2
    if e_type buf ≠ ET_EXEC ∧ e_type buf ≠ ET_DYN then (0, reads)
    else
      let reads := reads ++ span off_e_phoff 8
      if e_phoff buf = 0 then (0, reads)
      else
        let reads := reads ++ span off_e_phnum 2
        if e_phnum buf = 0 then (0, reads)
        else if (e_phoff buf + e_phnum buf * sizeof_Elf64_Phdr) % U64 > n.toNat then (0, reads)
        else scan_glibc_traced environ buf n.toNat (e_phnum buf) 0 reads

/-- The offsets from `buf` that `is_glibc_elf` loads from, in order. -/
def is_glibc_elf_reads (environ : List String) (fd : Int) (buf : Nat → Nat) (n : Int) :
    List Nat :=
  (is_glibc_elf_traced environ fd buf n).2

/-- A 128-byte file: an arm64 header, one `PT_INTERP` entry with `p_offset = 120` and
`p_filesz = 8`, and the 8 bytes `/bin/cat` with no NUL after them: the file ends there. -/
def img_unterminated : List Nat := mkEhdr 2 183 64 1 ++ mkPhdr 3 120 8 ++ cbytes "/bin/cat"

/-! ## Comparing is_glibc_elf with analyze_binary -/

/-- The conditions on the `PT_INTERP` entry `i` under which `is_glibc_elf` and
`analyze_binary` look at the same string and judge it alike: the entry declares fewer than
256 bytes, one of them is a NUL, the string names no musl loader unless it also names
`ld-linux`, and the value of `OVGL_GLIBC_LIB`, when set, does not occur in it. -/
def same_interp_string (environ : List String) (buf : Nat → Nat) (i : Nat) : Prop :=
  p_filesz buf i < sizeof_interp_path ∧
    (∃ k, k < p_filesz buf i ∧ byteAt buf (p_offset buf i + k) = 0) ∧
    (occursIn (cbytes "ld-musl") (cstr_at buf U64 (p_offset buf i)) = true →
      occursIn (cbytes "ld-linux") (cstr_at buf U64 (p_offset buf i)) = true) ∧
    (getenv environ "OVGL_GLIBC_LIB").all
      (fun glibc_lib => !occursIn (cbytes glibc_lib) (cstr_at buf U64 (p_offset buf i))) = true

instance (environ : List String) (buf : Nat → Nat) (i : Nat) :
    Decidable (same_interp_string environ buf i) := by
  unfold same_interp_string; infer_instance

/-- An arm64 image whose interpreter is the musl loader `/lib/ld-musl-aarch64.so.1`
(146 bytes). -/
def img_musl : List Nat :=
  mkEhdr 2 183 64 1 ++ mkPhdr 3 120 26 ++ cbytes "/lib/ld-musl-aarch64.so.1" ++ [0]

/-- The image `img_glibc` with `e_type = ET_CORE` (4) in place of `ET_EXEC`. -/
def img_core : List Nat := img_glibc.set 16 4

/-- A 376-byte file: an arm64 header and one `PT_INTERP` entry whose string has 256
bytes, NUL included, and names `ld-linux`. -/
def img_long_glibc : List Nat :=
  mkEhdr 2 183 64 1 ++ mkPhdr 3 120 256 ++ List.replicate 241 47 ++ cbytes "ld-linux.so.1"
    ++ [0]

/-! ## The relay script (`ensure_box64_wrapper` of `src/ovgl.c`) -/

/-- What `stat` and `fopen` find at `wrapper_path`, the file `GLIBC_PREFIX/bin/box64`. -/
inductive Node where
  /-- Nothing: `stat` fails. -/
  | absent
  /-- A regular file; `xusr` tells whether its mode has `S_IXUSR`. -/
  | regular (xusr : Bool) (content : String)
  /-- Something that is not a regular file. -/
  | other
  deriving DecidableEq, Repr

/-- The file system as `ensure_box64_wrapper` sees it: what is at `wrapper_path`, and
whether `fopen(wrapper_path, "r")`, `unlink(wrapper_path)`, `fopen(wrapper_path, "w")` and
`chmod(wrapper_path, 0755)` succeed. -/
structure Fs where
  /-- What is at `wrapper_path`. -/
  node : Node
  /-- Whether the file can be opened for reading. -/
  fopen_r_ok : Bool
  /-- Whether `unlink` succeeds. -/
  unlink_ok : Bool
  /-- Whether `fopen(wrapper_path, "w")` succeeds, creating or truncating a regular
  file. -/
  fopen_w_ok : Bool
  /-- Whether `chmod` succeeds. -/
  chmod_ok : Bool
  deriving DecidableEq, Repr

/-- The calls of `ensure_box64_wrapper` that change the file system. -/
inductive FsOp where
  /-- The call `unlink(wrapper_path)`. -/
  | unlink
  /-- The calls `fopen(wrapper_path, "w")`, `fprintf`, `fclose` that store `content`. -/
  | write (content : String)
  /-- The call `chmod(wrapper_path, 0755)`. -/
  | chmod
  deriving DecidableEq, Repr

/-- The characters `fgets` stores when it may store `k` of them: those of the unread part
of the file up to and including the first newline. -/
def fgets_line : Nat → List Char → List Char
  | 0, _ => []
  | _ + 1, [] => []
  | k + 1, c :: t => if c = Char.ofNat 10 then [c] else c :: fgets_line k t

/-- The call `fgets(buf, size, f)` on a file whose unread part is `unread`: `none` for
`NULL` at the end of the file, else the content of `buf` and what remains unread. -/
def fgets (size : Nat) (unread : List Char) : Option (List Char × List Char) :=
  if unread.isEmpty then none
  else some (fgets_line (size - 1) unread,
    unread.drop (fgets_line (size - 1) unread).length)

/-- The two lines `ensure_box64_wrapper` writes (lines 261-263). -/
def wrapper_script (real_box64_path : String) : String :=
  "#!/data/data/com.termux/files/usr/bin/sh\n" ++
    ("exec " ++ GLIBC_LOADER ++ " --library-path " ++ GLIBC_LIB ++ " " ++ real_box64_path
      ++ " " ++ String.mk [Char.ofNat 34, '$', '@', Char.ofNat 34, Char.ofNat 10])

/-- The check of lines 240-248 on a file opened for reading: the first line, read into
`char buf[512]`, holds `#!/`, and the second, read into the same buffer, holds
`real_box64_path`. -/
def wrapper_is_correct (content real_box64_path : String) : Bool :=
  match fgets 512 content.toList with
  | none => false
  | some (line1, unread) =>
    if strstr (line1.map Char.toNat) "#!/" then
      match fgets 512 unread with
      | none => false
      | some (line2, _) => strstr (line2.map Char.toNat) real_box64_path
    else false

/-- The test of lines 235-250: `stat` finds a regular file with `S_IXUSR`, it can be opened
for reading, and its first two lines pass the check. -/
def wrapper_already_correct (fs : Fs) (real_box64_path : String) : Bool :=
  match fs.node with
  | .regular true content => fs.fopen_r_ok && wrapper_is_correct content real_box64_path
  | _ => false

/-- The function `ensure_box64_wrapper(real_box64_path)` (lines 229-269): the file system
after it and the calls it made that change the file system, in order.  A file that
`fopen` creates has no `S_IXUSR` before `chmod`; one it truncates keeps its mode. -/
def ensure_box64_wrapper (fs : Fs) (real_box64_path : String) : Fs × List FsOp :=
  if wrapper_already_correct fs real_box64_path then (fs, [])
  else
    let removed : Node × List FsOp :=
      match fs.node with
      | .absent => (.absent, [])
      | node => (if fs.unlink_ok then .absent else node, [.unlink])
    if !fs.fopen_w_ok then ({ fs with node := removed.1 }, removed.2)
    else
      let xusr :=
        match removed.1 with
        | .regular x _ => x
        | _ => false
      ({ fs with node := .regular (fs.chmod_ok || xusr) (wrapper_script real_box64_path) },
        removed.2 ++ [.write (wrapper_script real_box64_path), .chmod])

/-- A writable location that holds nothing yet. -/
def fs_empty : Fs := ⟨.absent, true, true, true, true⟩

/-- An emulator path of 408 bytes: two directories with names of 200 bytes and the file
`box64`. -/
def long_box64_path : String :=
  "/" ++ String.mk (List.replicate 200 'a') ++ "/" ++ String.mk (List.replicate 200 'b')
    ++ "/box64"

/-! ## Lemmas: C strings -/

theorem occursIn_iff_infix (needle h : List Nat) : occursIn needle h = true ↔ needle <:+: h := by
  induction h with
  | nil => simp [occursIn, List.isEmpty_iff]
  | cons c t ih =>
    simp only [occursIn, Bool.or_eq_true, List.isPrefixOf_iff_prefix, ih, List.infix_cons_iff]

theorem cstr_append_zeros (a : List Nat) (k : Nat) :
    cstr (a ++ List.replicate (k + 1) 0) = cstr a := by
  induction a with
  | nil => simp [cstr, List.replicate_succ]
  | cons c t ih =>
    simp only [cstr, List.cons_append, List.takeWhile_cons] at ih ⊢
    split_ifs
    · rw [ih]
    · rfl

theorem cbytes_ld_linux : cbytes "ld-linux" = [108, 100, 45, 108, 105, 110, 117, 120] := by decide
theorem cbytes_linker : cbytes "linker" = [108, 105, 110, 107, 101, 114] := by decide
theorem cbytes_linker64 : cbytes "linker64" = [108, 105, 110, 107, 101, 114, 54, 52] := by decide
theorem cbytes_ld_musl : cbytes "ld-musl" = [108, 100, 45, 109, 117, 115, 108] := by decide

theorem linker64_imp_linker (s : List Nat) (h : cbytes "linker64" <:+: s) :
    cbytes "linker" <:+: s := by
  have hp : cbytes "linker" <:+: cbytes "linker64" := by
    rw [cbytes_linker, cbytes_linker64]
    exact (List.prefix_append _ [54, 52]).isInfix
  exact hp.trans h

/-- The classification chain in terms of the substring relation. -/
theorem classify_interp_eq (a : List Nat) :
    classify_interp a =
      if cbytes "ld-linux" <:+: cstr a then INTERP_GLIBC
      else if cbytes "linker" <:+: cstr a then INTERP_BIONIC
      else if cbytes "ld-musl" <:+: cstr a then INTERP_MUSL
      else INTERP_OTHER := by
  unfold classify_interp strstr
  by_cases h1 : cbytes "ld-linux" <:+: cstr a
  · simp [h1, occursIn_iff_infix]
  · by_cases h2 : cbytes "linker" <:+: cstr a
    · simp [h1, h2, occursIn_iff_infix]
    · have h3 : ¬ cbytes "linker64" <:+: cstr a := fun h => h2 (linker64_imp_linker _ h)
      simp [h1, h2, h3, occursIn_iff_infix]

theorem classify_interp_ne_none (a : List Nat) : classify_interp a ≠ INTERP_NONE := by
  unfold classify_interp
  split_ifs <;> decide

theorem classify_single (b : Nat) :
    classify_interp ([b] ++ List.replicate 255 0) = INTERP_OTHER := by
  rw [classify_interp_eq, cstr_append_zeros]
  have hlen : (cstr [b]).length ≤ 1 := by
    unfold cstr
    exact (List.takeWhile_sublist _).length_le
  have h1 : ¬ cbytes "ld-linux" <:+: cstr [b] := fun h => by
    have := h.length_le; rw [cbytes_ld_linux] at this; simp at this; omega
  have h2 : ¬ cbytes "linker" <:+: cstr [b] := fun h => by
    have := h.length_le; rw [cbytes_linker] at this; simp at this; omega
  have h3 : ¬ cbytes "ld-musl" <:+: cstr [b] := fun h => by
    have := h.length_le; rw [cbytes_ld_musl] at this; simp at this; omega
  simp only [h1, h2, h3, if_false]

/-! ## Lemmas: memory holding a file -/

theorem byteAt_congr (buf buf' : Nat → Nat) (off : Nat) (h : buf (off % U64) = buf' (off % U64)) :
    byteAt buf off = byteAt buf' off := by
  simp only [byteAt, h]

theorem loadLE_congr (buf buf' : Nat → Nat) (w off : Nat)
    (h : ∀ k, k < w → buf ((off + k) % U64) = buf' ((off + k) % U64)) :
    loadLE buf off w = loadLE buf' off w := by
  induction w generalizing off with
  | zero => rfl
  | succ w ih =>
    simp only [loadLE]
    rw [byteAt_congr buf buf' off (by simpa using h 0 (by omega)),
      ih (off + 1) (fun k hk => by simpa [Nat.add_assoc, Nat.add_comm 1 k] using h (k + 1) (by omega))]

theorem holds_memOf_self (bytes : List Nat) : holds (memOf bytes 0) bytes := fun _ _ => rfl

theorem holds_memOf_fill (bytes : List Nat) (fill : Nat) : holds (memOf bytes fill) bytes :=
  fun i hi => by simp only [memOf, List.getD_eq_getElem _ _ hi]

theorem loadLE_of_holds (buf : Nat → Nat) (bytes : List Nat) (h : holds buf bytes)
    (hl : bytes.length ≤ U64) (off w : Nat) (hb : off + w ≤ bytes.length) :
    loadLE buf off w = loadLE (memOf bytes 0) off w := by
  apply loadLE_congr
  intro k hk
  have : (off + k) % U64 = off + k := Nat.mod_eq_of_lt (by omega)
  rw [this]
  exact h _ (by omega)

theorem byteAt_of_holds (buf : Nat → Nat) (bytes : List Nat) (h : holds buf bytes)
    (hl : bytes.length ≤ U64) (off : Nat) (hb : off < bytes.length) :
    byteAt buf off = byteAt (memOf bytes 0) off := by
  apply byteAt_congr
  have : off % U64 = off := Nat.mod_eq_of_lt (by omega)
  rw [this]
  exact h _ hb

theorem header_of_holds (buf : Nat → Nat) (bytes : List Nat) (h : holds buf bytes)
    (hl : bytes.length ≤ U64) (h64 : 64 ≤ bytes.length) :
    (native_header buf ↔ native_header (memOf bytes 0)) ∧
      e_machine buf = e_machine (memOf bytes 0) ∧ e_phoff buf = e_phoff (memOf bytes 0) ∧
      e_phnum buf = e_phnum (memOf bytes 0) := by
  have hm : e_machine buf = e_machine (memOf bytes 0) :=
    loadLE_of_holds buf bytes h hl _ _ (by simp only [off_e_machine]; omega)
  refine ⟨?_, hm, loadLE_of_holds buf bytes h hl _ _ (by simp only [off_e_phoff]; omega),
    loadLE_of_holds buf bytes h hl _ _ (by simp only [off_e_phnum]; omega)⟩
  simp only [native_header, elf_magic, hm,
    byteAt_of_holds buf bytes h hl 0 (by omega), byteAt_of_holds buf bytes h hl 1 (by omega),
    byteAt_of_holds buf bytes h hl 2 (by omega), byteAt_of_holds buf bytes h hl 3 (by omega),
    byteAt_of_holds buf bytes h hl EI_CLASS (by simp only [EI_CLASS]; omega)]

/-- The fields of a program-header entry that lies inside the file. -/
theorem phdr_of_holds (buf : Nat → Nat) (bytes : List Nat) (h : holds buf bytes)
    (hl : bytes.length ≤ U64) (h64 : 64 ≤ bytes.length) (i : Nat)
    (hb : phdr_at (memOf bytes 0) i + sizeof_Elf64_Phdr ≤ bytes.length) :
    p_type buf i = p_type (memOf bytes 0) i ∧ p_offset buf i = p_offset (memOf bytes 0) i ∧
      p_filesz buf i = p_filesz (memOf bytes 0) i := by
  obtain ⟨-, -, hpo, -⟩ := header_of_holds buf bytes h hl h64
  have hat : phdr_at buf i = phdr_at (memOf bytes 0) i := by simp only [phdr_at, hpo]
  simp only [sizeof_Elf64_Phdr] at hb
  simp only [p_type, p_offset, p_filesz, hat]
  exact ⟨loadLE_of_holds buf bytes h hl _ _ (by simp only [off_p_type]; omega),
    loadLE_of_holds buf bytes h hl _ _ (by simp only [off_p_offset]; omega),
    loadLE_of_holds buf bytes h hl _ _ (by simp only [off_p_filesz]; omega)⟩

/-! ## Lemmas: the header checks -/

theorem traced_of_native (fd : Int) (buf : Nat → Nat) (n : Int) (hfd : 0 ≤ fd)
    (hn : 64 ≤ n) (hh : native_header buf) :
    analyze_binary_traced fd buf n =
      if e_phoff buf = 0 then (info_init (native_arch buf), reads_to_phoff)
      else if e_phnum buf = 0 then (info_init (native_arch buf), header_reads)
      else if (e_phoff buf + e_phnum buf * sizeof_Elf64_Phdr) % U64 > n.toNat then
        (info_init (native_arch buf), header_reads)
      else scan_phdrs buf n.toNat (info_init (native_arch buf)) (e_phnum buf) 0 header_reads := by
  obtain ⟨⟨h0, h1, h2, h3⟩, hc, hm⟩ := hh
  have hfd' : ¬ fd < 0 := not_lt.mpr hfd
  have hn' : ¬ n < (sizeof_Elf64_Ehdr : Int) := by
    simp only [sizeof_Elf64_Ehdr]; push_cast; omega
  have hm' : ¬ (e_machine buf ≠ EM_AARCH64 ∧ e_machine buf ≠ EM_X86_64) := by
    rcases hm with h | h <;> simp [h]
  simp only [analyze_binary_traced, hfd', hn', h0, h1, h2, h3, hc, hm', if_false, ne_eq,
    not_true_eq_false, info_init, native_arch, reads_to_phoff, header_reads]

theorem traced_of_bad_class (fd : Int) (buf : Nat → Nat) (n : Int) (hfd : 0 ≤ fd)
    (hn : 64 ≤ n) (hm : elf_magic buf) (hc : byteAt buf EI_CLASS ≠ ELFCLASS64) :
    analyze_binary_traced fd buf n = (info_init ARCH_UNKNOWN, ident_reads) := by
  obtain ⟨h0, h1, h2, h3⟩ := hm
  have hfd' : ¬ fd < 0 := not_lt.mpr hfd
  have hn' : ¬ n < (sizeof_Elf64_Ehdr : Int) := by
    simp only [sizeof_Elf64_Ehdr]; push_cast; omega
  simp only [analyze_binary_traced, hfd', hn', h0, h1, h2, h3, hc, if_false, ne_eq,
    not_true_eq_false, not_false_eq_true, if_true, info_init]

theorem traced_of_bad_machine (fd : Int) (buf : Nat → Nat) (n : Int) (hfd : 0 ≤ fd)
    (hn : 64 ≤ n) (hm : elf_magic buf) (hc : byteAt buf EI_CLASS = ELFCLASS64)
    (h1 : e_machine buf ≠ EM_AARCH64) (h2 : e_machine buf ≠ EM_X86_64) :
    analyze_binary_traced fd buf n =
      (info_init ARCH_UNKNOWN, ident_reads ++ span off_e_machine 2) := by
  obtain ⟨b0, b1, b2, b3⟩ := hm
  have hfd' : ¬ fd < 0 := not_lt.mpr hfd
  have hn' : ¬ n < (sizeof_Elf64_Ehdr : Int) := by
    simp only [sizeof_Elf64_Ehdr]; push_cast; omega
  simp only [analyze_binary_traced, hfd', hn', b0, b1, b2, b3, hc, h1, h2, if_false, ne_eq,
    not_true_eq_false, not_false_eq_true, if_true, info_init, and_self]

theorem analyze_of_bad_magic (fd : Int) (buf : Nat → Nat) (n : Int) (hfd : 0 ≤ fd)
    (hn : 64 ≤ n) (hm : ¬ elf_magic buf) :
    analyze_binary fd buf n = info_init ARCH_NOT_ELF := by
  have hfd' : ¬ fd < 0 := not_lt.mpr hfd
  have hn' : ¬ n < (sizeof_Elf64_Ehdr : Int) := by
    simp only [sizeof_Elf64_Ehdr]; push_cast; omega
  simp only [analyze_binary, analyze_binary_traced, hfd', hn', if_false, info_init, ne_eq]
  by_cases h0 : byteAt buf 0 = 0x7f
  · by_cases h1 : byteAt buf 1 = 69
    · by_cases h2 : byteAt buf 2 = 76
      · by_cases h3 : byteAt buf 3 = 70
        · exact absurd ⟨h0, h1, h2, h3⟩ hm
        · simp only [h0, h1, h2, h3, not_true_eq_false, not_false_eq_true, if_true, if_false]
      · simp only [h0, h1, h2, not_true_eq_false, not_false_eq_true, if_true, if_false]
    · simp only [h0, h1, not_true_eq_false, not_false_eq_true, if_true, if_false]
  · simp only [h0, not_false_eq_true, if_true]

/-- In-bounds table: the classifier's result is the loop's result. -/
theorem analyze_of_table (fd : Int) (buf : Nat → Nat) (n : Int) (hfd : 0 ≤ fd)
    (hn : 64 ≤ n) (hh : native_header buf) (hphoff : e_phoff buf ≠ 0)
    (hphnum : e_phnum buf ≠ 0)
    (htab : (e_phoff buf + e_phnum buf * sizeof_Elf64_Phdr) % U64 ≤ n.toNat) :
    analyze_binary_traced fd buf n =
      scan_phdrs buf n.toNat (info_init (native_arch buf)) (e_phnum buf) 0 header_reads := by
  rw [traced_of_native fd buf n hfd hn hh]
  simp only [hphoff, hphnum, not_lt.mpr htab, if_false]

/-! ## Lemmas: the program-header loop -/

theorem scan_arch (buf : Nat → Nat) (n : Nat) (info : binary_info_t) (k i : Nat)
    (r : List Nat) : (scan_phdrs buf n info k i r).1.arch = info.arch := by
  induction k generalizing i r with
  | zero => rfl
  | succ k ih =>
    simp only [scan_phdrs]
    split_ifs <;> first | rfl | exact ih _ _

theorem scan_fst (buf : Nat → Nat) (n : Nat) (info : binary_info_t) (k i : Nat)
    (r : List Nat) : (scan_phdrs buf n info k i r).1 = (scan_phdrs buf n info k i []).1 := by
  induction k generalizing i r with
  | zero => rfl
  | succ k ih =>
    simp only [scan_phdrs]
    split_ifs <;> first | rfl | (rw [ih]; exact (ih _ _).symm)

theorem scan_snd (buf : Nat → Nat) (n : Nat) (info : binary_info_t) (k i : Nat)
    (r : List Nat) :
    (scan_phdrs buf n info k i r).2 = r ++ (scan_phdrs buf n info k i []).2 := by
  induction k generalizing i r with
  | zero => simp [scan_phdrs]
  | succ k ih =>
    simp only [scan_phdrs]
    split_ifs
    · simp
    · simp
    · simp
    · rw [ih, ih (i + 1) ([] ++ _)]; simp

theorem scan_no_interp (buf : Nat → Nat) (n : Nat) (info : binary_info_t) (k i : Nat)
    (r : List Nat) (h : ∀ j, i ≤ j → j < i + k → p_type buf j ≠ PT_INTERP) :
    (scan_phdrs buf n info k i r).1 = info := by
  induction k generalizing i r with
  | zero => rfl
  | succ k ih =>
    have hi : p_type buf i ≠ PT_INTERP := h i le_rfl (by omega)
    simp only [scan_phdrs, hi, if_false]
    exact ih _ _ (fun j h1 h2 => h j (by omega) (by omega))

theorem scan_first (buf : Nat → Nat) (n : Nat) (info : binary_info_t) (k i m : Nat)
    (r : List Nat) (hm : m < k)
    (hbefore : ∀ j, i ≤ j → j < i + m → p_type buf j ≠ PT_INTERP)
    (hat : p_type buf (i + m) = PT_INTERP) :
    (scan_phdrs buf n info k i r).1 = interp_of_entry buf n info (i + m) := by
  induction m generalizing k i r with
  | zero =>
    obtain ⟨k, rfl⟩ : ∃ k', k = k' + 1 := ⟨k - 1, by omega⟩
    rw [Nat.add_zero] at hat
    simp only [scan_phdrs, hat, if_true, interp_of_entry, Nat.add_zero]
    split_ifs <;> rfl
  | succ m ih =>
    obtain ⟨k, rfl⟩ : ∃ k', k = k' + 1 := ⟨k - 1, by omega⟩
    have hi : p_type buf i ≠ PT_INTERP := hbefore i le_rfl (by omega)
    simp only [scan_phdrs, hi, if_false]
    rw [ih k (i + 1) _ (by omega) (fun j h1 h2 => hbefore j (by omega) (by omega))
      (by rw [show i + 1 + m = i + (m + 1) by omega]; exact hat),
      show i + 1 + m = i + (m + 1) by omega]

theorem interp_of_entry_none (buf : Nat → Nat) (n : Nat) (a : elf_arch_t) (j : Nat)
    (h : (interp_of_entry buf n (info_init a) j).interp = INTERP_NONE) :
    n < p_offset buf j + p_filesz buf j ∨ sizeof_interp_path ≤ p_filesz buf j := by
  unfold interp_of_entry at h
  split_ifs at h with h1 h2
  · exact Or.inl (Nat.lt_of_lt_of_le h1 (Nat.mod_le _ _))
  · exact Or.inr h2
  · dsimp only at h
    exact absurd h (classify_interp_ne_none _)

theorem interp_of_entry_ok (buf : Nat → Nat) (n : Nat) (info : binary_info_t) (j : Nat)
    (hin : p_offset buf j + p_filesz buf j ≤ n) (hsz : p_filesz buf j < sizeof_interp_path) :
    interp_of_entry buf n info j =
      { info with
        interp := classify_interp (copyBytes buf (p_offset buf j) (p_filesz buf j)
          ++ List.replicate (sizeof_interp_path - p_filesz buf j) 0)
        interp_path := copyBytes buf (p_offset buf j) (p_filesz buf j)
          ++ List.replicate (sizeof_interp_path - p_filesz buf j) 0 } := by
  have h1 : ¬ (p_offset buf j + p_filesz buf j) % U64 > n :=
    Nat.not_lt.mpr (Nat.le_trans (Nat.mod_le _ _) hin)
  have h2 : ¬ p_filesz buf j ≥ sizeof_interp_path := not_le.mpr hsz
  simp only [interp_of_entry, h1, h2, if_false]

/-- The loop's result when entry `i` is the first `PT_INTERP` entry of the table. -/
theorem analyze_of_first_interp (fd : Int) (buf : Nat → Nat) (n : Int) (i : Nat)
    (hfd : 0 ≤ fd) (hn : 64 ≤ n) (hh : native_header buf) (hphoff : e_phoff buf ≠ 0)
    (htab : (e_phoff buf + e_phnum buf * sizeof_Elf64_Phdr) % U64 ≤ n.toNat)
    (hi : i < e_phnum buf) (hfirst : first_interp buf i) :
    analyze_binary fd buf n = interp_of_entry buf n.toNat (info_init (native_arch buf)) i := by
  have hphnum : e_phnum buf ≠ 0 := by omega
  rw [analyze_binary, analyze_of_table fd buf n hfd hn hh hphoff hphnum htab]
  have := scan_first buf n.toNat (info_init (native_arch buf)) (e_phnum buf) 0 i header_reads
    hi (fun j _ h2 => hfirst.2 j (by omega)) (by rw [Nat.zero_add]; exact hfirst.1)
  rw [this, Nat.zero_add]

/-! ## Lemmas: the architecture verdict -/

theorem analyze_arch_of_native (fd : Int) (buf : Nat → Nat) (n : Int) (hfd : 0 ≤ fd)
    (hn : 64 ≤ n) (hh : native_header buf) :
    (analyze_binary fd buf n).arch = native_arch buf := by
  rw [analyze_binary, traced_of_native fd buf n hfd hn hh]
  split_ifs <;> first | rfl | exact scan_arch _ _ _ _ _ _

theorem analyze_binary_arch (fd : Int) (buf : Nat → Nat) (n : Int) (hfd : 0 ≤ fd)
    (hn : 64 ≤ n) : (analyze_binary fd buf n).arch = header_arch buf := by
  unfold header_arch
  by_cases hm : elf_magic buf
  · by_cases hc : byteAt buf EI_CLASS = ELFCLASS64
    · by_cases h1 : e_machine buf = EM_AARCH64
      · rw [analyze_arch_of_native fd buf n hfd hn ⟨hm, hc, Or.inl h1⟩]
        simp only [native_arch, hm, hc, h1, not_true_eq_false, if_false, if_true, ne_eq]
      · by_cases h2 : e_machine buf = EM_X86_64
        · rw [analyze_arch_of_native fd buf n hfd hn ⟨hm, hc, Or.inr h2⟩]
          simp only [native_arch, hm, hc, h1, h2, not_true_eq_false, if_false, if_true, ne_eq]
        · rw [analyze_binary, traced_of_bad_machine fd buf n hfd hn hm hc h1 h2]
          simp only [hm, hc, h1, h2, not_true_eq_false, if_false, ne_eq, info_init]
    · rw [analyze_binary, traced_of_bad_class fd buf n hfd hn hm hc]
      simp only [hm, hc, not_true_eq_false, not_false_eq_true, if_false, if_true, ne_eq,
        info_init]
  · rw [analyze_of_bad_magic fd buf n hfd hn hm]
    simp only [hm, not_false_eq_true, if_true, info_init]

theorem native_of_arch (fd : Int) (buf : Nat → Nat) (n : Int)
    (h : (analyze_binary fd buf n).arch = ARCH_AARCH64 ∨
      (analyze_binary fd buf n).arch = ARCH_X86_64) :
    0 ≤ fd ∧ 64 ≤ n ∧ native_header buf := by
  by_cases hfd : fd < 0
  · simp only [analyze_binary, analyze_binary_traced, hfd, if_true] at h
    rcases h with h | h <;> exact absurd h (by decide)
  by_cases hn : n < (sizeof_Elf64_Ehdr : Int)
  · simp only [analyze_binary, analyze_binary_traced, hfd, hn, if_true, if_false] at h
    rcases h with h | h <;> exact absurd h (by decide)
  have hn' : 64 ≤ n := by simp only [sizeof_Elf64_Ehdr] at hn; push_cast at hn; omega
  refine ⟨not_lt.mp hfd, hn', ?_⟩
  rw [analyze_binary_arch fd buf n (not_lt.mp hfd) hn'] at h
  by_contra hnat
  have hbad : header_arch buf = ARCH_NOT_ELF ∨ header_arch buf = ARCH_UNKNOWN := by
    unfold header_arch
    by_cases hm : elf_magic buf
    · by_cases hc : byteAt buf EI_CLASS = ELFCLASS64
      · by_cases h1 : e_machine buf = EM_AARCH64
        · exact absurd ⟨hm, hc, Or.inl h1⟩ hnat
        · by_cases h2 : e_machine buf = EM_X86_64
          · exact absurd ⟨hm, hc, Or.inr h2⟩ hnat
          · right
            simp only [hm, hc, h1, h2, not_true_eq_false, if_false, ne_eq]
      · right
        simp only [hm, hc, not_true_eq_false, not_false_eq_true, if_false, if_true, ne_eq]
    · left
      simp only [hm, not_false_eq_true, if_true]
  rcases h with h | h <;> rcases hbad with hb | hb <;> rw [h] at hb <;>
    exact absurd hb (by decide)

theorem header_arch_congr (buf1 buf2 : Nat → Nat)
    (hag : ∀ i, i ∈ [0, 1, 2, 3, 4, 18, 19] → byteAt buf1 i = byteAt buf2 i) :
    header_arch buf1 = header_arch buf2 := by
  have hm : e_machine buf1 = e_machine buf2 := by
    simp only [e_machine, off_e_machine, loadLE, hag 18 (by decide), hag 19 (by decide)]
  simp only [header_arch, elf_magic, EI_CLASS, hm, hag 0 (by decide), hag 1 (by decide),
    hag 2 (by decide), hag 3 (by decide), hag 4 (by decide)]

/-! ## Lemmas: the log of loads -/

theorem mem_span (off w k : Nat) (hk : k < w) : (off + k) % U64 ∈ span off w := by
  simp only [span, List.mem_map, List.mem_range]
  exact ⟨k, hk, rfl⟩

theorem span_lt (a w n off : Nat) (h : off ∈ span a w) (hb : a + w ≤ n) : off < n := by
  simp only [span, List.mem_map, List.mem_range] at h
  obtain ⟨k, hk, rfl⟩ := h
  exact Nat.lt_of_le_of_lt (Nat.mod_le _ _) (by omega)

theorem span_sub (a c w off : Nat) (h : off ∈ span (a + c) w) (hc : c + w ≤ 56) :
    off ∈ span a sizeof_Elf64_Phdr := by
  simp only [span, List.mem_map, List.mem_range, sizeof_Elf64_Phdr] at h ⊢
  obtain ⟨k, hk, rfl⟩ := h
  exact ⟨c + k, by omega, by rw [Nat.add_assoc]⟩

theorem scan_reads_mono (buf : Nat → Nat) (n : Nat) (info : binary_info_t) (k i : Nat)
    (r : List Nat) (off : Nat) (h : off ∈ r) : off ∈ (scan_phdrs buf n info k i r).2 := by
  rw [scan_snd]
  exact List.mem_append_left _ h

theorem scan_reads_type (buf : Nat → Nat) (n : Nat) (info : binary_info_t) (k i : Nat)
    (r : List Nat) (off : Nat) (h : off ∈ span (phdr_at buf i + off_p_type) 4) :
    off ∈ (scan_phdrs buf n info (k + 1) i r).2 := by
  simp only [scan_phdrs]
  split_ifs
  · simp only [List.mem_append]; exact Or.inl (Or.inl (Or.inr h))
  · simp only [List.mem_append]; exact Or.inl (Or.inl (Or.inr h))
  · simp only [List.mem_append]; exact Or.inl (Or.inl (Or.inl (Or.inr h)))
  · exact scan_reads_mono _ _ _ _ _ _ _ (List.mem_append_right _ h)

theorem scan_reads_string (buf : Nat → Nat) (n : Nat) (info : binary_info_t) (k i : Nat)
    (r : List Nat) (off : Nat) (ht : p_type buf i = PT_INTERP)
    (h1 : (p_offset buf i + p_filesz buf i) % U64 ≤ n)
    (h2 : p_filesz buf i < sizeof_interp_path)
    (h : off ∈ span (p_offset buf i) (p_filesz buf i)) :
    off ∈ (scan_phdrs buf n info (k + 1) i r).2 := by
  simp only [scan_phdrs, ht, if_true, Nat.not_lt.mpr h1, Nat.not_le.mpr h2, if_false, ge_iff_le,
    gt_iff_lt]
  exact List.mem_append_right _ h

/-- The loads of the loop stay below `n` when the scanned entries lie below `n` and the
sum `p_offset + p_filesz` of the scanned entries does not wrap around. -/
theorem scan_reads_lt (buf : Nat → Nat) (n : Nat) (info : binary_info_t) (k i : Nat)
    (r : List Nat) (htab : phdr_at buf (i + k) ≤ n)
    (hstr : ∀ j, i ≤ j → j < i + k → p_offset buf j + p_filesz buf j < U64)
    (off : Nat) (h : off ∈ (scan_phdrs buf n info k i r).2) : off ∈ r ∨ off < n := by
  induction k generalizing i r with
  | zero => exact Or.inl h
  | succ k ih =>
    have hent : phdr_at buf i + sizeof_Elf64_Phdr ≤ n := by
      simp only [phdr_at, sizeof_Elf64_Phdr] at htab ⊢
      have : (i + (k + 1)) * 56 = i * 56 + 56 + k * 56 := by ring
      omega
    simp only [sizeof_Elf64_Phdr] at hent
    have hty : ∀ o, o ∈ span (phdr_at buf i + off_p_type) 4 → o < n := fun o ho =>
      span_lt _ _ n o ho (by simp only [off_p_type]; omega)
    have hpo : ∀ o, o ∈ span (phdr_at buf i + off_p_offset) 8 → o < n := fun o ho =>
      span_lt _ _ n o ho (by simp only [off_p_offset]; omega)
    have hps : ∀ o, o ∈ span (phdr_at buf i + off_p_filesz) 8 → o < n := fun o ho =>
      span_lt _ _ n o ho (by simp only [off_p_filesz]; omega)
    simp only [scan_phdrs] at h
    split_ifs at h with h1 h2 h3
    · simp only [List.mem_append] at h
      rcases h with ((h | h) | h) | h
      · exact Or.inl h
      · exact Or.inr (hty _ h)
      · exact Or.inr (hpo _ h)
      · exact Or.inr (hps _ h)
    · simp only [List.mem_append] at h
      rcases h with ((h | h) | h) | h
      · exact Or.inl h
      · exact Or.inr (hty _ h)
      · exact Or.inr (hpo _ h)
      · exact Or.inr (hps _ h)
    · simp only [List.mem_append] at h
      rcases h with (((h | h) | h) | h) | h
      · exact Or.inl h
      · exact Or.inr (hty _ h)
      · exact Or.inr (hpo _ h)
      · exact Or.inr (hps _ h)
      · have hnw := hstr i le_rfl (by omega)
        rw [Nat.mod_eq_of_lt hnw] at h2
        exact Or.inr (span_lt _ _ n _ h (by omega))
    · have := ih (i + 1) _ (by rw [show i + 1 + k = i + (k + 1) by omega]; exact htab)
        (fun j hj1 hj2 => hstr j (by omega) (by omega)) h
      rcases this with h | h
      · simp only [List.mem_append] at h
        rcases h with h | h
        · exact Or.inl h
        · exact Or.inr (hty _ h)
      · exact Or.inr h

/-- The loads of the loop up to a rejected first `PT_INTERP` entry `i + m` touch only the
entries `i, ..., i + m`. -/
theorem scan_reads_upto (buf : Nat → Nat) (n : Nat) (info : binary_info_t) (k i m : Nat)
    (r : List Nat) (hm : m < k)
    (hbefore : ∀ j, i ≤ j → j < i + m → p_type buf j ≠ PT_INTERP)
    (hat : p_type buf (i + m) = PT_INTERP)
    (hrej : (p_offset buf (i + m) + p_filesz buf (i + m)) % U64 > n ∨
      sizeof_interp_path ≤ p_filesz buf (i + m))
    (off : Nat) (h : off ∈ (scan_phdrs buf n info k i r).2) :
    off ∈ r ∨ ∃ j, i ≤ j ∧ j ≤ i + m ∧ off ∈ span (phdr_at buf j) sizeof_Elf64_Phdr := by
  induction m generalizing k i r with
  | zero =>
    obtain ⟨k, rfl⟩ : ∃ k', k = k' + 1 := ⟨k - 1, by omega⟩
    rw [Nat.add_zero] at hat hrej
    have hin : ∀ c w o, o ∈ span (phdr_at buf i + c) w → c + w ≤ 56 →
        off = o → off ∈ r ∨ ∃ j, i ≤ j ∧ j ≤ i + 0 ∧ off ∈ span (phdr_at buf j) sizeof_Elf64_Phdr :=
      fun c w o ho hc he => Or.inr ⟨i, le_rfl, le_rfl, he ▸ span_sub _ c w o ho hc⟩
    simp only [scan_phdrs, hat, if_true] at h
    split_ifs at h with h1 h2
    · simp only [List.mem_append] at h
      rcases h with ((h | h) | h) | h
      · exact Or.inl h
      · exact hin _ _ _ h (by decide) rfl
      · exact hin _ _ _ h (by decide) rfl
      · exact hin _ _ _ h (by decide) rfl
    · simp only [List.mem_append] at h
      rcases h with ((h | h) | h) | h
      · exact Or.inl h
      · exact hin _ _ _ h (by decide) rfl
      · exact hin _ _ _ h (by decide) rfl
      · exact hin _ _ _ h (by decide) rfl
    · rcases hrej with h3 | h3
      · exact absurd h3 h1
      · exact absurd h3 h2
  | succ m ih =>
    obtain ⟨k, rfl⟩ : ∃ k', k = k' + 1 := ⟨k - 1, by omega⟩
    have hi : p_type buf i ≠ PT_INTERP := hbefore i le_rfl (by omega)
    simp only [scan_phdrs, hi, if_false] at h
    have he : i + 1 + m = i + (m + 1) := by omega
    have := ih k (i + 1) _ (by omega) (fun j h1 h2 => hbefore j (by omega) (by omega))
      (by rw [he]; exact hat) (by rw [he]; exact hrej) h
    rcases this with h | ⟨j, hj1, hj2, hj3⟩
    · simp only [List.mem_append] at h
      rcases h with h | h
      · exact Or.inl h
      · exact Or.inr ⟨i, le_rfl, by omega, span_sub _ _ 4 off h (by decide)⟩
    · exact Or.inr ⟨j, by omega, by omega, hj3⟩

theorem reads_of_bad_magic (fd : Int) (buf : Nat → Nat) (n : Int) (hfd : 0 ≤ fd)
    (hn : 64 ≤ n) (hm : ¬ elf_magic buf) (off : Nat)
    (h : off ∈ analyze_binary_reads fd buf n) : off < 4 := by
  have hfd' : ¬ fd < 0 := not_lt.mpr hfd
  have hn' : ¬ n < (sizeof_Elf64_Ehdr : Int) := by
    simp only [sizeof_Elf64_Ehdr]; push_cast; omega
  simp only [analyze_binary_reads, analyze_binary_traced, hfd', hn', if_false, ne_eq] at h
  by_cases h0 : byteAt buf 0 = 0x7f
  · by_cases h1 : byteAt buf 1 = 69
    · by_cases h2 : byteAt buf 2 = 76
      · by_cases h3 : byteAt buf 3 = 70
        · exact absurd ⟨h0, h1, h2, h3⟩ hm
        · simp only [h0, h1, h2, h3, not_true_eq_false, not_false_eq_true, if_true,
            if_false, List.mem_cons, List.mem_singleton, List.not_mem_nil, or_false] at h
          omega
      · simp only [h0, h1, h2, not_true_eq_false, not_false_eq_true, if_true,
          if_false, List.mem_cons, List.mem_singleton, List.not_mem_nil, or_false] at h
        omega
    · simp only [h0, h1, not_true_eq_false, not_false_eq_true, if_true,
        if_false, List.mem_cons, List.mem_singleton, List.not_mem_nil, or_false] at h
      omega
  · simp only [h0, not_false_eq_true, if_true, List.mem_singleton] at h
    omega

theorem header_reads_lt (off : Nat) (h : off ∈ header_reads) : off < 64 := by
  have : ∀ o ∈ header_reads, o < 64 := by decide
  exact this off h

theorem reads_to_phoff_sub (off : Nat) (h : off ∈ reads_to_phoff) : off ∈ header_reads := by
  simp only [header_reads, List.mem_append]; exact Or.inl h

/-! ## The bounds checks away from wrap-around -/

/-- Away from wrap-around the classifier is memory safe: when neither the sum
`e_phoff + e_phnum * 56` nor the sum `p_offset + p_filesz` of any declared entry reaches
`2^64`, every offset `analyze_binary` loads from lies below the number `n` of bytes
read. -/
theorem analyze_binary_reads_in_bounds_of_no_wrap (fd : Int) (buf : Nat → Nat) (n : Int)
    (htab : e_phoff buf + e_phnum buf * sizeof_Elf64_Phdr < U64)
    (hstr : ∀ j, j < e_phnum buf → p_offset buf j + p_filesz buf j < U64)
    (off : Nat) (h : off ∈ analyze_binary_reads fd buf n) : (off : Int) < n := by
  by_cases hfd : fd < 0
  · simp only [analyze_binary_reads, analyze_binary_traced, hfd, if_true,
      List.not_mem_nil] at h
  by_cases hn : n < (sizeof_Elf64_Ehdr : Int)
  · simp only [analyze_binary_reads, analyze_binary_traced, hfd, hn, if_true, if_false,
      List.not_mem_nil] at h
  have hfd' : 0 ≤ fd := not_lt.mp hfd
  have hn' : 64 ≤ n := by simp only [sizeof_Elf64_Ehdr] at hn; push_cast at hn; omega
  have hhdr : ∀ o, o ∈ header_reads → (o : Int) < n := fun o ho => by
    have := header_reads_lt o ho; omega
  by_cases hm : elf_magic buf
  · by_cases hc : byteAt buf EI_CLASS = ELFCLASS64
    · by_cases hmach : e_machine buf = EM_AARCH64 ∨ e_machine buf = EM_X86_64
      · rw [analyze_binary_reads, traced_of_native fd buf n hfd' hn' ⟨hm, hc, hmach⟩] at h
        split_ifs at h with h1 h2 h3
        · exact hhdr _ (reads_to_phoff_sub _ h)
        · exact hhdr _ h
        · exact hhdr _ h
        · rw [Nat.mod_eq_of_lt htab] at h3
          have := scan_reads_lt buf n.toNat _ (e_phnum buf) 0 header_reads
            (by rw [Nat.zero_add]; exact Nat.not_lt.mp h3)
            (fun j _ hj => hstr j (by omega)) off h
          rcases this with h | h
          · exact hhdr _ h
          · omega
      · rw [not_or] at hmach
        rw [analyze_binary_reads, traced_of_bad_machine fd buf n hfd' hn' hm hc hmach.1
          hmach.2] at h
        exact hhdr _ (by
          simp only [header_reads, reads_to_phoff, List.mem_append] at h ⊢
          exact Or.inl (Or.inl h))
    · rw [analyze_binary_reads, traced_of_bad_class fd buf n hfd' hn' hm hc] at h
      exact hhdr _ (by
        simp only [header_reads, reads_to_phoff, List.mem_append]
        exact Or.inl (Or.inl (Or.inl h)))
  · have := reads_of_bad_magic fd buf n hfd' hn' hm off h
    omega

/-- The guard of line 123, on the sum as the code computes it: when it fires, the
verdict is `INTERP_NONE` with an all-zero path and only header fields were loaded. -/
theorem analyze_binary_table_guard (fd : Int) (buf : Nat → Nat) (n : Int) (hfd : 0 ≤ fd)
    (hn : 64 ≤ n) (hh : native_header buf)
    (hext : (e_phoff buf + e_phnum buf * sizeof_Elf64_Phdr) % U64 > n.toNat) :
    analyze_binary fd buf n = info_init (native_arch buf) ∧
      ∀ off, off ∈ analyze_binary_reads fd buf n → off ∈ header_reads := by
  rw [analyze_binary, analyze_binary_reads, traced_of_native fd buf n hfd hn hh]
  simp only [hext, if_true]
  split_ifs
  · exact ⟨rfl, fun off h => reads_to_phoff_sub off h⟩
  · exact ⟨rfl, fun off h => h⟩
  · exact ⟨rfl, fun off h => h⟩

/-- The checks of lines 131-132, on the sum as the code computes it: when the first
`PT_INTERP` entry `i` of an in-bounds table fails one of them, the verdict is
`INTERP_NONE` with an all-zero path (nothing is copied), and the loads are header fields
and fields of the entries `0, ..., i` only: no later entry is looked at. -/
theorem analyze_binary_string_guard (fd : Int) (buf : Nat → Nat) (n : Int) (i : Nat)
    (hfd : 0 ≤ fd) (hn : 64 ≤ n) (hh : native_header buf) (hphoff : e_phoff buf ≠ 0)
    (htab : (e_phoff buf + e_phnum buf * sizeof_Elf64_Phdr) % U64 ≤ n.toNat)
    (hi : i < e_phnum buf) (hfirst : first_interp buf i)
    (hrej : (p_offset buf i + p_filesz buf i) % U64 > n.toNat ∨
      sizeof_interp_path ≤ p_filesz buf i) :
    analyze_binary fd buf n = info_init (native_arch buf) ∧
      ∀ off, off ∈ analyze_binary_reads fd buf n →
        off ∈ header_reads ∨ ∃ j, j ≤ i ∧ off ∈ span (phdr_at buf j) sizeof_Elf64_Phdr := by
  constructor
  · rw [analyze_of_first_interp fd buf n i hfd hn hh hphoff htab hi hfirst]
    unfold interp_of_entry
    rcases hrej with h | h
    · rw [if_pos h]
    · split_ifs <;> rfl
  · intro off h
    rw [analyze_binary_reads, analyze_of_table fd buf n hfd hn hh hphoff (by omega) htab] at h
    have := scan_reads_upto buf n.toNat _ (e_phnum buf) 0 i header_reads hi
      (fun j _ h2 => hfirst.2 j (by omega)) (by rw [Nat.zero_add]; exact hfirst.1)
      (by rw [Nat.zero_add]; exact hrej) off h
    rcases this with h | ⟨j, -, hj, hs⟩
    · exact Or.inl h
    · exact Or.inr ⟨j, by omega, hs⟩

/-! ## Lemmas: the argument vectors -/

theorem trailing_args_eq_drop (argv : List String) (arg_start : Nat)
    (h : arg_start < argv.length) :
    trailing_args argv arg_start (argv.length - arg_start) = argv.drop (arg_start + 1) := by
  apply List.ext_getElem
  · simp only [trailing_args, List.length_map, List.length_range', List.length_drop]
    omega
  · intro k h1 h2
    simp only [List.length_drop] at h2
    simp only [trailing_args, List.getElem_map, List.getElem_range', List.getElem_drop]
    rw [List.getD_eq_getElem _ _ (by omega)]
    congr 1
    omega

/-! ## Lemmas: the dispatch -/

/-- `main` once the option loop has ended at a target that resolves to `P`. -/
theorem main_of_resolved (w : World) (argv : List String) (debug use_preload : Bool)
    (arg_start : Nat) (P : String)
    (hparse : parse_options (argv.drop 1) false true 1 = .run debug use_preload arg_start)
    (hstart : arg_start < argv.length)
    (hfind : find_in_path w (argv.getD arg_start "") PATH_MAX = some P) :
    main w argv =
      if (analyze_file w P).arch = ARCH_ERROR then .exit 1
      else if (analyze_file w P).arch = ARCH_NOT_ELF then .exit 1
      else if (analyze_file w P).arch = ARCH_UNKNOWN then .exit 1
      else if (analyze_file w P).arch = ARCH_X86_64 then
        dispatch_x86_64 w argv debug use_preload arg_start P
      else if (analyze_file w P).arch = ARCH_AARCH64 then
        dispatch_aarch64 w argv debug use_preload arg_start P (analyze_file w P)
      else .exit 1 := by
  simp only [main, hparse, hfind, Nat.not_le.mpr hstart, if_false, ge_iff_le]

/-- The arm64 branch for a target that is not a host-loader binary, loader and library
directory present. -/
theorem dispatch_aarch64_loader (w : World) (argv : List String) (debug use_preload : Bool)
    (arg_start : Nat) (P : String) (info : binary_info_t) (hstart : arg_start < argv.length)
    (hinterp : info.interp ≠ INTERP_BIONIC)
    (hloader : w.access_x GLIBC_LOADER = true) (hlib : w.access_f GLIBC_LIB = true)
    (halloc : w.alloc_ok = true) :
    dispatch_aarch64 w argv debug use_preload arg_start P info =
      .exec GLIBC_LOADER
        ([GLIBC_LOADER, "--library-path", GLIBC_LIB, "--argv0", argv.getD arg_start "", P]
          ++ argv.drop (arg_start + 1))
        (build_environment w.environ (extract_preload_library w) false use_preload (some P)
          debug) := by
  simp only [dispatch_aarch64, hinterp, hloader, hlib, halloc, Bool.not_true,
    Bool.false_eq_true, if_false, trailing_args_eq_drop argv arg_start hstart]

/-- The x86-64 branch without an emulator: exit status 127 (line 552). -/
theorem main_exit_127_when_no_box64 (w : World) (argv : List String)
    (debug use_preload : Bool) (arg_start : Nat) (P : String)
    (hparse : parse_options (argv.drop 1) false true 1 = .run debug use_preload arg_start)
    (hstart : arg_start < argv.length)
    (hfind : find_in_path w (argv.getD arg_start "") PATH_MAX = some P)
    (harch : (analyze_file w P).arch = ARCH_X86_64)
    (hbox : find_box64 w PATH_MAX = none) :
    main w argv = .exit 127 := by
  rw [main_of_resolved w argv debug use_preload arg_start P hparse hstart hfind, harch]
  simp only [reduceCtorEq, if_false, if_true, dispatch_x86_64, hbox]

/-- A name without a slash that is executable neither in the working directory nor in a
directory of `PATH` is not found. -/
theorem find_in_path_none (w : World) (name : String) (size : Nat)
    (hslash : name.toList.contains '/' = false)
    (hcwd : ∀ c, w.cwd = some c → w.access_x (snprintf size (c ++ "/" ++ name)) = false)
    (hpath : ∀ v, getenv w.environ "PATH" = some v → ∀ dir, dir ∈ strtok_colon v →
      w.access_x (snprintf size (dir ++ "/" ++ name)) = false) :
    find_in_path w name size = none := by
  have hany : (w.cwd.map (fun cwd => snprintf size (cwd ++ "/" ++ name))).any w.access_x
      = false := by
    cases hc : w.cwd with
    | none => rfl
    | some c => simpa only [Option.map_some', Option.any_some] using hcwd c hc
  simp only [find_in_path, hslash, Bool.false_eq_true, if_false, hany]
  cases hv : getenv w.environ "PATH" with
  | none => rfl
  | some v =>
    simp only
    split_ifs
    · rfl
    · rw [List.find?_eq_none]
      intro x hx
      simp only [List.mem_map] at hx
      obtain ⟨dir, hdir, rfl⟩ := hx
      simp only [hpath v hv dir hdir, Bool.false_eq_true, not_false_eq_true]

/-- The list `analyzed_paths` accounts for every file the launcher looks into: two worlds
that differ only in files outside that list give the same outcome. -/
theorem main_depends_on_analyzed_paths (w : World)
    (file' : String → Int × (Nat → Nat) × Int) (argv : List String)
    (h : ∀ p, p ∈ analyzed_paths w argv → file' p = w.file p) :
    main { w with file := file' } argv = main w argv := by
  have hfind : ∀ name size, find_in_path { w with file := file' } name size
      = find_in_path w name size := fun _ _ => rfl
  have hbox : find_box64 { w with file := file' } PATH_MAX = find_box64 w PATH_MAX := rfl
  have han : ∀ p, file' p = w.file p →
      analyze_file { w with file := file' } p = analyze_file w p := fun p hp => by
    simp only [analyze_file, hp]
  cases hparse : parse_options (argv.drop 1) false true 1 with
  | stop st => simp only [main, hparse]
  | run debug use_preload arg_start =>
    by_cases hstart : arg_start < argv.length
    · cases hf : find_in_path w (argv.getD arg_start "") PATH_MAX with
      | none =>
        simp only [main, hparse, hfind, hf]
      | some P =>
        have hP : file' P = w.file P :=
          h P (by
            simp only [analyzed_paths, hparse, hf, Nat.not_le.mpr hstart, if_false, ge_iff_le,
              List.mem_append, List.mem_singleton, true_or])
        rw [main_of_resolved _ argv debug use_preload arg_start P hparse hstart
            (by rw [hfind]; exact hf),
          main_of_resolved w argv debug use_preload arg_start P hparse hstart hf, han P hP]
        by_cases hx : (analyze_file w P).arch = ARCH_X86_64
        · simp only [hx, reduceCtorEq, if_false, if_true]
          unfold dispatch_x86_64
          rw [hbox]
          cases hb : find_box64 w PATH_MAX with
          | none => rfl
          | some B =>
            have hB : file' B = w.file B :=
              h B (by
                simp only [analyzed_paths, hparse, hf, Nat.not_le.mpr hstart, if_false,
                  ge_iff_le, hx, if_true, hb, List.mem_append, List.mem_singleton, or_true])
            simp only [han B hB]
            rfl
        · simp only [hx, if_false]
          rfl
    · simp only [main, hparse, ge_iff_le, Nat.not_lt.mp hstart, if_true]

/-! ## Lemmas: prefixes of environment entries -/

theorem isPrefixOf_append_true (lit K R : List Char) (h : lit.isPrefixOf K = true) :
    lit.isPrefixOf (K ++ R) = true := by
  rw [List.isPrefixOf_iff_prefix] at h ⊢
  exact h.trans (List.prefix_append K R)

theorem isPrefixOf_append_false (lit K R : List Char)
    (h : (lit.take K.length).isPrefixOf K = false) : lit.isPrefixOf (K ++ R) = false := by
  rw [Bool.eq_false_iff] at h ⊢
  intro hp
  apply h
  rw [List.isPrefixOf_iff_prefix] at hp ⊢
  obtain ⟨t, ht⟩ := hp
  have h1 : (K ++ R).take K.length = K := by simp
  have h2 : (lit ++ t).take K.length = lit.take K.length ++ t.take (K.length - lit.length) :=
    List.take_append_eq_append_take
  rw [ht, h1] at h2
  exact ⟨_, h2.symm⟩

theorem toList_snprintf (size : Nat) (s : String) :
    (snprintf size s).toList = s.toList.take (size - 1) := rfl

theorem toList_append (a b : String) : (a ++ b).toList = a.toList ++ b.toList :=
  String.data_append a b

theorem toList_snprintf_append (size : Nat) (k v : String) (hk : k.length ≤ size - 1) :
    (snprintf size (k ++ v)).toList = k.toList ++ v.toList.take (size - 1 - k.length) := by
  rw [toList_snprintf, toList_append, List.take_append_eq_append_take,
    List.take_of_length_le (by simpa using hk)]
  rfl

theorem starts_with_fmt_true (size : Nat) (k v lit : String) (hk : k.length ≤ size - 1)
    (h : lit.toList.isPrefixOf k.toList = true) :
    starts_with (snprintf size (k ++ v)) lit = true := by
  rw [starts_with, toList_snprintf_append size k v hk]
  exact isPrefixOf_append_true _ _ _ h

theorem starts_with_fmt_false (size : Nat) (k v lit : String) (hk : k.length ≤ size - 1)
    (h : (lit.toList.take k.length).isPrefixOf k.toList = false) :
    starts_with (snprintf size (k ++ v)) lit = false := by
  rw [starts_with, toList_snprintf_append size k v hk]
  exact isPrefixOf_append_false _ _ _ h

theorem snprintf_eq_self (size : Nat) (s : String) (h : s.length ≤ size - 1) :
    snprintf size s = s := by
  unfold snprintf
  rw [List.take_of_length_le (by simpa using h)]
  rfl

theorem fmt_no_cut (k v : String) (hk : k.length ≤ 64) (hv : v.length < PATH_MAX) :
    snprintf (PATH_MAX + 64) (k ++ v) = k ++ v :=
  snprintf_eq_self _ _ (by
    simp only [String.length_append, PATH_MAX] at hv ⊢
    omega)

theorem fmt_glibc_lib :
    snprintf (PATH_MAX + 64) ("OVGL_GLIBC_LIB=" ++ GLIBC_LIB)
      = "OVGL_GLIBC_LIB=/data/data/com.termux/files/usr/glibc/lib" := by decide

theorem fmt_glibc_loader :
    snprintf (PATH_MAX + 64) ("OVGL_GLIBC_LOADER=" ++ GLIBC_LOADER)
      = "OVGL_GLIBC_LOADER=/data/data/com.termux/files/usr/glibc/lib/ld-linux-aarch64.so.1" := by
  decide

theorem fmt_box64_lib :
    snprintf (PATH_MAX + 64) ("BOX64_LD_LIBRARY_PATH=" ++ GLIBC_LIB_X86_64)
      = "BOX64_LD_LIBRARY_PATH=/data/data/com.termux/files/usr/glibc/lib_x86_64" := by decide

theorem starts_with_box64_lib :
    starts_with "BOX64_LD_LIBRARY_PATH=/data/data/com.termux/files/usr/glibc/lib_x86_64"
      "BOX64_LD_LIBRARY_PATH=" = true := by decide

theorem starts_with_incompat (e a b : String)
    (hab : (a.toList.take b.length).isPrefixOf b.toList = false)
    (ha : starts_with e a = true) : starts_with e b = false := by
  rw [Bool.eq_false_iff]
  intro hb
  unfold starts_with at ha hb
  rw [List.isPrefixOf_iff_prefix] at ha hb
  obtain ⟨t, ht⟩ := hb
  have := isPrefixOf_append_false a.toList b.toList t hab
  rw [ht, Bool.eq_false_iff] at this
  exact this (List.isPrefixOf_iff_prefix.mpr ha)

theorem starts_with_uname_lib : starts_with "BOX64_UNAME=x86_64" "OVGL_GLIBC_LIB=" = false := by decide
theorem starts_with_uname_loader : starts_with "BOX64_UNAME=x86_64" "OVGL_GLIBC_LOADER=" = false := by decide
theorem starts_with_uname_exe : starts_with "BOX64_UNAME=x86_64" "OVGL_ORIG_EXE=" = false := by decide
theorem starts_with_uname_preload : starts_with "BOX64_UNAME=x86_64" "LD_PRELOAD=" = false := by decide
theorem starts_with_uname_boxlib : starts_with "BOX64_UNAME=x86_64" "BOX64_LD_LIBRARY_PATH=" = false := by decide
theorem starts_with_empty_lib : starts_with "LD_PRELOAD=" "OVGL_GLIBC_LIB=" = false := by decide
theorem starts_with_empty_loader : starts_with "LD_PRELOAD=" "OVGL_GLIBC_LOADER=" = false := by decide
theorem starts_with_empty_exe : starts_with "LD_PRELOAD=" "OVGL_ORIG_EXE=" = false := by decide
theorem starts_with_empty_preload : starts_with "LD_PRELOAD=" "LD_PRELOAD=" = true := by decide
theorem starts_with_empty_boxlib : starts_with "LD_PRELOAD=" "BOX64_LD_LIBRARY_PATH=" = false := by decide
theorem starts_with_debug_lib : starts_with "OVGL_DEBUG=1" "OVGL_GLIBC_LIB=" = false := by decide
theorem starts_with_debug_loader : starts_with "OVGL_DEBUG=1" "OVGL_GLIBC_LOADER=" = false := by decide
theorem starts_with_debug_exe : starts_with "OVGL_DEBUG=1" "OVGL_ORIG_EXE=" = false := by decide
theorem starts_with_debug_preload : starts_with "OVGL_DEBUG=1" "LD_PRELOAD=" = false := by decide
theorem starts_with_debug_boxlib : starts_with "OVGL_DEBUG=1" "BOX64_LD_LIBRARY_PATH=" = false := by decide

/-! ## Lemmas: the entries of a name in the result of build_environment -/

theorem kept_filter_nil (environ : List String) (for_box64 : Bool) (lit : String)
    (h : ∀ e, starts_with e lit = true → env_filtered for_box64 e = true) :
    (environ.filter (fun e => !env_filtered for_box64 e)).filter (fun e => starts_with e lit)
      = [] := by
  rw [List.filter_filter, List.filter_eq_nil_iff]
  intro e _ he
  simp only [Bool.and_eq_true, Bool.not_eq_true'] at he
  rw [h e he.1] at he
  exact absurd he.2 (by decide)

theorem kept_filter_boxlib (environ : List String) :
    (environ.filter (fun e => !env_filtered true e)).filter
        (fun e => starts_with e "BOX64_LD_LIBRARY_PATH=")
      = environ.filter (fun e => starts_with e "BOX64_LD_LIBRARY_PATH=") := by
  rw [List.filter_filter]
  apply List.filter_congr
  intro e _
  cases he : starts_with e "BOX64_LD_LIBRARY_PATH=" with
  | false => rfl
  | true =>
    simp only [env_filtered, Bool.not_true, Bool.false_and, Bool.or_false, Bool.true_and,
      starts_with_incompat e "BOX64_LD_LIBRARY_PATH=" "LD_PRELOAD=" (by decide) he,
      starts_with_incompat e "BOX64_LD_LIBRARY_PATH=" "OVGL_GLIBC_LIB=" (by decide) he,
      starts_with_incompat e "BOX64_LD_LIBRARY_PATH=" "OVGL_GLIBC_LOADER=" (by decide) he,
      starts_with_incompat e "BOX64_LD_LIBRARY_PATH=" "OVGL_ORIG_EXE=" (by decide) he,
      starts_with_incompat e "BOX64_LD_LIBRARY_PATH=" "BOX64_LD_PRELOAD=" (by decide) he,
      starts_with_incompat e "BOX64_LD_LIBRARY_PATH=" "BOX64_PATH=" (by decide) he,
      Bool.not_false]

/-- The variable is set, for `getenv`, exactly when `environ` holds an entry that starts
with its name and `=`. -/
theorem getenv_isSome (environ : List String) (name : String) :
    (getenv environ name).isSome = environ.any (fun e => starts_with e (name ++ "=")) := by
  unfold getenv
  rw [Option.isSome_map', Bool.eq_iff_iff]
  simp only [List.find?_isSome, List.any_eq_true]

theorem filter_nil_of_getenv_none (environ : List String)
    (h : (getenv environ "BOX64_LD_LIBRARY_PATH").isSome = false) :
    environ.filter (fun e => starts_with e "BOX64_LD_LIBRARY_PATH=") = [] := by
  rw [getenv_isSome, Bool.eq_false_iff] at h
  rw [List.filter_eq_nil_iff]
  intro e he hs
  apply h
  rw [List.any_eq_true]
  exact ⟨e, he, hs⟩

/-- The entries named `OVGL_GLIBC_LIB` in the result of `build_environment`. -/
theorem build_environment_filter_lib (environ : List String) (preload_path : Option String)
    (for_box64 use_preload debug : Bool) (p : String) :
    (build_environment environ preload_path for_box64 use_preload (some p) debug).filter
      (fun e => starts_with e "OVGL_GLIBC_LIB=")
      = [snprintf (PATH_MAX + 64) ("OVGL_GLIBC_LIB=" ++ GLIBC_LIB)] := by
  have hkept := kept_filter_nil environ for_box64 "OVGL_GLIBC_LIB="
    (fun e he => by simp only [env_filtered, he, Bool.or_true, Bool.true_or])
  simp only [build_environment, List.filter_append, hkept, String.append_assoc,
    List.filter_cons, List.filter_nil, List.nil_append]
  cases for_box64 <;> cases use_preload <;> cases debug <;> cases preload_path <;>
    cases (getenv environ "BOX64_LD_LIBRARY_PATH").isNone <;>
    simp (disch := decide) only [starts_with_fmt_true, starts_with_fmt_false, if_true, if_false,
      List.filter_cons, List.filter_nil, List.nil_append, List.append_nil, Bool.false_eq_true,
      List.cons_append, List.filter_append,
      starts_with_uname_lib, starts_with_uname_loader, starts_with_uname_exe,
      starts_with_uname_preload, starts_with_uname_boxlib, starts_with_empty_lib,
      starts_with_empty_loader, starts_with_empty_exe, starts_with_empty_preload,
      starts_with_empty_boxlib, starts_with_debug_lib, starts_with_debug_loader,
      starts_with_debug_exe, starts_with_debug_preload, starts_with_debug_boxlib]

/-- The entries named `OVGL_GLIBC_LOADER` in the result of `build_environment`. -/
theorem build_environment_filter_loader (environ : List String) (preload_path : Option String)
    (for_box64 use_preload debug : Bool) (p : String) :
    (build_environment environ preload_path for_box64 use_preload (some p) debug).filter
      (fun e => starts_with e "OVGL_GLIBC_LOADER=")
      = [snprintf (PATH_MAX + 64) ("OVGL_GLIBC_LOADER=" ++ GLIBC_LOADER)] := by
  have hkept := kept_filter_nil environ for_box64 "OVGL_GLIBC_LOADER="
    (fun e he => by simp only [env_filtered, he, Bool.or_true, Bool.true_or])
  simp only [build_environment, List.filter_append, hkept, String.append_assoc,
    List.filter_cons, List.filter_nil, List.nil_append]
  cases for_box64 <;> cases use_preload <;> cases debug <;> cases preload_path <;>
    cases (getenv environ "BOX64_LD_LIBRARY_PATH").isNone <;>
    simp (disch := decide) only [starts_with_fmt_true, starts_with_fmt_false, if_true, if_false,
      List.filter_cons, List.filter_nil, List.nil_append, List.append_nil, Bool.false_eq_true,
      List.cons_append, List.filter_append,
      starts_with_uname_lib, starts_with_uname_loader, starts_with_uname_exe,
      starts_with_uname_preload, starts_with_uname_boxlib, starts_with_empty_lib,
      starts_with_empty_loader, starts_with_empty_exe, starts_with_empty_preload,
      starts_with_empty_boxlib, starts_with_debug_lib, starts_with_debug_loader,
      starts_with_debug_exe, starts_with_debug_preload, starts_with_debug_boxlib]

/-- The entries named `OVGL_ORIG_EXE` in the result of `build_environment`. -/
theorem build_environment_filter_exe (environ : List String) (preload_path : Option String)
    (for_box64 use_preload debug : Bool) (p : String) :
    (build_environment environ preload_path for_box64 use_preload (some p) debug).filter
      (fun e => starts_with e "OVGL_ORIG_EXE=")
      = [snprintf (PATH_MAX + 64) ("OVGL_ORIG_EXE=" ++ p)] := by
  have hkept := kept_filter_nil environ for_box64 "OVGL_ORIG_EXE="
    (fun e he => by simp only [env_filtered, he, Bool.or_true, Bool.true_or])
  simp only [build_environment, List.filter_append, hkept, String.append_assoc,
    List.filter_cons, List.filter_nil, List.nil_append]
  cases for_box64 <;> cases use_preload <;> cases debug <;> cases preload_path <;>
    cases (getenv environ "BOX64_LD_LIBRARY_PATH").isNone <;>
    simp (disch := decide) only [starts_with_fmt_true, starts_with_fmt_false, if_true, if_false,
      List.filter_cons, List.filter_nil, List.nil_append, List.append_nil, Bool.false_eq_true,
      List.cons_append, List.filter_append,
      starts_with_uname_lib, starts_with_uname_loader, starts_with_uname_exe,
      starts_with_uname_preload, starts_with_uname_boxlib, starts_with_empty_lib,
      starts_with_empty_loader, starts_with_empty_exe, starts_with_empty_preload,
      starts_with_empty_boxlib, starts_with_debug_lib, starts_with_debug_loader,
      starts_with_debug_exe, starts_with_debug_preload, starts_with_debug_boxlib]

/-- The entries named `LD_PRELOAD` in the result of `build_environment`. -/
theorem build_environment_filter_preload (environ : List String) (preload_path : Option String)
    (for_box64 use_preload debug : Bool) (p : String) :
    (build_environment environ preload_path for_box64 use_preload (some p) debug).filter
      (fun e => starts_with e "LD_PRELOAD=")
      = [if for_box64 then "LD_PRELOAD="
          else match preload_path with
            | some q => if use_preload then snprintf (PATH_MAX + 64) ("LD_PRELOAD=" ++ q)
              else "LD_PRELOAD="
            | none => "LD_PRELOAD="] := by
  have hkept := kept_filter_nil environ for_box64 "LD_PRELOAD="
    (fun e he => by simp only [env_filtered, he, Bool.or_true, Bool.true_or])
  simp only [build_environment, List.filter_append, hkept, String.append_assoc,
    List.filter_cons, List.filter_nil, List.nil_append]
  cases for_box64 <;> cases use_preload <;> cases debug <;> cases preload_path <;>
    cases (getenv environ "BOX64_LD_LIBRARY_PATH").isNone <;>
    simp (disch := decide) only [starts_with_fmt_true, starts_with_fmt_false, if_true, if_false,
      List.filter_cons, List.filter_nil, List.nil_append, List.append_nil, Bool.false_eq_true,
      List.cons_append, List.filter_append,
      starts_with_uname_lib, starts_with_uname_loader, starts_with_uname_exe,
      starts_with_uname_preload, starts_with_uname_boxlib, starts_with_empty_lib,
      starts_with_empty_loader, starts_with_empty_exe, starts_with_empty_preload,
      starts_with_empty_boxlib, starts_with_debug_lib, starts_with_debug_loader,
      starts_with_debug_exe, starts_with_debug_preload, starts_with_debug_boxlib]

theorem starts_with_uname_boxpreload : starts_with "BOX64_UNAME=x86_64" "BOX64_LD_PRELOAD=" = false := by decide
theorem starts_with_uname_boxpath : starts_with "BOX64_UNAME=x86_64" "BOX64_PATH=" = false := by decide
theorem starts_with_empty_boxpreload : starts_with "LD_PRELOAD=" "BOX64_LD_PRELOAD=" = false := by decide
theorem starts_with_empty_boxpath : starts_with "LD_PRELOAD=" "BOX64_PATH=" = false := by decide
theorem starts_with_debug_boxpreload : starts_with "OVGL_DEBUG=1" "BOX64_LD_PRELOAD=" = false := by decide
theorem starts_with_debug_boxpath : starts_with "OVGL_DEBUG=1" "BOX64_PATH=" = false := by decide

/-- The key of an entry that starts with `BOX64_LD_LIBRARY_PATH=`. -/
theorem key_of_boxlib (e : String) (h : starts_with e "BOX64_LD_LIBRARY_PATH=" = true) :
    String.mk (e.toList.takeWhile (fun c => c != '=')) = "BOX64_LD_LIBRARY_PATH" := by
  unfold starts_with at h
  rw [List.isPrefixOf_iff_prefix] at h
  obtain ⟨t, ht⟩ := h
  have hk : "BOX64_LD_LIBRARY_PATH=".toList = "BOX64_LD_LIBRARY_PATH".toList ++ ['='] := by
    decide
  rw [← ht, hk, List.append_assoc, List.takeWhile_append_of_pos (by decide)]
  simp only [List.singleton_append, List.takeWhile_cons, bne_self_eq_false, Bool.false_eq_true,
    if_false, List.append_nil]
  rfl

theorem filter_length_le_one {α β : Type} (l : List α) (f : α → β) (p : α → Bool) (K : β)
    (hk : ∀ e, p e = true → f e = K) (hn : (l.map f).Nodup) : (l.filter p).length ≤ 1 := by
  induction l with
  | nil => simp only [List.filter_nil, List.length_nil, Nat.zero_le]
  | cons a t ih =>
    rw [List.map_cons, List.nodup_cons] at hn
    by_cases hp : p a = true
    · have hnil : t.filter p = [] := by
        rw [List.filter_eq_nil_iff]
        intro e he hpe
        apply hn.1
        rw [hk a hp, ← hk e hpe]
        exact List.mem_map_of_mem f he
      rw [List.filter_cons_of_pos hp, hnil]
      exact Nat.le_refl 1
    · rw [List.filter_cons_of_neg hp]
      exact ih hn.2

theorem build_environment_count_lib (environ : List String) (preload_path : Option String)
    (for_box64 use_preload debug : Bool) (orig_binary : Option String) :
    ((build_environment environ preload_path for_box64 use_preload orig_binary debug).filter
      (fun e => starts_with e "OVGL_GLIBC_LIB=")).length ≤ 1 := by
  have hkept := kept_filter_nil environ for_box64 "OVGL_GLIBC_LIB="
    (fun e he => by simp only [env_filtered, he, Bool.or_true, Bool.true_or])
  simp only [build_environment, List.filter_append, hkept, String.append_assoc,
    List.filter_cons, List.filter_nil, List.nil_append]
  cases for_box64 <;> cases use_preload <;> cases debug <;> cases preload_path <;>
    cases orig_binary <;> cases (getenv environ "BOX64_LD_LIBRARY_PATH").isNone <;>
    simp (disch := decide) only [starts_with_fmt_true, starts_with_fmt_false, if_true, if_false,
      List.filter_cons, List.filter_nil, List.nil_append, List.append_nil, Bool.false_eq_true,
      List.cons_append, List.filter_append, List.length_cons, List.length_nil, Nat.zero_le,
      Nat.le_refl, Nat.zero_add,
      starts_with_uname_lib, starts_with_uname_loader, starts_with_uname_exe,
      starts_with_uname_boxpreload, starts_with_uname_boxpath, starts_with_uname_boxlib,
      starts_with_empty_lib, starts_with_empty_loader, starts_with_empty_exe,
      starts_with_empty_boxpreload, starts_with_empty_boxpath, starts_with_empty_boxlib,
      starts_with_debug_lib, starts_with_debug_loader, starts_with_debug_exe,
      starts_with_debug_boxpreload, starts_with_debug_boxpath, starts_with_debug_boxlib]

theorem build_environment_count_loader (environ : List String) (preload_path : Option String)
    (for_box64 use_preload debug : Bool) (orig_binary : Option String) :
    ((build_environment environ preload_path for_box64 use_preload orig_binary debug).filter
      (fun e => starts_with e "OVGL_GLIBC_LOADER=")).length ≤ 1 := by
  have hkept := kept_filter_nil environ for_box64 "OVGL_GLIBC_LOADER="
    (fun e he => by simp only [env_filtered, he, Bool.or_true, Bool.true_or])
  simp only [build_environment, List.filter_append, hkept, String.append_assoc,
    List.filter_cons, List.filter_nil, List.nil_append]
  cases for_box64 <;> cases use_preload <;> cases debug <;> cases preload_path <;>
    cases orig_binary <;> cases (getenv environ "BOX64_LD_LIBRARY_PATH").isNone <;>
    simp (disch := decide) only [starts_with_fmt_true, starts_with_fmt_false, if_true, if_false,
      List.filter_cons, List.filter_nil, List.nil_append, List.append_nil, Bool.false_eq_true,
      List.cons_append, List.filter_append, List.length_cons, List.length_nil, Nat.zero_le,
      Nat.le_refl, Nat.zero_add,
      starts_with_uname_lib, starts_with_uname_loader, starts_with_uname_exe,
      starts_with_uname_boxpreload, starts_with_uname_boxpath, starts_with_uname_boxlib,
      starts_with_empty_lib, starts_with_empty_loader, starts_with_empty_exe,
      starts_with_empty_boxpreload, starts_with_empty_boxpath, starts_with_empty_boxlib,
      starts_with_debug_lib, starts_with_debug_loader, starts_with_debug_exe,
      starts_with_debug_boxpreload, starts_with_debug_boxpath, starts_with_debug_boxlib]

theorem build_environment_count_exe (environ : List String) (preload_path : Option String)
    (for_box64 use_preload debug : Bool) (orig_binary : Option String) :
    ((build_environment environ preload_path for_box64 use_preload orig_binary debug).filter
      (fun e => starts_with e "OVGL_ORIG_EXE=")).length ≤ 1 := by
  have hkept := kept_filter_nil environ for_box64 "OVGL_ORIG_EXE="
    (fun e he => by simp only [env_filtered, he, Bool.or_true, Bool.true_or])
  simp only [build_environment, List.filter_append, hkept, String.append_assoc,
    List.filter_cons, List.filter_nil, List.nil_append]
  cases for_box64 <;> cases use_preload <;> cases debug <;> cases preload_path <;>
    cases orig_binary <;> cases (getenv environ "BOX64_LD_LIBRARY_PATH").isNone <;>
    simp (disch := decide) only [starts_with_fmt_true, starts_with_fmt_false, if_true, if_false,
      List.filter_cons, List.filter_nil, List.nil_append, List.append_nil, Bool.false_eq_true,
      List.cons_append, List.filter_append, List.length_cons, List.length_nil, Nat.zero_le,
      Nat.le_refl, Nat.zero_add,
      starts_with_uname_lib, starts_with_uname_loader, starts_with_uname_exe,
      starts_with_uname_boxpreload, starts_with_uname_boxpath, starts_with_uname_boxlib,
      starts_with_empty_lib, starts_with_empty_loader, starts_with_empty_exe,
      starts_with_empty_boxpreload, starts_with_empty_boxpath, starts_with_empty_boxlib,
      starts_with_debug_lib, starts_with_debug_loader, starts_with_debug_exe,
      starts_with_debug_boxpreload, starts_with_debug_boxpath, starts_with_debug_boxlib]

theorem build_environment_count_boxpreload (environ : List String) (preload_path : Option String)
    (for_box64 use_preload debug : Bool) (orig_binary : Option String) :
    ((build_environment environ preload_path for_box64 use_preload orig_binary debug).filter
      (fun e => starts_with e "BOX64_LD_PRELOAD=")).length ≤ 1 := by
  have hkept := kept_filter_nil environ for_box64 "BOX64_LD_PRELOAD="
    (fun e he => by simp only [env_filtered, he, Bool.or_true, Bool.true_or])
  simp only [build_environment, List.filter_append, hkept, String.append_assoc,
    List.filter_cons, List.filter_nil, List.nil_append]
  cases for_box64 <;> cases use_preload <;> cases debug <;> cases preload_path <;>
    cases orig_binary <;> cases (getenv environ "BOX64_LD_LIBRARY_PATH").isNone <;>
    simp (disch := decide) only [starts_with_fmt_true, starts_with_fmt_false, if_true, if_false,
      List.filter_cons, List.filter_nil, List.nil_append, List.append_nil, Bool.false_eq_true,
      List.cons_append, List.filter_append, List.length_cons, List.length_nil, Nat.zero_le,
      Nat.le_refl, Nat.zero_add,
      starts_with_uname_lib, starts_with_uname_loader, starts_with_uname_exe,
      starts_with_uname_boxpreload, starts_with_uname_boxpath, starts_with_uname_boxlib,
      starts_with_empty_lib, starts_with_empty_loader, starts_with_empty_exe,
      starts_with_empty_boxpreload, starts_with_empty_boxpath, starts_with_empty_boxlib,
      starts_with_debug_lib, starts_with_debug_loader, starts_with_debug_exe,
      starts_with_debug_boxpreload, starts_with_debug_boxpath, starts_with_debug_boxlib]

theorem build_environment_count_boxpath (environ : List String) (preload_path : Option String)
    (for_box64 use_preload debug : Bool) (orig_binary : Option String) :
    ((build_environment environ preload_path for_box64 use_preload orig_binary debug).filter
      (fun e => starts_with e "BOX64_PATH=")).length ≤ 1 := by
  have hkept := kept_filter_nil environ for_box64 "BOX64_PATH="
    (fun e he => by simp only [env_filtered, he, Bool.or_true, Bool.true_or])
  simp only [build_environment, List.filter_append, hkept, String.append_assoc,
    List.filter_cons, List.filter_nil, List.nil_append]
  cases for_box64 <;> cases use_preload <;> cases debug <;> cases preload_path <;>
    cases orig_binary <;> cases (getenv environ "BOX64_LD_LIBRARY_PATH").isNone <;>
    simp (disch := decide) only [starts_with_fmt_true, starts_with_fmt_false, if_true, if_false,
      List.filter_cons, List.filter_nil, List.nil_append, List.append_nil, Bool.false_eq_true,
      List.cons_append, List.filter_append, List.length_cons, List.length_nil, Nat.zero_le,
      Nat.le_refl, Nat.zero_add,
      starts_with_uname_lib, starts_with_uname_loader, starts_with_uname_exe,
      starts_with_uname_boxpreload, starts_with_uname_boxpath, starts_with_uname_boxlib,
      starts_with_empty_lib, starts_with_empty_loader, starts_with_empty_exe,
      starts_with_empty_boxpreload, starts_with_empty_boxpath, starts_with_empty_boxlib,
      starts_with_debug_lib, starts_with_debug_loader, starts_with_debug_exe,
      starts_with_debug_boxpreload, starts_with_debug_boxpath, starts_with_debug_boxlib]

theorem build_environment_count_boxlib (environ : List String)
    (preload_path : Option String) (for_box64 use_preload debug : Bool)
    (orig_binary : Option String) (huniq : (env_keys environ).Nodup) :
    ((build_environment environ preload_path for_box64 use_preload orig_binary debug).filter
      (fun e => starts_with e "BOX64_LD_LIBRARY_PATH=")).length ≤ 1 := by
  have hin : (environ.filter (fun e => starts_with e "BOX64_LD_LIBRARY_PATH=")).length ≤ 1 :=
    filter_length_le_one environ _ _ "BOX64_LD_LIBRARY_PATH" key_of_boxlib huniq
  cases for_box64 with
  | false =>
    have hkept := kept_filter_nil environ false "BOX64_LD_LIBRARY_PATH="
      (fun e he => by simp only [env_filtered, he, Bool.or_true, Bool.not_false, Bool.and_self])
    simp only [build_environment, List.filter_append, hkept, String.append_assoc,
      List.filter_cons, List.filter_nil, List.nil_append]
    cases use_preload <;> cases debug <;> cases preload_path <;> cases orig_binary <;>
    simp (disch := decide) only [starts_with_fmt_true, starts_with_fmt_false, if_true, if_false,
      List.filter_cons, List.filter_nil, List.nil_append, List.append_nil, Bool.false_eq_true,
      List.cons_append, List.filter_append, List.length_nil, Nat.zero_le,
      starts_with_uname_lib, starts_with_uname_loader, starts_with_uname_exe,
      starts_with_uname_boxpreload, starts_with_uname_boxpath, starts_with_uname_boxlib,
      starts_with_empty_lib, starts_with_empty_loader, starts_with_empty_exe,
      starts_with_empty_boxpreload, starts_with_empty_boxpath, starts_with_empty_boxlib,
      starts_with_debug_lib, starts_with_debug_loader, starts_with_debug_exe,
      starts_with_debug_boxpreload, starts_with_debug_boxpath, starts_with_debug_boxlib]
  | true =>
    simp only [build_environment, List.filter_append, kept_filter_boxlib, String.append_assoc,
      List.filter_cons, List.filter_nil, List.nil_append, if_true]
    cases hset : (getenv environ "BOX64_LD_LIBRARY_PATH").isSome with
    | false =>
      have hnone : (getenv environ "BOX64_LD_LIBRARY_PATH").isNone = true := by
        rw [Option.isNone_iff_eq_none, ← Option.not_isSome_iff_eq_none, hset]
        decide
      rw [filter_nil_of_getenv_none environ hset, hnone]
      cases use_preload <;> cases debug <;> cases preload_path <;> cases orig_binary <;>
      simp (disch := decide) only [starts_with_fmt_true, starts_with_fmt_false, if_true,
        if_false, List.filter_cons, List.filter_nil, List.nil_append, List.append_nil,
        Bool.false_eq_true, List.cons_append, List.filter_append, List.length_cons,
        List.length_nil, Nat.zero_add, Nat.le_refl,
        starts_with_uname_lib, starts_with_uname_loader, starts_with_uname_exe,
      starts_with_uname_boxpreload, starts_with_uname_boxpath, starts_with_uname_boxlib,
      starts_with_empty_lib, starts_with_empty_loader, starts_with_empty_exe,
      starts_with_empty_boxpreload, starts_with_empty_boxpath, starts_with_empty_boxlib,
      starts_with_debug_lib, starts_with_debug_loader, starts_with_debug_exe,
      starts_with_debug_boxpreload, starts_with_debug_boxpath, starts_with_debug_boxlib]
    | true =>
      have hnone : (getenv environ "BOX64_LD_LIBRARY_PATH").isNone = false := by
        rw [Option.isNone_eq_false_iff, hset]
      rw [hnone]
      cases use_preload <;> cases debug <;> cases preload_path <;> cases orig_binary <;>
      simp (disch := decide) only [starts_with_fmt_true, starts_with_fmt_false, if_true,
        if_false, List.filter_cons, List.filter_nil, List.nil_append, List.append_nil,
        Bool.false_eq_true, List.cons_append, List.filter_append, hin,
        starts_with_uname_lib, starts_with_uname_loader, starts_with_uname_exe,
      starts_with_uname_boxpreload, starts_with_uname_boxpath, starts_with_uname_boxlib,
      starts_with_empty_lib, starts_with_empty_loader, starts_with_empty_exe,
      starts_with_empty_boxpreload, starts_with_empty_boxpath, starts_with_empty_boxlib,
      starts_with_debug_lib, starts_with_debug_loader, starts_with_debug_exe,
      starts_with_debug_boxpreload, starts_with_debug_boxpath, starts_with_debug_boxlib]

/-- Apart from `OVGL_DEBUG` and `BOX64_UNAME`, no protocol variable is duplicated: for
every inherited environment with unique keys and every other input of
`build_environment`, each of the six names `OVGL_GLIBC_LIB`, `OVGL_GLIBC_LOADER`,
`OVGL_ORIG_EXE`, `BOX64_LD_PRELOAD`, `BOX64_LD_LIBRARY_PATH` and `BOX64_PATH` is the key of
at most one entry of the result. -/
theorem build_environment_six_names_unique (environ : List String)
    (preload_path : Option String) (for_box64 use_preload debug : Bool)
    (orig_binary : Option String) (huniq : (env_keys environ).Nodup) (lit : String)
    (hlit : lit ∈ ["OVGL_GLIBC_LIB=", "OVGL_GLIBC_LOADER=", "OVGL_ORIG_EXE=",
      "BOX64_LD_PRELOAD=", "BOX64_LD_LIBRARY_PATH=", "BOX64_PATH="]) :
    ((build_environment environ preload_path for_box64 use_preload orig_binary debug).filter
      (fun e => starts_with e lit)).length ≤ 1 := by
  simp only [List.mem_cons, List.mem_singleton, List.not_mem_nil, or_false] at hlit
  rcases hlit with h | h | h | h | h | h <;> subst h
  · exact build_environment_count_lib _ _ _ _ _ _
  · exact build_environment_count_loader _ _ _ _ _ _
  · exact build_environment_count_exe _ _ _ _ _ _
  · exact build_environment_count_boxpreload _ _ _ _ _ _
  · exact build_environment_count_boxlib _ _ _ _ _ _ huniq
  · exact build_environment_count_boxpath _ _ _ _ _ _

/-! ## Lemmas: the interception module -/

theorem trailing_args_zero (argv : List String) :
    trailing_args argv 0 argv.length = argv.drop 1 := by
  cases argv with
  | nil => rfl
  | cons a rest =>
    exact trailing_args_eq_drop (a :: rest) 0 (by simp only [List.length_cons]; omega)

theorem build_loader_argv_eq (loader lib_path binary : String) (argv : List String) :
    build_loader_argv loader lib_path binary argv =
      [loader, "--library-path", lib_path, "--argv0", argv.headD binary, binary]
        ++ argv.drop 1 := by
  rw [build_loader_argv, trailing_args_zero]

/-! ## The classifier: properties C1 to C8 -/

/-- C1 fails on the code.  On every memory that holds the 64-byte file `img_phoff_wrap`
(valid arm64 header, `e_phoff = 2^64 - 56`, `e_phnum = 1`) the check of line 123 computes
`e_phoff + e_phnum * 56 = 0` in 64-bit arithmetic and passes, and the loop loads
`phdr[0].p_type` at offset `2^64 - 56` from `buf`, which is not below `n = 64`. -/
theorem analyze_binary_reads_outside_on_phoff_wrap (buf : Nat → Nat)
    (h : holds buf img_phoff_wrap) :
    (e_phoff buf + e_phnum buf * sizeof_Elf64_Phdr) % U64 = 0 ∧
      2 ^ 64 - 56 ∈ analyze_binary_reads 3 buf 64 ∧ ¬ 2 ^ 64 - 56 < 64 := by
  obtain ⟨hnh, -, hpo, hpn⟩ := header_of_holds buf img_phoff_wrap h (by decide) (by decide)
  have hnat : native_header buf := hnh.mpr (by decide)
  have hpo' : e_phoff buf = 2 ^ 64 - 56 := by rw [hpo]; decide
  have hpn' : e_phnum buf = 0 + 1 := by rw [hpn]; decide
  have hsum : (e_phoff buf + e_phnum buf * sizeof_Elf64_Phdr) % U64 = 0 := by
    rw [hpo', hpn']; decide
  refine ⟨hsum, ?_, by decide⟩
  rw [analyze_binary_reads, analyze_of_table 3 buf 64 (by decide) (by decide) hnat
    (by rw [hpo']; decide) (by rw [hpn']; decide) (by rw [hsum]; decide), hpn']
  apply scan_reads_type
  have hm := mem_span (phdr_at buf 0 + off_p_type) 4 0 (by decide)
  have he : (phdr_at buf 0 + off_p_type + 0) % U64 = 2 ^ 64 - 56 := by
    rw [phdr_at, hpo']; decide
  rw [he] at hm
  exact hm

theorem analyze_binary_reads_outside_on_phoff_wrap_witness :
    holds (memOf img_phoff_wrap 0) img_phoff_wrap ∧
      2 ^ 64 - 56 ∈ analyze_binary_reads 3 (memOf img_phoff_wrap 0) 64 :=
  ⟨holds_memOf_self _,
    (analyze_binary_reads_outside_on_phoff_wrap (memOf img_phoff_wrap 0)
      (holds_memOf_self _)).2.1⟩

/-- C2: for every file that can be opened and whose read returns fewer than 64 bytes
(or fails), whatever the buffer holds, `analyze_binary` returns `ARCH_NOT_ELF` with
`INTERP_NONE` and an all-zero `interp_path`, and loads nothing from the buffer. -/
theorem analyze_binary_short_read (fd : Int) (buf : Nat → Nat) (n : Int) (hfd : 0 ≤ fd)
    (hn : n < 64) :
    analyze_binary fd buf n = ⟨ARCH_NOT_ELF, INTERP_NONE, List.replicate 256 0⟩ ∧
      cstr (analyze_binary fd buf n).interp_path = [] ∧
      analyze_binary_reads fd buf n = [] := by
  have hfd' : ¬ fd < 0 := not_lt.mpr hfd
  have hn' : n < (sizeof_Elf64_Ehdr : Int) := by
    simp only [sizeof_Elf64_Ehdr]; push_cast; omega
  have h : analyze_binary_traced fd buf n = (info_init ARCH_NOT_ELF, []) := by
    simp only [analyze_binary_traced, hfd', hn', if_false, if_true, info_init]
  have hb : analyze_binary fd buf n = info_init ARCH_NOT_ELF := by rw [analyze_binary, h]
  refine ⟨hb, ?_, ?_⟩
  · rw [hb]; decide
  · rw [analyze_binary_reads, h]

theorem analyze_binary_short_read_witness :
    (0 : Int) ≤ 3 ∧ (63 : Int) < 64 ∧
      analyze_binary 3 (memOf (img_glibc.take 63) 0) 63
        = ⟨ARCH_NOT_ELF, INTERP_NONE, List.replicate 256 0⟩ :=
  ⟨by decide, by decide,
    (analyze_binary_short_read 3 (memOf (img_glibc.take 63) 0) 63 (by decide) (by decide)).1⟩

/-- C3: for every buffer of at least 64 bytes with the ELF magic and class `ELFCLASS64`
whose `e_machine` is neither 183 nor 62, `analyze_binary` returns `ARCH_UNKNOWN` with
`INTERP_NONE` and an all-zero `interp_path`, and loads nothing beyond the magic, the class
byte and `e_machine`: no program header is looked at, whatever the buffer holds. -/
theorem analyze_binary_unknown_machine (fd : Int) (buf : Nat → Nat) (n : Int)
    (hfd : 0 ≤ fd) (hn : 64 ≤ n) (hm : elf_magic buf)
    (hc : byteAt buf EI_CLASS = ELFCLASS64)
    (h1 : e_machine buf ≠ EM_AARCH64) (h2 : e_machine buf ≠ EM_X86_64) :
    analyze_binary fd buf n = ⟨ARCH_UNKNOWN, INTERP_NONE, List.replicate 256 0⟩ ∧
      cstr (analyze_binary fd buf n).interp_path = [] ∧
      analyze_binary_reads fd buf n = [0, 1, 2, 3, 4, 18, 19] := by
  have h := traced_of_bad_machine fd buf n hfd hn hm hc h1 h2
  have hb : analyze_binary fd buf n = info_init ARCH_UNKNOWN := by rw [analyze_binary, h]
  refine ⟨hb, ?_, ?_⟩
  · rw [hb]; decide
  · rw [analyze_binary_reads, h]; decide

theorem analyze_binary_unknown_machine_witness :
    (elf_magic (memOf img_riscv 0) ∧ byteAt (memOf img_riscv 0) EI_CLASS = ELFCLASS64 ∧
      e_machine (memOf img_riscv 0) = 243) ∧
    (e_phoff (memOf img_riscv 0) + e_phnum (memOf img_riscv 0) * 56 ≤ 203 ∧
      first_interp (memOf img_riscv 0) 1 ∧
      p_offset (memOf img_riscv 0) 1 + p_filesz (memOf img_riscv 0) 1 ≤ 203 ∧
      p_filesz (memOf img_riscv 0) 1 < 256) ∧
    analyze_binary 3 (memOf img_riscv 0) 203
      = ⟨ARCH_UNKNOWN, INTERP_NONE, List.replicate 256 0⟩ :=
  ⟨by decide, by decide,
    (analyze_binary_unknown_machine 3 (memOf img_riscv 0) 203 (by decide) (by decide)
      (by decide) (by decide) (by decide) (by decide)).1⟩

/-- C4 fails on the code, by the defect of C1.  On every memory that holds the 64-byte file
`img_table_wrap` (valid x86-64 header, `e_phoff = 2^64 - 112`, `e_phnum = 2`) the declared
table extent `e_phoff + e_phnum * 56 = 2^64` exceeds the 64 bytes read, yet the classifier
goes on to load `phdr[0].p_type` at offset `2^64 - 112`: it reads a program-header
entry. -/
theorem analyze_binary_scans_on_table_wrap (buf : Nat → Nat)
    (h : holds buf img_table_wrap) :
    native_header buf ∧ 64 < e_phoff buf + e_phnum buf * sizeof_Elf64_Phdr ∧
      phdr_at buf 0 + off_p_type = 2 ^ 64 - 112 ∧
      2 ^ 64 - 112 ∈ analyze_binary_reads 3 buf 64 := by
  obtain ⟨hnh, -, hpo, hpn⟩ := header_of_holds buf img_table_wrap h (by decide) (by decide)
  have hnat : native_header buf := hnh.mpr (by decide)
  have hpo' : e_phoff buf = 2 ^ 64 - 112 := by rw [hpo]; decide
  have hpn' : e_phnum buf = 1 + 1 := by rw [hpn]; decide
  have hsum : (e_phoff buf + e_phnum buf * sizeof_Elf64_Phdr) % U64 = 0 := by
    rw [hpo', hpn']; decide
  refine ⟨hnat, by rw [hpo', hpn']; decide, by rw [phdr_at, hpo']; decide, ?_⟩
  rw [analyze_binary_reads, analyze_of_table 3 buf 64 (by decide) (by decide) hnat
    (by rw [hpo']; decide) (by rw [hpn']; decide) (by rw [hsum]; decide), hpn']
  apply scan_reads_type
  have hm := mem_span (phdr_at buf 0 + off_p_type) 4 0 (by decide)
  have he : (phdr_at buf 0 + off_p_type + 0) % U64 = 2 ^ 64 - 112 := by
    rw [phdr_at, hpo']; decide
  rw [he] at hm
  exact hm

theorem analyze_binary_scans_on_table_wrap_witness :
    holds (memOf img_table_wrap 0) img_table_wrap ∧
      2 ^ 64 - 112 ∈ analyze_binary_reads 3 (memOf img_table_wrap 0) 64 :=
  ⟨holds_memOf_self _,
    (analyze_binary_scans_on_table_wrap (memOf img_table_wrap 0) (holds_memOf_self _)).2.2.2⟩

/-- C5 fails on the code, by the defect of C1.  On every memory that holds the 120-byte
file `img_string_wrap` (valid arm64 header, table inside the file, one `PT_INTERP` entry
with `p_offset = 2^64 - 1` and `p_filesz = 1`) the declared string ends past the bytes
read, yet the check of line 131 computes `p_offset + p_filesz = 0` and passes: the byte at
offset `2^64 - 1` from `buf` is copied into `interp_path` and the verdict is
`INTERP_OTHER`, not `INTERP_NONE`. -/
theorem analyze_binary_copies_on_string_wrap (buf : Nat → Nat)
    (h : holds buf img_string_wrap) :
    (native_header buf ∧ e_phoff buf + e_phnum buf * sizeof_Elf64_Phdr ≤ 120 ∧
      first_interp buf 0 ∧ 120 < p_offset buf 0 + p_filesz buf 0) ∧
    (analyze_binary 3 buf 120).interp = INTERP_OTHER ∧
    (analyze_binary 3 buf 120).interp_path = byteAt buf (2 ^ 64 - 1) :: List.replicate 255 0 ∧
    2 ^ 64 - 1 ∈ analyze_binary_reads 3 buf 120 := by
  obtain ⟨hnh, -, hpo, hpn⟩ := header_of_holds buf img_string_wrap h (by decide) (by decide)
  obtain ⟨hty, hoff, hsz⟩ :=
    phdr_of_holds buf img_string_wrap h (by decide) (by decide) 0 (by decide)
  have hnat : native_header buf := hnh.mpr (by decide)
  have hpo' : e_phoff buf = 64 := by rw [hpo]; decide
  have hpn' : e_phnum buf = 0 + 1 := by rw [hpn]; decide
  have hty' : p_type buf 0 = PT_INTERP := by rw [hty]; decide
  have hoff' : p_offset buf 0 = 2 ^ 64 - 1 := by rw [hoff]; decide
  have hsz' : p_filesz buf 0 = 1 := by rw [hsz]; decide
  have hfirst : first_interp buf 0 := ⟨hty', fun j hj => absurd hj (Nat.not_lt_zero j)⟩
  have htab : (e_phoff buf + e_phnum buf * sizeof_Elf64_Phdr) % U64 ≤ (120 : Int).toNat := by
    rw [hpo', hpn']; decide
  have hsum : (p_offset buf 0 + p_filesz buf 0) % U64 ≤ (120 : Int).toNat := by
    rw [hoff', hsz']; decide
  have hlt : p_filesz buf 0 < sizeof_interp_path := by rw [hsz']; decide
  have hres := analyze_of_first_interp 3 buf 120 0 (by decide) (by decide) hnat
    (by rw [hpo']; decide) htab (by rw [hpn']; decide) hfirst
  have hpath : copyBytes buf (p_offset buf 0) (p_filesz buf 0)
      ++ List.replicate (sizeof_interp_path - p_filesz buf 0) 0
      = [byteAt buf (2 ^ 64 - 1)] ++ List.replicate 255 0 := by
    rw [hoff', hsz']; rfl
  simp only [interp_of_entry, Nat.not_lt.mpr hsum, Nat.not_le.mpr hlt, if_false, ge_iff_le,
    gt_iff_lt, hpath] at hres
  refine ⟨⟨hnat, by rw [hpo', hpn']; decide, hfirst, by rw [hoff', hsz']; decide⟩, ?_, ?_, ?_⟩
  · rw [hres]; exact classify_single _
  · rw [hres]; rfl
  · rw [analyze_binary_reads, analyze_of_table 3 buf 120 (by decide) (by decide) hnat
      (by rw [hpo']; decide) (by rw [hpn']; decide) htab, hpn']
    apply scan_reads_string _ _ _ _ _ _ _ hty' hsum hlt
    have hm := mem_span (p_offset buf 0) (p_filesz buf 0) 0 (by rw [hsz']; decide)
    have he : (p_offset buf 0 + 0) % U64 = 2 ^ 64 - 1 := by rw [hoff']; decide
    rw [he] at hm
    exact hm

theorem analyze_binary_copies_on_string_wrap_witness :
    holds (memOf img_string_wrap 7) img_string_wrap ∧
      (analyze_binary 3 (memOf img_string_wrap 7) 120).interp = INTERP_OTHER ∧
      (analyze_binary 3 (memOf img_string_wrap 7) 120).interp_path
        = 7 :: List.replicate 255 0 :=
  ⟨holds_memOf_fill _ _,
    (analyze_binary_copies_on_string_wrap (memOf img_string_wrap 7) (holds_memOf_fill _ _)).2.1,
    (analyze_binary_copies_on_string_wrap (memOf img_string_wrap 7) (holds_memOf_fill _ _)).2.2.1⟩

/-- C6 as stated fails: in the 147-byte file `img_table_cut` the header is valid and
native, entry 0 is the first `PT_INTERP` entry, the entry and the 27-byte string it
declares (which contains `ld-linux`) lie inside the bytes read, yet nothing is copied and
the verdict is `INTERP_NONE`, because the header declares two entries and the table ends
past the bytes read (line 123). -/
theorem analyze_binary_no_copy_when_table_cut :
    native_header (memOf img_table_cut 0) ∧ first_interp (memOf img_table_cut 0) 0 ∧
      phdr_at (memOf img_table_cut 0) 0 + sizeof_Elf64_Phdr ≤ 147 ∧
      p_offset (memOf img_table_cut 0) 0 + p_filesz (memOf img_table_cut 0) 0 ≤ 147 ∧
      p_filesz (memOf img_table_cut 0) 0 < 256 ∧
      occursIn (cbytes "ld-linux") (cstr (copyBytes (memOf img_table_cut 0)
        (p_offset (memOf img_table_cut 0) 0) (p_filesz (memOf img_table_cut 0) 0))) = true ∧
      analyze_binary 3 (memOf img_table_cut 0) 147
        = ⟨ARCH_AARCH64, INTERP_NONE, List.replicate 256 0⟩ :=
  ⟨by decide, by decide, by decide, by decide, by decide, by decide, by rfl⟩

/-- C6, amended: for every buffer with a valid native header and a program-header table
that lies inside the bytes read (`e_phoff ≠ 0`, `e_phoff + e_phnum * 56 ≤ n`), whose first
`PT_INTERP` entry declares a string inside the bytes read with `p_filesz < 256`,
`analyze_binary` copies exactly those `p_filesz` bytes into `interp_path` (the rest of the
array is zero) and classifies the string `s` they form up to the first NUL by substring:
`INTERP_GLIBC` if `s` contains "ld-linux", else `INTERP_BIONIC` if it contains "linker",
else `INTERP_MUSL` if it contains "ld-musl", else `INTERP_OTHER`. -/
theorem analyze_binary_copies_and_classifies (fd : Int) (buf : Nat → Nat) (n : Int)
    (i : Nat) (hfd : 0 ≤ fd) (hn : 64 ≤ n) (hh : native_header buf)
    (hphoff : e_phoff buf ≠ 0) (htab : e_phoff buf + e_phnum buf * 56 ≤ n.toNat)
    (hi : i < e_phnum buf) (hfirst : first_interp buf i)
    (hin : p_offset buf i + p_filesz buf i ≤ n.toNat) (hsz : p_filesz buf i < 256) :
    (analyze_binary fd buf n).arch = native_arch buf ∧
      (analyze_binary fd buf n).interp_path =
        copyBytes buf (p_offset buf i) (p_filesz buf i)
          ++ List.replicate (256 - p_filesz buf i) 0 ∧
      (analyze_binary fd buf n).interp =
        (if cbytes "ld-linux" <:+: cstr (copyBytes buf (p_offset buf i) (p_filesz buf i))
          then INTERP_GLIBC
         else if cbytes "linker" <:+: cstr (copyBytes buf (p_offset buf i) (p_filesz buf i))
          then INTERP_BIONIC
         else if cbytes "ld-musl" <:+: cstr (copyBytes buf (p_offset buf i) (p_filesz buf i))
          then INTERP_MUSL
         else INTERP_OTHER) := by
  have htab' : (e_phoff buf + e_phnum buf * sizeof_Elf64_Phdr) % U64 ≤ n.toNat :=
    Nat.le_trans (Nat.mod_le _ _) htab
  rw [analyze_of_first_interp fd buf n i hfd hn hh hphoff htab' hi hfirst,
    interp_of_entry_ok buf n.toNat _ i hin hsz]
  refine ⟨rfl, rfl, ?_⟩
  obtain ⟨k, hk⟩ : ∃ k, sizeof_interp_path - p_filesz buf i = k + 1 :=
    ⟨255 - p_filesz buf i, by simp only [sizeof_interp_path]; omega⟩
  simp only [classify_interp_eq, hk, cstr_append_zeros]

theorem analyze_binary_copies_and_classifies_witness :
    (native_header (memOf img_both 0) ∧ e_phoff (memOf img_both 0) ≠ 0 ∧
      e_phoff (memOf img_both 0) + e_phnum (memOf img_both 0) * 56 ≤ 153 ∧
      first_interp (memOf img_both 0) 0 ∧
      p_offset (memOf img_both 0) 0 + p_filesz (memOf img_both 0) 0 ≤ 153 ∧
      p_filesz (memOf img_both 0) 0 < 256) ∧
    occursIn (cbytes "linker") (cstr (copyBytes (memOf img_both 0) 120 33)) = true ∧
    (analyze_binary 3 (memOf img_both 0) 153).interp = INTERP_GLIBC ∧
    (analyze_binary 3 (memOf img_both 0) 153).interp_path =
      copyBytes (memOf img_both 0) (p_offset (memOf img_both 0) 0)
          (p_filesz (memOf img_both 0) 0)
        ++ List.replicate (256 - p_filesz (memOf img_both 0) 0) 0 :=
  ⟨by decide, by decide, by decide,
    (analyze_binary_copies_and_classifies 3 (memOf img_both 0) 153 0 (by decide) (by decide)
      (by decide) (by decide) (by decide) (by decide) (by decide) (by decide)
      (by decide)).2.1⟩

/-- C7: the architecture verdict is a function of the magic, the class byte and
`e_machine` alone.  Two buffers of at least 64 bytes that agree on bytes 0..4 and 18..19
get the same architecture, whatever else they hold (program-header offset, count, entries,
interpreter strings, read lengths); and the verdict is `ARCH_NOT_ELF` on a magic mismatch,
else `ARCH_UNKNOWN` when the class is not `ELFCLASS64`, else `ARCH_AARCH64` for machine
183, `ARCH_X86_64` for machine 62 and `ARCH_UNKNOWN` for any other machine. -/
theorem analyze_binary_arch_independent (fd1 fd2 : Int) (buf1 buf2 : Nat → Nat)
    (n1 n2 : Int) (hfd1 : 0 ≤ fd1) (hfd2 : 0 ≤ fd2) (hn1 : 64 ≤ n1) (hn2 : 64 ≤ n2)
    (hag : ∀ i, i ∈ [0, 1, 2, 3, 4, 18, 19] → byteAt buf1 i = byteAt buf2 i) :
    (analyze_binary fd1 buf1 n1).arch = (analyze_binary fd2 buf2 n2).arch ∧
      (analyze_binary fd1 buf1 n1).arch =
        (if ¬ elf_magic buf1 then ARCH_NOT_ELF
         else if byteAt buf1 4 ≠ 2 then ARCH_UNKNOWN
         else if e_machine buf1 = 183 then ARCH_AARCH64
         else if e_machine buf1 = 62 then ARCH_X86_64
         else ARCH_UNKNOWN) := by
  rw [analyze_binary_arch fd1 buf1 n1 hfd1 hn1, analyze_binary_arch fd2 buf2 n2 hfd2 hn2]
  exact ⟨header_arch_congr buf1 buf2 hag, rfl⟩

theorem analyze_binary_arch_independent_witness :
    ((0 : Int) ≤ 3 ∧ (64 : Int) ≤ 203 ∧ (64 : Int) ≤ 64 ∧
      ∀ i, i ∈ [0, 1, 2, 3, 4, 18, 19] →
        byteAt (memOf img_glibc 0) i = byteAt (memOf img_phoff_wrap 7) i) ∧
    (analyze_binary 3 (memOf img_glibc 0) 203).interp = INTERP_GLIBC ∧
    (analyze_binary 3 (memOf img_phoff_wrap 7) 64).interp = INTERP_NONE ∧
    (analyze_binary 3 (memOf img_glibc 0) 203).arch
      = (analyze_binary 3 (memOf img_phoff_wrap 7) 64).arch :=
  ⟨by decide, by decide, by decide,
    (analyze_binary_arch_independent 3 3 (memOf img_glibc 0) (memOf img_phoff_wrap 7) 203 64
      (by decide) (by decide) (by decide) (by decide) (by decide)).1⟩

/-- C8 as stated fails: `analyze_binary` returns `ARCH_AARCH64` with `INTERP_NONE` on the
file `img_long_interp`, whose only program-header entry is a `PT_INTERP` entry (its string
has 256 bytes, line 132), and on the file `img_table_cut`, whose entry 0 is a `PT_INTERP`
entry (the declared table ends past the bytes read, line 123). -/
theorem analyze_binary_none_despite_interp_entry :
    (analyze_binary 3 (memOf img_long_interp 0) 376
        = ⟨ARCH_AARCH64, INTERP_NONE, List.replicate 256 0⟩ ∧
      0 < e_phnum (memOf img_long_interp 0) ∧
      p_type (memOf img_long_interp 0) 0 = PT_INTERP) ∧
    (analyze_binary 3 (memOf img_table_cut 0) 147
        = ⟨ARCH_AARCH64, INTERP_NONE, List.replicate 256 0⟩ ∧
      0 < e_phnum (memOf img_table_cut 0) ∧
      p_type (memOf img_table_cut 0) 0 = PT_INTERP) :=
  ⟨⟨by rfl, by decide, by decide⟩, ⟨by rfl, by decide, by decide⟩⟩

/-- C8, amended: whenever `analyze_binary` returns a native architecture with
`INTERP_NONE` and the header declares a program-header table that lies inside the bytes
read (`e_phoff ≠ 0` and `e_phoff + e_phnum * 56 ≤ n`), either none of the `e_phnum`
entries has type `PT_INTERP`, or the first entry of that type declares a string that the
classifier rejects: `p_offset + p_filesz` exceeds the bytes read or `p_filesz ≥ 256`. -/
theorem analyze_binary_none_means_absent_or_rejected (fd : Int) (buf : Nat → Nat) (n : Int)
    (harch : (analyze_binary fd buf n).arch = ARCH_AARCH64 ∨
      (analyze_binary fd buf n).arch = ARCH_X86_64)
    (hnone : (analyze_binary fd buf n).interp = INTERP_NONE)
    (hphoff : e_phoff buf ≠ 0) (htab : e_phoff buf + e_phnum buf * 56 ≤ n.toNat) :
    (∀ j, j < e_phnum buf → p_type buf j ≠ PT_INTERP) ∨
      ∃ i, i < e_phnum buf ∧ first_interp buf i ∧
        (n.toNat < p_offset buf i + p_filesz buf i ∨ 256 ≤ p_filesz buf i) := by
  obtain ⟨hfd, hn, hh⟩ := native_of_arch fd buf n harch
  by_cases hall : ∀ j, j < e_phnum buf → p_type buf j ≠ PT_INTERP
  · exact Or.inl hall
  · right
    have hex : ∃ j, j < e_phnum buf ∧ p_type buf j = PT_INTERP := by
      by_contra hne
      exact hall (fun j hj hp => hne ⟨j, hj, hp⟩)
    have hi := Nat.find_spec hex
    have hmin : ∀ j, j < Nat.find hex → p_type buf j ≠ PT_INTERP := fun j hj hp =>
      Nat.find_min hex hj ⟨Nat.lt_trans hj hi.1, hp⟩
    have hfirst : first_interp buf (Nat.find hex) := ⟨hi.2, hmin⟩
    have htab' : (e_phoff buf + e_phnum buf * sizeof_Elf64_Phdr) % U64 ≤ n.toNat :=
      Nat.le_trans (Nat.mod_le _ _) htab
    rw [analyze_of_first_interp fd buf n _ hfd hn hh hphoff htab' hi.1 hfirst] at hnone
    exact ⟨Nat.find hex, hi.1, hfirst, interp_of_entry_none buf n.toNat _ _ hnone⟩

theorem analyze_binary_none_means_absent_or_rejected_witness :
    ((analyze_binary 3 (memOf img_long_interp 0) 376).arch = ARCH_AARCH64 ∧
      (analyze_binary 3 (memOf img_long_interp 0) 376).interp = INTERP_NONE ∧
      e_phoff (memOf img_long_interp 0) ≠ 0 ∧
      e_phoff (memOf img_long_interp 0) + e_phnum (memOf img_long_interp 0) * 56
        ≤ (376 : Int).toNat) ∧
    ((∀ j, j < e_phnum (memOf img_long_interp 0) →
        p_type (memOf img_long_interp 0) j ≠ PT_INTERP) ∨
      ∃ i, i < e_phnum (memOf img_long_interp 0) ∧ first_interp (memOf img_long_interp 0) i ∧
        ((376 : Int).toNat
            < p_offset (memOf img_long_interp 0) i + p_filesz (memOf img_long_interp 0) i ∨
          256 ≤ p_filesz (memOf img_long_interp 0) i)) :=
  ⟨⟨by decide, by decide, by decide, by decide⟩,
    analyze_binary_none_means_absent_or_rejected 3 (memOf img_long_interp 0) 376
      (Or.inl (by decide)) (by decide) (by decide) (by decide)⟩

/-! ## The dispatch: properties C9 to C15 -/

/-- C9: for every launcher invocation whose option loop ends at the target `argv[arg_start]`,
whose target resolves to the path `P` and is classified `ARCH_AARCH64` with
`INTERP_GLIBC`, with the glibc loader and library directory present (and the allocations
succeeding, without which no plan is built), the launcher calls `execve` on the glibc
loader with argv exactly `[GLIBC_LOADER, "--library-path", GLIBC_LIB, "--argv0",
argv[arg_start], P]` followed by the user's trailing arguments `argv[arg_start + 1 ..]`
in order; the vector has `orig_argc + 5` elements before its terminating NULL. -/
theorem main_glibc_loader_plan (w : World) (argv : List String) (debug use_preload : Bool)
    (arg_start : Nat) (P : String)
    (hparse : parse_options (argv.drop 1) false true 1 = .run debug use_preload arg_start)
    (hstart : arg_start < argv.length)
    (hfind : find_in_path w (argv.getD arg_start "") PATH_MAX = some P)
    (harch : (analyze_file w P).arch = ARCH_AARCH64)
    (hinterp : (analyze_file w P).interp = INTERP_GLIBC)
    (hloader : w.access_x GLIBC_LOADER = true) (hlib : w.access_f GLIBC_LIB = true)
    (halloc : w.alloc_ok = true) :
    main w argv =
        .exec GLIBC_LOADER
          ([GLIBC_LOADER, "--library-path", GLIBC_LIB, "--argv0", argv.getD arg_start "", P]
            ++ argv.drop (arg_start + 1))
          (build_environment w.environ (extract_preload_library w) false use_preload (some P)
            debug) ∧
      ([GLIBC_LOADER, "--library-path", GLIBC_LIB, "--argv0", argv.getD arg_start "", P]
            ++ argv.drop (arg_start + 1)).length = (argv.length - arg_start) + 5 := by
  constructor
  · simp only [main, hparse, hfind, harch, Nat.not_le.mpr hstart, if_false, ge_iff_le,
      dispatch_aarch64, hinterp, hloader, hlib, halloc, Bool.not_true, Bool.false_eq_true,
      trailing_args_eq_drop argv arg_start hstart, reduceCtorEq, if_true]
  · simp only [List.length_append, List.length_cons, List.length_nil, List.length_drop]
    omega

theorem main_glibc_loader_plan_witness :
    (find_in_path world_demo "app" PATH_MAX = some "/work/app" ∧
      (analyze_file world_demo "/work/app").arch = ARCH_AARCH64 ∧
      (analyze_file world_demo "/work/app").interp = INTERP_GLIBC) ∧
    main world_demo ["ovgl", "-d", "app", "-n", "x y"] =
      .exec GLIBC_LOADER
        [GLIBC_LOADER, "--library-path", GLIBC_LIB, "--argv0", "app", "/work/app", "-n", "x y"]
        (build_environment world_demo.environ (extract_preload_library world_demo) false true
          (some "/work/app") true) :=
  ⟨⟨by decide, by decide, by decide⟩,
    (main_glibc_loader_plan world_demo ["ovgl", "-d", "app", "-n", "x y"] true true 2
      "/work/app" (by decide) (by decide) (by decide) (by decide) (by decide) (by decide)
      (by decide) (by decide)).1⟩

/-- C10: for every launcher invocation whose target resolves to `P` and is classified
`ARCH_X86_64`, and whose located emulator `B` is itself classified with `INTERP_GLIBC`
(the allocations succeeding), the plan nests: the launcher calls `execve` on the glibc
loader with argv `[GLIBC_LOADER, "--library-path", GLIBC_LIB, "--argv0", "box64", B, P]`
followed by the user's trailing arguments `argv[arg_start + 1 ..]` in their original
order.  So the loader is element 0, the emulator path comes before the target path, and
the original arguments follow the target unchanged. -/
theorem main_nested_emulator_plan (w : World) (argv : List String)
    (debug use_preload : Bool) (arg_start : Nat) (P B : String)
    (hparse : parse_options (argv.drop 1) false true 1 = .run debug use_preload arg_start)
    (hstart : arg_start < argv.length)
    (hfind : find_in_path w (argv.getD arg_start "") PATH_MAX = some P)
    (harch : (analyze_file w P).arch = ARCH_X86_64)
    (hbox : find_box64 w PATH_MAX = some B)
    (hinterp : (analyze_file w B).interp = INTERP_GLIBC)
    (halloc : w.alloc_ok = true) :
    main w argv =
      .exec GLIBC_LOADER
        ([GLIBC_LOADER, "--library-path", GLIBC_LIB, "--argv0", "box64", B, P]
          ++ argv.drop (arg_start + 1))
        (build_environment w.environ (extract_preload_library w) true use_preload (some P)
          debug) := by
  simp only [main, hparse, hfind, harch, Nat.not_le.mpr hstart, if_false, ge_iff_le,
    dispatch_x86_64, hbox, hinterp, halloc, Bool.not_true, Bool.false_eq_true,
    trailing_args_eq_drop argv arg_start hstart, reduceCtorEq, if_true]

theorem main_nested_emulator_plan_witness :
    (find_in_path world_demo "app64" PATH_MAX = some "/work/app64" ∧
      (analyze_file world_demo "/work/app64").arch = ARCH_X86_64 ∧
      find_box64 world_demo PATH_MAX = some "/data/data/com.termux/files/usr/bin/box64" ∧
      (analyze_file world_demo "/data/data/com.termux/files/usr/bin/box64").interp
        = INTERP_GLIBC) ∧
    main world_demo ["ovgl", "--", "app64", "-h", "z"] =
      .exec GLIBC_LOADER
        [GLIBC_LOADER, "--library-path", GLIBC_LIB, "--argv0", "box64",
          "/data/data/com.termux/files/usr/bin/box64", "/work/app64", "-h", "z"]
        (build_environment world_demo.environ (extract_preload_library world_demo) true true
          (some "/work/app64") false) :=
  ⟨⟨by decide, by decide, by decide, by decide⟩,
    main_nested_emulator_plan world_demo ["ovgl", "--", "app64", "-h", "z"] false true 2
      "/work/app64" "/data/data/com.termux/files/usr/bin/box64" (by decide) (by decide)
      (by decide) (by decide) (by decide) (by decide) (by decide)⟩

/-- C11 as stated fails: in `world_host` the target `static` is an arm64 image without
program headers (`ARCH_AARCH64`, `INTERP_NONE`), and the launcher does not run it
directly: it executes the glibc loader, and element 0 of the plan's argv is the loader
path, not the name `static` the user typed. -/
theorem main_static_not_run_directly :
    (find_in_path (world_host true) "static" PATH_MAX = some "/home/u/static" ∧
      (analyze_file (world_host true) "/home/u/static").arch = ARCH_AARCH64 ∧
      (analyze_file (world_host true) "/home/u/static").interp = INTERP_NONE) ∧
    main (world_host true) ["ovgl", "static", "a"] =
      .exec GLIBC_LOADER
        [GLIBC_LOADER, "--library-path", GLIBC_LIB, "--argv0", "static", "/home/u/static", "a"]
        (build_environment (world_host true).environ none false true (some "/home/u/static")
          false) ∧
    GLIBC_LOADER ≠ "/home/u/static" ∧ GLIBC_LOADER ≠ "static" :=
  ⟨⟨by decide, by decide, by decide⟩, by decide, by decide, by decide⟩

/-- C11, amended: for every launcher invocation whose target resolves to `P` and is
classified `ARCH_AARCH64` with `INTERP_NONE`, with the glibc loader and library directory
present (and the allocations succeeding), the plan is loader-mediated, as for a glibc
binary: the program executed is the glibc loader, element 0 of argv is the loader path,
the name the user typed is passed as the value of `--argv0` (element 4), followed by `P`
and the user's trailing arguments. -/
theorem main_static_loader_plan (w : World) (argv : List String) (debug use_preload : Bool)
    (arg_start : Nat) (P : String)
    (hparse : parse_options (argv.drop 1) false true 1 = .run debug use_preload arg_start)
    (hstart : arg_start < argv.length)
    (hfind : find_in_path w (argv.getD arg_start "") PATH_MAX = some P)
    (harch : (analyze_file w P).arch = ARCH_AARCH64)
    (hinterp : (analyze_file w P).interp = INTERP_NONE)
    (hloader : w.access_x GLIBC_LOADER = true) (hlib : w.access_f GLIBC_LIB = true)
    (halloc : w.alloc_ok = true) :
    main w argv =
      .exec GLIBC_LOADER
        ([GLIBC_LOADER, "--library-path", GLIBC_LIB, "--argv0", argv.getD arg_start "", P]
          ++ argv.drop (arg_start + 1))
        (build_environment w.environ (extract_preload_library w) false use_preload (some P)
          debug) := by
  rw [main_of_resolved w argv debug use_preload arg_start P hparse hstart hfind, harch]
  simp only [reduceCtorEq, if_false, if_true]
  exact dispatch_aarch64_loader w argv debug use_preload arg_start P _ hstart
    (by rw [hinterp]; decide) hloader hlib halloc

theorem main_static_loader_plan_witness :
    (find_in_path (world_host true) "static" PATH_MAX = some "/home/u/static" ∧
      (analyze_file (world_host true) "/home/u/static").arch = ARCH_AARCH64 ∧
      (analyze_file (world_host true) "/home/u/static").interp = INTERP_NONE) ∧
    main (world_host true) ["ovgl", "-n", "static", "a", "b"] =
      .exec GLIBC_LOADER
        [GLIBC_LOADER, "--library-path", GLIBC_LIB, "--argv0", "static", "/home/u/static",
          "a", "b"]
        (build_environment (world_host true).environ
          (extract_preload_library (world_host true)) false false (some "/home/u/static")
          false) :=
  ⟨⟨by decide, by decide, by decide⟩,
    main_static_loader_plan (world_host true) ["ovgl", "-n", "static", "a", "b"] false false 2
      "/home/u/static" (by decide) (by decide) (by decide) (by decide) (by decide)
      (by decide) (by decide) (by decide)⟩

/-- C12: for every launcher invocation whose target resolves to `P` and is classified
`ARCH_AARCH64` with `INTERP_BIONIC`, the launcher calls `execv(P, &argv[arg_start])`: the
program is the resolved target path, argv is the user's vector from the target name on,
unchanged and in order, and the environment is the inherited `environ`.  Nothing is
assumed about the glibc loader, the library directory or the preload library: the plan is
the same whether or not they are present. -/
theorem main_bionic_direct_plan (w : World) (argv : List String) (debug use_preload : Bool)
    (arg_start : Nat) (P : String)
    (hparse : parse_options (argv.drop 1) false true 1 = .run debug use_preload arg_start)
    (hstart : arg_start < argv.length)
    (hfind : find_in_path w (argv.getD arg_start "") PATH_MAX = some P)
    (harch : (analyze_file w P).arch = ARCH_AARCH64)
    (hinterp : (analyze_file w P).interp = INTERP_BIONIC) :
    main w argv = .exec P (argv.drop arg_start) w.environ := by
  rw [main_of_resolved w argv debug use_preload arg_start P hparse hstart hfind, harch]
  simp only [reduceCtorEq, if_false, if_true, dispatch_aarch64, hinterp]

theorem main_bionic_direct_plan_witness :
    (find_in_path (world_host false) "sh" PATH_MAX = some "/home/u/sh" ∧
      (analyze_file (world_host false) "/home/u/sh").arch = ARCH_AARCH64 ∧
      (analyze_file (world_host false) "/home/u/sh").interp = INTERP_BIONIC ∧
      (world_host false).access_x GLIBC_LOADER = false) ∧
    main (world_host false) ["ovgl", "-d", "sh", "-c", "ls -l"] =
      .exec "/home/u/sh" ["sh", "-c", "ls -l"]
        ["OVGL_DEBUG=1", "PATH=/usr/local/bin", "BOX64_UNAME=aarch64"] :=
  ⟨⟨by decide, by decide, by decide, by decide⟩,
    main_bionic_direct_plan (world_host false) ["ovgl", "-d", "sh", "-c", "ls -l"] true true 2
      "/home/u/sh" (by decide) (by decide) (by decide) (by decide) (by decide)⟩

/-- C13 as stated fails.  The direct-run plan for the host-loader program `sh` has argv
`["sh", "-c", "x"]`: it holds the user-supplied name and not the resolved path
`/home/u/sh`.  The loader-mediated plan for `app` holds the resolved path `/home/u/app` at
index 5 and also the user-supplied name `app`, at index 4 as the value of `--argv0`. -/
theorem main_plan_argv_holds_typed_name :
    (main (world_host true) ["ovgl", "sh", "-c", "x"] =
        .exec "/home/u/sh" ["sh", "-c", "x"] (world_host true).environ ∧
      "/home/u/sh" ∉ ["sh", "-c", "x"] ∧ "sh" ∈ ["sh", "-c", "x"]) ∧
    (main (world_host true) ["ovgl", "app", "x"] =
        .exec GLIBC_LOADER
          [GLIBC_LOADER, "--library-path", GLIBC_LIB, "--argv0", "app", "/home/u/app", "x"]
          (build_environment (world_host true).environ none false true (some "/home/u/app")
            false) ∧
      "app" ∈ [GLIBC_LOADER, "--library-path", GLIBC_LIB, "--argv0", "app", "/home/u/app",
        "x"]) :=
  ⟨⟨by decide, by decide, by decide⟩, ⟨by decide, by decide⟩⟩

/-- C13, amended: every execution plan the launcher builds is for a target
`argv[arg_start]` that resolved to a path `P`, and it has one of four shapes.  Direct run:
the program is `P` and argv is the user's vector from the target name on, unchanged (it
starts with the user-supplied name).  Loader-mediated: argv is the loader, `--library-path`,
the library directory, `--argv0`, the user-supplied name, then `P` (index 5) and the
trailing arguments.  Emulator direct: argv is the emulator path, then `P` (index 1) and the
trailing arguments.  Emulator nested: argv is the loader prefix with `box64` as the
`--argv0` value, the emulator path, then `P` (index 6) and the trailing arguments.  So in
every plan but the direct run argv holds the resolved path after element 0. -/
theorem main_plan_shapes (w : World) (argv : List String) (prog : String)
    (av envp : List String) (h : main w argv = .exec prog av envp) :
    ∃ debug use_preload arg_start P,
      parse_options (argv.drop 1) false true 1 = .run debug use_preload arg_start ∧
      arg_start < argv.length ∧
      find_in_path w (argv.getD arg_start "") PATH_MAX = some P ∧
      ((prog = P ∧ av = argv.drop arg_start) ∨
        (prog = GLIBC_LOADER ∧
          av = [GLIBC_LOADER, "--library-path", GLIBC_LIB, "--argv0",
            argv.getD arg_start "", P] ++ argv.drop (arg_start + 1)) ∨
        (∃ B, find_box64 w PATH_MAX = some B ∧ prog = B ∧
          av = [B, P] ++ argv.drop (arg_start + 1)) ∨
        (∃ B, find_box64 w PATH_MAX = some B ∧ prog = GLIBC_LOADER ∧
          av = [GLIBC_LOADER, "--library-path", GLIBC_LIB, "--argv0", "box64", B, P]
            ++ argv.drop (arg_start + 1))) := by
  cases hparse : parse_options (argv.drop 1) false true 1 with
  | stop st =>
    simp only [main, hparse, reduceCtorEq] at h
  | run debug use_preload arg_start =>
    by_cases hstart : arg_start < argv.length
    · cases hfind : find_in_path w (argv.getD arg_start "") PATH_MAX with
      | none =>
        simp only [main, hparse, hfind, Nat.not_le.mpr hstart, if_false, ge_iff_le,
          reduceCtorEq] at h
      | some P =>
        refine ⟨debug, use_preload, arg_start, P, rfl, hstart, hfind, ?_⟩
        rw [main_of_resolved w argv debug use_preload arg_start P hparse hstart hfind] at h
        split_ifs at h with h1 h2 h3 h4 h5
        · unfold dispatch_x86_64 at h
          cases hbox : find_box64 w PATH_MAX with
          | none => simp only [hbox, reduceCtorEq] at h
          | some B =>
            simp only [hbox, trailing_args_eq_drop argv arg_start hstart] at h
            split_ifs at h with ha hg
            · simp only [Outcome.exec.injEq] at h
              exact Or.inr (Or.inr (Or.inr ⟨B, rfl, h.1.symm, h.2.1.symm⟩))
            · simp only [Outcome.exec.injEq] at h
              exact Or.inr (Or.inr (Or.inl ⟨B, rfl, h.1.symm, h.2.1.symm⟩))
        · unfold dispatch_aarch64 at h
          simp only [trailing_args_eq_drop argv arg_start hstart] at h
          split_ifs at h with hb hl hlib ha
          · simp only [Outcome.exec.injEq] at h
            exact Or.inl ⟨h.1.symm, h.2.1.symm⟩
          · simp only [Outcome.exec.injEq] at h
            exact Or.inr (Or.inl ⟨h.1.symm, h.2.1.symm⟩)
    · simp only [main, hparse, ge_iff_le, Nat.not_lt.mp hstart, if_true, reduceCtorEq] at h

theorem main_plan_shapes_witness :
    main (world_host true) ["ovgl", "app64", "b"] =
        .exec "/usr/local/bin/box64" ["/usr/local/bin/box64", "/home/u/app64", "b"]
          (build_environment (world_host true).environ none true true (some "/home/u/app64")
            false) ∧
      ∃ debug use_preload arg_start P,
        parse_options (["ovgl", "app64", "b"].drop 1) false true 1
          = .run debug use_preload arg_start ∧
        arg_start < ["ovgl", "app64", "b"].length ∧
        find_in_path (world_host true) (["ovgl", "app64", "b"].getD arg_start "") PATH_MAX
          = some P ∧
        (("/usr/local/bin/box64" = P ∧
            ["/usr/local/bin/box64", "/home/u/app64", "b"]
              = ["ovgl", "app64", "b"].drop arg_start) ∨
          ("/usr/local/bin/box64" = GLIBC_LOADER ∧
            ["/usr/local/bin/box64", "/home/u/app64", "b"] =
              [GLIBC_LOADER, "--library-path", GLIBC_LIB, "--argv0",
                ["ovgl", "app64", "b"].getD arg_start "", P]
                ++ ["ovgl", "app64", "b"].drop (arg_start + 1)) ∨
          (∃ B, find_box64 (world_host true) PATH_MAX = some B ∧ "/usr/local/bin/box64" = B ∧
            ["/usr/local/bin/box64", "/home/u/app64", "b"]
              = [B, P] ++ ["ovgl", "app64", "b"].drop (arg_start + 1)) ∨
          (∃ B, find_box64 (world_host true) PATH_MAX = some B ∧
            "/usr/local/bin/box64" = GLIBC_LOADER ∧
            ["/usr/local/bin/box64", "/home/u/app64", "b"] =
              [GLIBC_LOADER, "--library-path", GLIBC_LIB, "--argv0", "box64", B, P]
                ++ ["ovgl", "app64", "b"].drop (arg_start + 1))) :=
  ⟨by decide,
    main_plan_shapes (world_host true) ["ovgl", "app64", "b"] "/usr/local/bin/box64"
      ["/usr/local/bin/box64", "/home/u/app64", "b"]
      (build_environment (world_host true).environ none true true (some "/home/u/app64")
        false) (by decide)⟩

/-- C14 fails on the code in its second case.  For every launcher invocation whose target
resolves to `P`, is classified `ARCH_AARCH64` and is not a host-loader binary (so that the
glibc loader is required), when `access(GLIBC_LOADER, X_OK)` fails the launcher returns
exit status 1 (line 654), not 127. -/
theorem main_exit_1_when_loader_missing (w : World) (argv : List String)
    (debug use_preload : Bool) (arg_start : Nat) (P : String)
    (hparse : parse_options (argv.drop 1) false true 1 = .run debug use_preload arg_start)
    (hstart : arg_start < argv.length)
    (hfind : find_in_path w (argv.getD arg_start "") PATH_MAX = some P)
    (harch : (analyze_file w P).arch = ARCH_AARCH64)
    (hinterp : (analyze_file w P).interp ≠ INTERP_BIONIC)
    (hloader : w.access_x GLIBC_LOADER = false) :
    main w argv = .exit 1 ∧ main w argv ≠ .exit 127 := by
  have h : main w argv = .exit 1 := by
    rw [main_of_resolved w argv debug use_preload arg_start P hparse hstart hfind, harch]
    simp only [reduceCtorEq, if_false, if_true, dispatch_aarch64, hinterp, hloader,
      Bool.not_false]
  exact ⟨h, by rw [h]; decide⟩

theorem main_exit_1_when_loader_missing_witness :
    (find_in_path (world_host false) "app" PATH_MAX = some "/home/u/app" ∧
      (analyze_file (world_host false) "/home/u/app").arch = ARCH_AARCH64 ∧
      (analyze_file (world_host false) "/home/u/app").interp = INTERP_GLIBC ∧
      (world_host false).access_x GLIBC_LOADER = false) ∧
    main (world_host false) ["ovgl", "app", "b"] = .exit 1 :=
  ⟨⟨by decide, by decide, by decide, by decide⟩,
    (main_exit_1_when_loader_missing (world_host false) ["ovgl", "app", "b"] false true 1
      "/home/u/app" (by decide) (by decide) (by decide) (by decide) (by decide)
      (by decide)).1⟩

/-- C15 as stated fails: in `world_host` the name `sh` contains no slash and
`/usr/local/bin/sh`, in the only directory of `PATH`, is not executable; yet the launcher
finds `sh` in the working directory (line 178), classifies `/home/u/sh` and builds a plan
instead of exiting with 127. -/
theorem main_finds_name_in_cwd :
    ("sh".toList.contains '/' = false ∧
      getenv (world_host true).environ "PATH" = some "/usr/local/bin" ∧
      strtok_colon "/usr/local/bin" = ["/usr/local/bin"] ∧
      (world_host true).access_x (snprintf PATH_MAX ("/usr/local/bin" ++ "/" ++ "sh")) = false) ∧
    main (world_host true) ["ovgl", "sh"] = .exec "/home/u/sh" ["sh"] (world_host true).environ ∧
    analyzed_paths (world_host true) ["ovgl", "sh"] = ["/home/u/sh"] :=
  ⟨⟨by decide, by decide, by decide, by decide⟩, by decide, by decide⟩

/-- C15, amended: for every target name `argv[arg_start]` that contains no slash and is
an executable file neither in the working directory nor in any directory listed in `PATH`
(the path tried being `dir/name` cut to `PATH_MAX - 1` bytes), the launcher exits with
status 127 and `analyze_binary` is invoked on no file. -/
theorem main_exit_127_when_not_found (w : World) (argv : List String)
    (debug use_preload : Bool) (arg_start : Nat)
    (hparse : parse_options (argv.drop 1) false true 1 = .run debug use_preload arg_start)
    (hstart : arg_start < argv.length)
    (hslash : (argv.getD arg_start "").toList.contains '/' = false)
    (hcwd : ∀ c, w.cwd = some c →
      w.access_x (snprintf PATH_MAX (c ++ "/" ++ argv.getD arg_start "")) = false)
    (hpath : ∀ v, getenv w.environ "PATH" = some v → ∀ dir, dir ∈ strtok_colon v →
      w.access_x (snprintf PATH_MAX (dir ++ "/" ++ argv.getD arg_start "")) = false) :
    main w argv = .exit 127 ∧ analyzed_paths w argv = [] := by
  have hfind := find_in_path_none w (argv.getD arg_start "") PATH_MAX hslash hcwd hpath
  constructor
  · simp only [main, hparse, hfind, Nat.not_le.mpr hstart, if_false, ge_iff_le]
  · simp only [analyzed_paths, hparse, hfind, Nat.not_le.mpr hstart, if_false, ge_iff_le]

theorem main_exit_127_when_not_found_witness :
    ("nope".toList.contains '/' = false ∧ (world_host true).cwd = some "/home/u" ∧
      getenv (world_host true).environ "PATH" = some "/usr/local/bin") ∧
    main (world_host true) ["ovgl", "-d", "nope", "x"] = .exit 127 ∧
    analyzed_paths (world_host true) ["ovgl", "-d", "nope", "x"] = [] :=
  ⟨⟨by decide, by decide, by decide⟩,
    main_exit_127_when_not_found (world_host true) ["ovgl", "-d", "nope", "x"] true true 2
      (by decide) (by decide) (by decide)
      (fun c hc => by
        have : c = "/home/u" := by
          have h2 : (world_host true).cwd = some "/home/u" := rfl
          rw [h2] at hc; exact (Option.some.inj hc).symm
        subst this; decide)
      (fun v hv dir hdir => by
        have h2 : getenv (world_host true).environ "PATH" = some "/usr/local/bin" := by decide
        rw [h2] at hv
        have : v = "/usr/local/bin" := (Option.some.inj hv).symm
        subst this
        have h3 : strtok_colon "/usr/local/bin" = ["/usr/local/bin"] := by decide
        rw [h3, List.mem_singleton] at hdir
        subst hdir; decide)⟩

/-! ## The environment of the plan: properties C16 to C18 -/

/-- C16 fails on the code for two of the eight names.  The copy loop of
`build_environment` skips neither `OVGL_DEBUG` nor `BOX64_UNAME`, which the function adds
itself: from the inherited environment `env_inherited`, whose keys are unique, the result
for an emulated target with `debug` set holds two entries named `OVGL_DEBUG` and two
entries named `BOX64_UNAME`. -/
theorem build_environment_duplicates_debug_and_uname :
    (env_keys env_inherited).Nodup ∧
    (build_environment env_inherited none true true (some "/home/u/app64") true).filter
        (fun e => starts_with e "OVGL_DEBUG=") = ["OVGL_DEBUG=1", "OVGL_DEBUG=1"] ∧
    (build_environment env_inherited none true true (some "/home/u/app64") true).filter
        (fun e => starts_with e "BOX64_UNAME=")
      = ["BOX64_UNAME=aarch64", "BOX64_UNAME=x86_64"] ∧
    (build_environment ["OVGL_DEBUG=1"] none false true (some "/home/u/app") true).filter
        (fun e => starts_with e "OVGL_DEBUG=") = ["OVGL_DEBUG=1", "OVGL_DEBUG=1"] :=
  ⟨by decide, by decide, by decide, by decide⟩

/-- C17: for every inherited environment, whatever entries it holds for `OVGL_GLIBC_LIB`,
`OVGL_GLIBC_LOADER`, `OVGL_ORIG_EXE` and `LD_PRELOAD`, the environment `build_environment`
returns for a target path `p` (paths being C strings that fit a `PATH_MAX` buffer) has
exactly one entry for each of the four names, with the freshly computed value: the fixed
glibc library directory, the fixed loader path, `p`, and for `LD_PRELOAD` the preload
library path when the target is not emulated and the preload is available and requested,
the empty string otherwise. -/
theorem build_environment_overrides (environ : List String) (preload_path : Option String)
    (for_box64 use_preload debug : Bool) (p : String) (hp : p.length < PATH_MAX)
    (hq : ∀ q, preload_path = some q → q.length < PATH_MAX) :
    (build_environment environ preload_path for_box64 use_preload (some p) debug).filter
        (fun e => starts_with e "OVGL_GLIBC_LIB=")
      = ["OVGL_GLIBC_LIB=/data/data/com.termux/files/usr/glibc/lib"] ∧
    (build_environment environ preload_path for_box64 use_preload (some p) debug).filter
        (fun e => starts_with e "OVGL_GLIBC_LOADER=")
      = ["OVGL_GLIBC_LOADER=/data/data/com.termux/files/usr/glibc/lib/ld-linux-aarch64.so.1"] ∧
    (build_environment environ preload_path for_box64 use_preload (some p) debug).filter
        (fun e => starts_with e "OVGL_ORIG_EXE=") = ["OVGL_ORIG_EXE=" ++ p] ∧
    (build_environment environ preload_path for_box64 use_preload (some p) debug).filter
        (fun e => starts_with e "LD_PRELOAD=")
      = ["LD_PRELOAD=" ++
          (match preload_path with
            | some q => if for_box64 = false ∧ use_preload = true then q else ""
            | none => "")] := by
  refine ⟨?_, ?_, ?_, ?_⟩
  · rw [build_environment_filter_lib, fmt_glibc_lib]
  · rw [build_environment_filter_loader, fmt_glibc_loader]
  · rw [build_environment_filter_exe, fmt_no_cut _ _ (by decide) hp]
  · rw [build_environment_filter_preload]
    cases preload_path with
    | none => cases for_box64 <;> rfl
    | some q =>
      have hcut := fmt_no_cut "LD_PRELOAD=" q (by decide) (hq q rfl)
      cases for_box64 <;> cases use_preload <;>
        simp only [hcut, if_true, if_false, Bool.false_eq_true, and_self, and_false, false_and,
          and_true, reduceCtorEq] <;> rfl

theorem build_environment_overrides_witness :
    ("/home/u/app".length < PATH_MAX ∧
      ∀ q, some "/glibc/lib/libovgl_preload.so" = some q → q.length < PATH_MAX) ∧
    (build_environment env_inherited (some "/glibc/lib/libovgl_preload.so") false true
        (some "/home/u/app") false).filter (fun e => starts_with e "LD_PRELOAD=")
      = ["LD_PRELOAD=" ++
          (match some "/glibc/lib/libovgl_preload.so" with
            | some q => if false = false ∧ true = true then q else ""
            | none => "")] ∧
    (build_environment env_inherited (some "/glibc/lib/libovgl_preload.so") false true
        (some "/home/u/app") false).filter (fun e => starts_with e "OVGL_ORIG_EXE=")
      = ["OVGL_ORIG_EXE=" ++ "/home/u/app"] :=
  ⟨⟨by decide, fun q hq => by rw [← Option.some.inj hq]; decide⟩,
    (build_environment_overrides env_inherited (some "/glibc/lib/libovgl_preload.so") false
      true false "/home/u/app" (by decide)
      (fun q hq => by rw [← Option.some.inj hq]; decide)).2.2.2,
    (build_environment_overrides env_inherited (some "/glibc/lib/libovgl_preload.so") false
      true false "/home/u/app" (by decide)
      (fun q hq => by rw [← Option.some.inj hq]; decide)).2.2.1⟩

/-- C18: for every inherited environment and every other input, the entries named
`BOX64_LD_LIBRARY_PATH` in the environment `build_environment` returns are: with
`for_box64` set and the variable already set, exactly the inherited entries of that name,
unchanged, and no default; with `for_box64` set and the variable not set, exactly one
entry, `BOX64_LD_LIBRARY_PATH=<GLIBC_PREFIX>/lib_x86_64`; with `for_box64` clear, none. -/
theorem build_environment_box64_library_path (environ : List String)
    (preload_path : Option String) (for_box64 use_preload debug : Bool)
    (orig_binary : Option String) :
    (build_environment environ preload_path for_box64 use_preload orig_binary debug).filter
        (fun e => starts_with e "BOX64_LD_LIBRARY_PATH=") =
      if for_box64 then
        if (getenv environ "BOX64_LD_LIBRARY_PATH").isSome then
          environ.filter (fun e => starts_with e "BOX64_LD_LIBRARY_PATH=")
        else ["BOX64_LD_LIBRARY_PATH=/data/data/com.termux/files/usr/glibc/lib_x86_64"]
      else [] := by
  cases for_box64 with
  | false =>
    have hkept := kept_filter_nil environ false "BOX64_LD_LIBRARY_PATH="
      (fun e he => by simp only [env_filtered, he, Bool.or_true, Bool.not_false, Bool.and_self])
    simp only [build_environment, List.filter_append, hkept, String.append_assoc,
      List.filter_cons, List.filter_nil, List.nil_append]
    cases use_preload <;> cases debug <;> cases preload_path <;> cases orig_binary <;>
    simp (disch := decide) only [starts_with_fmt_true, starts_with_fmt_false, if_true, if_false,
      List.filter_cons, List.filter_nil, List.nil_append, List.append_nil, Bool.false_eq_true,
      List.cons_append, List.filter_append, starts_with_uname_boxlib, starts_with_empty_boxlib, starts_with_debug_boxlib]
  | true =>
    simp only [build_environment, List.filter_append, kept_filter_boxlib, String.append_assoc,
      List.filter_cons, List.filter_nil, List.nil_append, if_true]
    cases hset : (getenv environ "BOX64_LD_LIBRARY_PATH").isSome with
    | false =>
      have hnone : (getenv environ "BOX64_LD_LIBRARY_PATH").isNone = true := by
        rw [Option.isNone_iff_eq_none, ← Option.not_isSome_iff_eq_none, hset]
        decide
      rw [filter_nil_of_getenv_none environ hset, hnone]
      cases use_preload <;> cases debug <;> cases preload_path <;> cases orig_binary <;>
      simp (disch := decide) only [starts_with_fmt_true, starts_with_fmt_false, if_true,
        if_false, List.filter_cons, List.filter_nil, List.nil_append, List.append_nil,
        Bool.false_eq_true, List.cons_append, List.filter_append, fmt_box64_lib,
        starts_with_box64_lib, starts_with_uname_boxlib, starts_with_empty_boxlib, starts_with_debug_boxlib]
    | true =>
      have hnone : (getenv environ "BOX64_LD_LIBRARY_PATH").isNone = false := by
        rw [Option.isNone_eq_false_iff, hset]
      rw [hnone]
      cases use_preload <;> cases debug <;> cases preload_path <;> cases orig_binary <;>
      simp (disch := decide) only [starts_with_fmt_true, starts_with_fmt_false, if_true,
        if_false, List.filter_cons, List.filter_nil, List.nil_append, List.append_nil,
        Bool.false_eq_true, List.cons_append, List.filter_append, starts_with_uname_boxlib, starts_with_empty_boxlib, starts_with_debug_boxlib]

/-! ## The interception module: properties C19 and C20 -/

/-- C19: the hooked `execve` (the real `execve` having been found by `dlsym`) forwards the
call to the real `execve` with exactly the caller's `pathname`, `argv` and `envp` in each
of these cases: `OVGL_GLIBC_LIB` is absent from the process environment,
`OVGL_GLIBC_LOADER` is absent, or `is_glibc_elf` on the resolved path returns anything
other than 1. -/
theorem execve_passes_through (w : World) (dlsym_ok : Bool) (pathname : String)
    (argv envp : List String) (hd : dlsym_ok = true)
    (h : getenv w.environ "OVGL_GLIBC_LIB" = none ∨
      getenv w.environ "OVGL_GLIBC_LOADER" = none ∨
      is_glibc_elf w.environ (w.file (resolve_path w pathname)).1
        (w.file (resolve_path w pathname)).2.1 (w.file (resolve_path w pathname)).2.2 ≠ 1) :
    execve w dlsym_ok pathname argv envp = .real_execve pathname argv envp := by
  unfold execve
  rw [hd]
  simp only [Bool.not_true, Bool.false_eq_true, if_false]
  rcases h with h | h | h
  · rw [h]
  · rw [h]
    cases getenv w.environ "OVGL_GLIBC_LIB" <;> rfl
  · cases getenv w.environ "OVGL_GLIBC_LIB" with
    | none => rfl
    | some lib =>
      cases getenv w.environ "OVGL_GLIBC_LOADER" with
      | none => rfl
      | some loader => simp only [h, ne_eq, not_false_eq_true, if_true]

theorem execve_passes_through_witness :
    (is_glibc_elf world_hooked.environ (world_hooked.file (resolve_path world_hooked "ls")).1
        (world_hooked.file (resolve_path world_hooked "ls")).2.1
        (world_hooked.file (resolve_path world_hooked "ls")).2.2 = 0 ∧
      is_glibc_elf world_hooked.environ
        (world_hooked.file (resolve_path world_hooked "/nope")).1
        (world_hooked.file (resolve_path world_hooked "/nope")).2.1
        (world_hooked.file (resolve_path world_hooked "/nope")).2.2 = -1 ∧
      getenv (world_host true).environ "OVGL_GLIBC_LIB" = none) ∧
    execve world_hooked true "ls" ["ls", "-l"] ["A=1", "OVGL_ORIG_EXE=/old"]
      = .real_execve "ls" ["ls", "-l"] ["A=1", "OVGL_ORIG_EXE=/old"] ∧
    execve world_hooked true "/nope" ["x"] ["A=1"] = .real_execve "/nope" ["x"] ["A=1"] ∧
    execve (world_host true) true "app" ["app"] ["A=1"] = .real_execve "app" ["app"] ["A=1"] :=
  ⟨⟨by decide, by decide, by decide⟩,
    execve_passes_through world_hooked true "ls" ["ls", "-l"] ["A=1", "OVGL_ORIG_EXE=/old"]
      rfl (Or.inr (Or.inr (by decide))),
    execve_passes_through world_hooked true "/nope" ["x"] ["A=1"] rfl
      (Or.inr (Or.inr (by decide))),
    execve_passes_through (world_host true) true "app" ["app"] ["A=1"] rfl
      (Or.inl (by decide))⟩

/-- C20: when the hooked `execve` rewrites a call (the real `execve` found, both protocol
variables set, `is_glibc_elf` returning 1 on the resolved path, the allocations
succeeding), the program it passes to the real `execve` is the value of
`OVGL_GLIBC_LOADER` and the argument vector is exactly the loader, `--library-path`, the
value of `OVGL_GLIBC_LIB`, `--argv0`, `argv[0]` (the resolved path when `argv` is empty),
the resolved path, then `argv[1], ..., argv[argc - 1]`; it has `new_argc = 6 + max(argc -
1, 0)` elements before the terminating NULL.  For a non-empty `argv` this is the shape of
the launcher's loader-mediated plan. -/
theorem execve_rewrites_to_loader (w : World) (dlsym_ok : Bool) (pathname : String)
    (argv envp : List String) (glibc_lib glibc_loader : String) (hd : dlsym_ok = true)
    (hlib : getenv w.environ "OVGL_GLIBC_LIB" = some glibc_lib)
    (hloader : getenv w.environ "OVGL_GLIBC_LOADER" = some glibc_loader)
    (hglibc : is_glibc_elf w.environ (w.file (resolve_path w pathname)).1
      (w.file (resolve_path w pathname)).2.1 (w.file (resolve_path w pathname)).2.2 = 1)
    (halloc : w.alloc_ok = true) :
    execve w dlsym_ok pathname argv envp =
        .real_execve glibc_loader
          ([glibc_loader, "--library-path", glibc_lib, "--argv0",
              argv.headD (resolve_path w pathname), resolve_path w pathname] ++ argv.drop 1)
          (build_new_envp envp (resolve_path w pathname)) ∧
      ([glibc_loader, "--library-path", glibc_lib, "--argv0",
          argv.headD (resolve_path w pathname), resolve_path w pathname]
        ++ argv.drop 1).length = 6 + (argv.length - 1) ∧
      6 + (argv.length - 1) = new_argc argv ∧
      ∀ a rest, argv = a :: rest →
        build_loader_argv glibc_loader glibc_lib (resolve_path w pathname) argv =
          [glibc_loader, "--library-path", glibc_lib, "--argv0", a, resolve_path w pathname]
            ++ rest := by
  refine ⟨?_, ?_, ?_, ?_⟩
  · unfold execve
    rw [hd, hlib, hloader]
    simp only [Bool.not_true, Bool.false_eq_true, if_false, hglibc, ne_eq, not_true_eq_false,
      halloc, build_loader_argv_eq]
  · simp only [List.length_append, List.length_cons, List.length_nil, List.length_drop]
  · unfold new_argc
    split_ifs with h
    · rfl
    · omega
  · intro a rest h
    rw [build_loader_argv_eq, h]
    rfl

theorem execve_rewrites_to_loader_witness :
    (getenv world_hooked.environ "OVGL_GLIBC_LIB"
        = some "/data/data/com.termux/files/usr/glibc/lib" ∧
      resolve_path world_hooked "tool" = "/usr/bin/tool" ∧
      is_glibc_elf world_hooked.environ (world_hooked.file "/usr/bin/tool").1
        (world_hooked.file "/usr/bin/tool").2.1 (world_hooked.file "/usr/bin/tool").2.2 = 1) ∧
    execve world_hooked true "tool" [] ["A=1"] =
      .real_execve "/data/data/com.termux/files/usr/glibc/lib/ld-linux-aarch64.so.1"
        ([ "/data/data/com.termux/files/usr/glibc/lib/ld-linux-aarch64.so.1", "--library-path",
            "/data/data/com.termux/files/usr/glibc/lib", "--argv0",
            ([] : List String).headD (resolve_path world_hooked "tool"),
            resolve_path world_hooked "tool"] ++ ([] : List String).drop 1)
        (build_new_envp ["A=1"] (resolve_path world_hooked "tool")) ∧
    execve world_hooked true "tool" ["tool", "-x", "y"] ["A=1"] =
      .real_execve "/data/data/com.termux/files/usr/glibc/lib/ld-linux-aarch64.so.1"
        ([ "/data/data/com.termux/files/usr/glibc/lib/ld-linux-aarch64.so.1", "--library-path",
            "/data/data/com.termux/files/usr/glibc/lib", "--argv0",
            ["tool", "-x", "y"].headD (resolve_path world_hooked "tool"),
            resolve_path world_hooked "tool"] ++ ["tool", "-x", "y"].drop 1)
        (build_new_envp ["A=1"] (resolve_path world_hooked "tool")) :=
  ⟨⟨by decide, by decide, by decide⟩,
    (execve_rewrites_to_loader world_hooked true "tool" [] ["A=1"]
      "/data/data/com.termux/files/usr/glibc/lib"
      "/data/data/com.termux/files/usr/glibc/lib/ld-linux-aarch64.so.1" rfl (by decide)
      (by decide) (by decide) (by decide)).1,
    (execve_rewrites_to_loader world_hooked true "tool" ["tool", "-x", "y"] ["A=1"]
      "/data/data/com.termux/files/usr/glibc/lib"
      "/data/data/com.termux/files/usr/glibc/lib/ld-linux-aarch64.so.1" rfl (by decide)
      (by decide) (by decide) (by decide)).1⟩

/-! ## Lemmas: the environment of a rewritten call -/

theorem starts_with_append_true (k v lit : String)
    (h : lit.toList.isPrefixOf k.toList = true) : starts_with (k ++ v) lit = true := by
  rw [starts_with, toList_append]
  exact isPrefixOf_append_true _ _ _ h

theorem starts_with_append_false (k v lit : String)
    (h : (lit.toList.take k.length).isPrefixOf k.toList = false) :
    starts_with (k ++ v) lit = false := by
  rw [starts_with, toList_append]
  exact isPrefixOf_append_false _ _ _ h

/-- The entries that `build_new_envp` keeps are those of `envp` that its loop does not
skip. -/
theorem build_new_envp_dropLast (envp : List String) (orig_exe : String) :
    (build_new_envp envp orig_exe).dropLast = envp.filter (fun e => !envp_skipped e) := by
  unfold build_new_envp
  rw [List.dropLast_concat]

/-- The entries of a name that the loop of `build_new_envp` never skips and that is not
`OVGL_ORIG_EXE`: they are those of `envp`. -/
theorem build_new_envp_filter_other (envp : List String) (orig_exe lit : String)
    (h1 : (lit.toList.take "LD_PRELOAD=".length).isPrefixOf "LD_PRELOAD=".toList = false)
    (h2 : (lit.toList.take "OVGL_ORIG_EXE=".length).isPrefixOf "OVGL_ORIG_EXE=".toList = false) :
    (build_new_envp envp orig_exe).filter (fun e => starts_with e lit)
      = envp.filter (fun e => starts_with e lit) := by
  unfold build_new_envp
  rw [List.filter_append, List.filter_filter]
  have hnew : [("OVGL_ORIG_EXE=" ++ orig_exe)].filter (fun e => starts_with e lit) = [] := by
    simp only [List.filter_cons, List.filter_nil,
      starts_with_append_false "OVGL_ORIG_EXE=" orig_exe lit h2, Bool.false_eq_true, if_false]
  rw [hnew, List.append_nil]
  apply List.filter_congr
  intro e _
  cases he : starts_with e lit with
  | false => rfl
  | true =>
    simp only [envp_skipped, starts_with_incompat e lit "LD_PRELOAD=" h1 he,
      starts_with_incompat e lit "OVGL_ORIG_EXE=" h2 he, Bool.false_and, Bool.or_false,
      Bool.not_false, Bool.and_self]

/-! ## The interception module: properties C21 and C22 -/

/-- C21: for every caller environment `envp` and resolved path `P`, the vector that
`build_new_envp` returns holds no entry that starts with `LD_PRELOAD=` and mentions
`libtermux-exec`; its entries that start with `OVGL_ORIG_EXE=` are the single entry
`OVGL_ORIG_EXE=P`, which is its last entry; and the entries before that last one are
exactly the entries of `envp` that are neither an `LD_PRELOAD` entry mentioning
`libtermux-exec` nor an `OVGL_ORIG_EXE` entry, in their original order. -/
theorem build_new_envp_shape (envp : List String) (P : String) :
    (∀ e ∈ build_new_envp envp P,
        ¬ (starts_with e "LD_PRELOAD=" = true ∧ str_contains e "libtermux-exec" = true)) ∧
      (build_new_envp envp P).filter (fun e => starts_with e "OVGL_ORIG_EXE=")
        = ["OVGL_ORIG_EXE=" ++ P] ∧
      (build_new_envp envp P).getLast? = some ("OVGL_ORIG_EXE=" ++ P) ∧
      (build_new_envp envp P).dropLast =
        envp.filter (fun e =>
          !(starts_with e "LD_PRELOAD=" && str_contains e "libtermux-exec")
            && !starts_with e "OVGL_ORIG_EXE=") := by
  refine ⟨?_, ?_, ?_, ?_⟩
  · intro e he
    unfold build_new_envp at he
    rw [List.mem_append, List.mem_filter, List.mem_singleton] at he
    rcases he with ⟨_, hk⟩ | rfl
    · intro hc
      simp only [envp_skipped, hc.1, hc.2, Bool.and_self, Bool.true_or, Bool.not_true,
        Bool.false_eq_true] at hk
    · intro hc
      rw [starts_with_append_false _ _ _ (by decide)] at hc
      exact absurd hc.1 (by decide)
  · unfold build_new_envp
    have hnew : ["OVGL_ORIG_EXE=" ++ P].filter (fun e => starts_with e "OVGL_ORIG_EXE=")
        = ["OVGL_ORIG_EXE=" ++ P] := by
      simp only [List.filter_cons, List.filter_nil,
        starts_with_append_true "OVGL_ORIG_EXE=" P "OVGL_ORIG_EXE=" (by decide), if_true]
    rw [List.filter_append, List.filter_filter, hnew]
    have : envp.filter (fun e => starts_with e "OVGL_ORIG_EXE=" && !envp_skipped e) = [] := by
      rw [List.filter_eq_nil_iff]
      intro e _
      cases he : starts_with e "OVGL_ORIG_EXE=" <;>
        simp only [envp_skipped, he, Bool.or_true, Bool.not_true, Bool.and_false,
          Bool.false_and, Bool.false_eq_true, not_false_eq_true]
    rw [this, List.nil_append]
  · unfold build_new_envp
    rw [List.getLast?_concat]
  · rw [build_new_envp_dropLast]
    apply List.filter_congr
    intro e _
    simp only [envp_skipped, Bool.not_or]

theorem build_new_envp_shape_witness :
    build_new_envp env_inherited "/usr/bin/tool" =
        ["HOME=/home/u", "OVGL_DEBUG=1", "BOX64_UNAME=aarch64", "OVGL_GLIBC_LIB=/old/lib",
          "OVGL_GLIBC_LOADER=/old/ld.so", "BOX64_LD_LIBRARY_PATH=/my/x86/libs",
          "OVGL_ORIG_EXE=/usr/bin/tool"] ∧
      (build_new_envp env_inherited "/usr/bin/tool").filter
          (fun e => starts_with e "OVGL_ORIG_EXE=") = ["OVGL_ORIG_EXE=" ++ "/usr/bin/tool"] ∧
      (build_new_envp env_inherited "/usr/bin/tool").getLast?
        = some ("OVGL_ORIG_EXE=" ++ "/usr/bin/tool") :=
  ⟨by decide, (build_new_envp_shape env_inherited "/usr/bin/tool").2.1,
    (build_new_envp_shape env_inherited "/usr/bin/tool").2.2.1⟩

/-- C22, a counterexample: in a process that has both protocol variables, the call
`execve("tool", ["tool"], ["A=1"])` on a glibc program is rewritten, and the environment
handed to the real `execve` is `["A=1", "OVGL_ORIG_EXE=/usr/bin/tool"]`: it holds neither
an `OVGL_GLIBC_LOADER` entry nor an `OVGL_GLIBC_LIB` entry. -/
theorem execve_env_without_protocol_entries :
    execve world_hooked true "tool" ["tool"] ["A=1"] =
        .real_execve "/data/data/com.termux/files/usr/glibc/lib/ld-linux-aarch64.so.1"
          ["/data/data/com.termux/files/usr/glibc/lib/ld-linux-aarch64.so.1", "--library-path",
            "/data/data/com.termux/files/usr/glibc/lib", "--argv0", "tool", "/usr/bin/tool"]
          ["A=1", "OVGL_ORIG_EXE=/usr/bin/tool"] ∧
      ["A=1", "OVGL_ORIG_EXE=/usr/bin/tool"].filter
          (fun e => starts_with e "OVGL_GLIBC_LOADER=") = [] ∧
      ["A=1", "OVGL_ORIG_EXE=/usr/bin/tool"].filter
          (fun e => starts_with e "OVGL_GLIBC_LIB=") = [] := by
  refine ⟨by decide, by decide, by decide⟩

/-- C22, amended: for every call the hooked `execve` rewrites (the real `execve` found,
both protocol variables set in the process, `is_glibc_elf` returning 1 on the resolved
path, the allocations succeeding), the environment handed to the real `execve` ends with
the entry `OVGL_ORIG_EXE=<resolved path>`, and its `OVGL_GLIBC_LOADER` entries and its
`OVGL_GLIBC_LIB` entries are exactly those of the caller's `envp`, none added and none
removed: it sets the two protocol variables exactly when the caller's `envp` does. -/
theorem execve_env_keeps_protocol_entries (w : World) (dlsym_ok : Bool) (pathname : String)
    (argv envp : List String) (glibc_lib glibc_loader : String) (hd : dlsym_ok = true)
    (hlib : getenv w.environ "OVGL_GLIBC_LIB" = some glibc_lib)
    (hloader : getenv w.environ "OVGL_GLIBC_LOADER" = some glibc_loader)
    (hglibc : is_glibc_elf w.environ (w.file (resolve_path w pathname)).1
      (w.file (resolve_path w pathname)).2.1 (w.file (resolve_path w pathname)).2.2 = 1)
    (halloc : w.alloc_ok = true) :
    ∃ new_argv new_envp,
      execve w dlsym_ok pathname argv envp = .real_execve glibc_loader new_argv new_envp ∧
      new_envp.getLast? = some ("OVGL_ORIG_EXE=" ++ resolve_path w pathname) ∧
      new_envp.filter (fun e => starts_with e "OVGL_GLIBC_LOADER=")
        = envp.filter (fun e => starts_with e "OVGL_GLIBC_LOADER=") ∧
      new_envp.filter (fun e => starts_with e "OVGL_GLIBC_LIB=")
        = envp.filter (fun e => starts_with e "OVGL_GLIBC_LIB=") := by
  refine ⟨build_loader_argv glibc_loader glibc_lib (resolve_path w pathname) argv,
    build_new_envp envp (resolve_path w pathname), ?_, ?_, ?_, ?_⟩
  · unfold execve
    rw [hd, hlib, hloader]
    simp only [Bool.not_true, Bool.false_eq_true, if_false, hglibc, ne_eq, not_true_eq_false,
      halloc]
  · unfold build_new_envp
    rw [List.getLast?_concat]
  · exact build_new_envp_filter_other envp _ "OVGL_GLIBC_LOADER=" (by decide) (by decide)
  · exact build_new_envp_filter_other envp _ "OVGL_GLIBC_LIB=" (by decide) (by decide)

theorem execve_env_keeps_protocol_entries_witness :
    (getenv world_hooked.environ "OVGL_GLIBC_LIB"
        = some "/data/data/com.termux/files/usr/glibc/lib" ∧
      getenv world_hooked.environ "OVGL_GLIBC_LOADER"
        = some "/data/data/com.termux/files/usr/glibc/lib/ld-linux-aarch64.so.1" ∧
      is_glibc_elf world_hooked.environ
        (world_hooked.file (resolve_path world_hooked "tool")).1
        (world_hooked.file (resolve_path world_hooked "tool")).2.1
        (world_hooked.file (resolve_path world_hooked "tool")).2.2 = 1) ∧
    ∃ new_argv new_envp,
      execve world_hooked true "tool" ["tool"] ["OVGL_GLIBC_LIB=/x", "B=2"] =
        .real_execve "/data/data/com.termux/files/usr/glibc/lib/ld-linux-aarch64.so.1"
          new_argv new_envp ∧
      new_envp.getLast? = some ("OVGL_ORIG_EXE=" ++ resolve_path world_hooked "tool") ∧
      new_envp.filter (fun e => starts_with e "OVGL_GLIBC_LOADER=")
        = ["OVGL_GLIBC_LIB=/x", "B=2"].filter (fun e => starts_with e "OVGL_GLIBC_LOADER=") ∧
      new_envp.filter (fun e => starts_with e "OVGL_GLIBC_LIB=")
        = ["OVGL_GLIBC_LIB=/x", "B=2"].filter (fun e => starts_with e "OVGL_GLIBC_LIB=") :=
  ⟨⟨by decide, by decide, by decide⟩,
    execve_env_keeps_protocol_entries world_hooked true "tool" ["tool"]
      ["OVGL_GLIBC_LIB=/x", "B=2"] "/data/data/com.termux/files/usr/glibc/lib"
      "/data/data/com.termux/files/usr/glibc/lib/ld-linux-aarch64.so.1" rfl (by decide)
      (by decide) (by decide) (by decide)⟩

/-! ## Lemmas: is_glibc_elf and analyze_binary -/

theorem copyBytes_succ (buf : Nat → Nat) (off len : Nat) :
    copyBytes buf off (len + 1) = byteAt buf off :: copyBytes buf (off + 1) len := by
  unfold copyBytes
  rw [List.range_succ_eq_map, List.map_cons, List.map_map, Nat.add_zero]
  congr 1
  apply List.map_congr_left
  intro k _
  simp only [Function.comp, Nat.succ_eq_add_one]
  rw [show off + 1 + k = off + (k + 1) by omega]

/-- The C string in a copy of `len` bytes that hold a NUL is the C string in memory. -/
theorem cstr_copyBytes (buf : Nat → Nat) (len fuel off : Nat) (tail : List Nat)
    (hz : ∃ k, k < len ∧ byteAt buf (off + k) = 0) (hf : len ≤ fuel) :
    cstr (copyBytes buf off len ++ tail) = cstr_at buf fuel off := by
  induction len generalizing fuel off with
  | zero =>
    obtain ⟨k, hk, -⟩ := hz
    exact absurd hk (Nat.not_lt_zero k)
  | succ len ih =>
    obtain ⟨fuel, rfl⟩ : ∃ f, fuel = f + 1 := ⟨fuel - 1, by omega⟩
    rw [copyBytes_succ, List.cons_append]
    by_cases h0 : byteAt buf off = 0
    · simp only [cstr, cstr_at, h0, List.takeWhile_cons, bne_self_eq_false,
        Bool.false_eq_true, if_false, if_true]
    · obtain ⟨k, hk, hkz⟩ := hz
      obtain ⟨k, rfl⟩ : ∃ j, k = j + 1 := by
        cases k with
        | zero => exact absurd hkz h0
        | succ j => exact ⟨j, rfl⟩
      have hne : (byteAt buf off != 0) = true := by simpa using h0
      have := ih fuel (off + 1)
        ⟨k, by omega, by rwa [show off + 1 + k = off + (k + 1) by omega]⟩ (by omega)
      simp only [cstr] at this
      simp only [cstr, cstr_at, h0, List.takeWhile_cons, hne, if_true, if_false, this]

/-- The verdict of the launcher's chain is `INTERP_GLIBC` exactly when `ld-linux` occurs. -/
theorem classify_interp_glibc_iff (a : List Nat) :
    classify_interp a = INTERP_GLIBC ↔ occursIn (cbytes "ld-linux") (cstr a) = true := by
  rw [classify_interp_eq, occursIn_iff_infix]
  split_ifs with h1 h2 h3
  · simp only [h1]
  · simp only [h1, reduceCtorEq]
  · simp only [h1, reduceCtorEq]
  · simp only [h1, reduceCtorEq]

/-- The two loops agree on the entries that satisfy `same_interp_string`. -/
theorem scan_glibc_iff (environ : List String) (buf : Nat → Nat) (n : Nat)
    (info : binary_info_t) (hinfo : info.interp ≠ INTERP_GLIBC) (k i : Nat) (r : List Nat)
    (H : ∀ j, i ≤ j → j < i + k → p_type buf j = PT_INTERP →
      (∀ j', i ≤ j' → j' < j → p_type buf j' ≠ PT_INTERP) → same_interp_string environ buf j) :
    scan_glibc environ buf n k i = 1 ↔ (scan_phdrs buf n info k i r).1.interp = INTERP_GLIBC := by
  induction k generalizing i r with
  | zero =>
    simp only [scan_glibc, scan_phdrs, hinfo, iff_false]
    decide
  | succ k ih =>
    by_cases ht : p_type buf i = PT_INTERP
    · obtain ⟨hsz, hz, hmusl, hlib⟩ :=
        H i le_rfl (by omega) ht (fun j' h1 h2 => absurd h2 (by omega))
      simp only [scan_glibc, scan_phdrs, ht, if_true]
      by_cases hw : (p_offset buf i + p_filesz buf i) % U64 > n
      · simp only [hw, if_true, hinfo, iff_false]
        decide
      · have hsz' : ¬ p_filesz buf i ≥ sizeof_interp_path := not_le.mpr hsz
        have hstr := cstr_copyBytes buf (p_filesz buf i) U64 (p_offset buf i)
          (List.replicate (sizeof_interp_path - p_filesz buf i) 0) hz
          (by simp only [sizeof_interp_path, U64] at hsz ⊢; omega)
        simp only [hw, hsz', if_false, classify_interp_glibc_iff, hstr]
        cases hlin : occursIn (cbytes "ld-linux") (cstr_at buf U64 (p_offset buf i)) with
        | true =>
          simp only [Bool.true_or, if_true, iff_true]
          cases hg : getenv environ "OVGL_GLIBC_LIB" with
          | none => rfl
          | some lib =>
            rw [hg] at hlib
            simp only [Option.all_some, Bool.not_eq_true'] at hlib
            simp only [hlib, Bool.false_eq_true, if_false]
        | false =>
          have hm : occursIn (cbytes "ld-musl") (cstr_at buf U64 (p_offset buf i)) = false := by
            rw [← Bool.not_eq_true]
            intro hm
            rw [hmusl hm] at hlin
            exact absurd hlin (by decide)
          simp only [hm, Bool.or_self, Bool.false_eq_true, if_false, iff_false]
          decide
    · simp only [scan_glibc, scan_phdrs, ht, if_false]
      exact ih (i + 1) _ (fun j h1 h2 h3 h4 =>
        H j (by omega) (by omega) h3 (fun j' h5 h6 => by
          by_cases he : j' = i
          · rw [he]; exact ht
          · exact h4 j' (by omega) h6))

set_option maxRecDepth 8000

/-! ## The two classifiers: property C23 -/

/-- C23, counterexamples, with `OVGL_GLIBC_LIB` unset.  On the x86-64 image `img_x86_64`
`is_glibc_elf` returns 1 while `analyze_binary` returns `ARCH_X86_64`; on the arm64 image
`img_musl` it returns 1 while `analyze_binary` returns `INTERP_MUSL`; on `img_core`, an
arm64 glibc image of type `ET_CORE`, it returns 0 while `analyze_binary` returns
`ARCH_AARCH64` with `INTERP_GLIBC`; on `img_long_glibc`, whose string has 256 bytes, it
returns 1 while `analyze_binary` returns `INTERP_NONE`; and on `img_unterminated`
followed in memory by the stale bytes `/ld-linux.so` it returns 1 while `analyze_binary`
returns `INTERP_OTHER`. -/
theorem is_glibc_elf_differs_from_analyze_binary :
    (is_glibc_elf [] 3 (memOf img_x86_64 0) 148 = 1 ∧
        (analyze_binary 3 (memOf img_x86_64 0) 148).arch = ARCH_X86_64) ∧
      (is_glibc_elf [] 3 (memOf img_musl 0) 146 = 1 ∧
        (analyze_binary 3 (memOf img_musl 0) 146).arch = ARCH_AARCH64 ∧
        (analyze_binary 3 (memOf img_musl 0) 146).interp = INTERP_MUSL) ∧
      (is_glibc_elf [] 3 (memOf img_core 0) 203 = 0 ∧
        (analyze_binary 3 (memOf img_core 0) 203).arch = ARCH_AARCH64 ∧
        (analyze_binary 3 (memOf img_core 0) 203).interp = INTERP_GLIBC) ∧
      (is_glibc_elf [] 3 (memOf img_long_glibc 0) 376 = 1 ∧
        (analyze_binary 3 (memOf img_long_glibc 0) 376).arch = ARCH_AARCH64 ∧
        (analyze_binary 3 (memOf img_long_glibc 0) 376).interp = INTERP_NONE) ∧
      (is_glibc_elf [] 3 (memOf (img_unterminated ++ cbytes "/ld-linux.so") 0) 128 = 1 ∧
        (analyze_binary 3 (memOf (img_unterminated ++ cbytes "/ld-linux.so") 0) 128).arch
          = ARCH_AARCH64 ∧
        (analyze_binary 3 (memOf (img_unterminated ++ cbytes "/ld-linux.so") 0) 128).interp
          = INTERP_OTHER) := by
  refine ⟨⟨by decide, by decide⟩, ⟨by decide, by decide, by decide⟩,
    ⟨by decide, by decide, by decide⟩, ⟨by decide, by decide, by decide⟩,
    ⟨by decide, by decide, by decide⟩⟩

/-- C23, amended: for every file prefix whose header names the arm64 machine and the type
`ET_EXEC` or `ET_DYN`, and whose first `PT_INTERP` entry, if the table has one, declares
fewer than 256 bytes with a NUL among them, names no musl loader unless it names
`ld-linux`, and does not contain the value of `OVGL_GLIBC_LIB`: `is_glibc_elf` returns 1
exactly when `analyze_binary` on the same bytes returns `ARCH_AARCH64` with
`INTERP_GLIBC`. -/
theorem is_glibc_elf_iff_loader_branch (environ : List String) (fd : Int) (buf : Nat → Nat)
    (n : Int) (hmach : e_machine buf = EM_AARCH64)
    (htype : e_type buf = ET_EXEC ∨ e_type buf = ET_DYN)
    (hstr : ∀ i, i < e_phnum buf → first_interp buf i → same_interp_string environ buf i) :
    is_glibc_elf environ fd buf n = 1 ↔
      (analyze_binary fd buf n).arch = ARCH_AARCH64 ∧
        (analyze_binary fd buf n).interp = INTERP_GLIBC := by
  have hne : ∀ a : elf_arch_t, (info_init a).interp ≠ INTERP_GLIBC := fun a => by
    simp only [info_init, ne_eq, reduceCtorEq, not_false_eq_true]
  by_cases hfd : fd < 0
  · simp only [is_glibc_elf, analyze_binary, analyze_binary_traced, hfd, if_true, reduceCtorEq,
      false_and, iff_false]
  by_cases hn : n < (sizeof_Elf64_Ehdr : Int)
  · simp only [is_glibc_elf, analyze_binary, analyze_binary_traced, hfd, hn, if_true, if_false,
      reduceCtorEq, false_and, iff_false]
    decide
  have hfd' : 0 ≤ fd := not_lt.mp hfd
  have hn' : 64 ≤ n := by
    simp only [sizeof_Elf64_Ehdr] at hn; push_cast at hn; omega
  by_cases hm : elf_magic buf
  swap
  · rw [analyze_of_bad_magic fd buf n hfd' hn' hm]
    simp only [is_glibc_elf, hfd, hn, hm, not_false_eq_true, if_true, if_false, info_init,
      reduceCtorEq, false_and, iff_false]
    decide
  by_cases hc : byteAt buf EI_CLASS = ELFCLASS64
  swap
  · rw [analyze_binary, traced_of_bad_class fd buf n hfd' hn' hm hc]
    simp only [is_glibc_elf, hfd, hn, hm, hc, not_true_eq_false, not_false_eq_true, if_true,
      if_false, info_init, reduceCtorEq, false_and, iff_false, ne_eq]
    decide
  have hnat : native_header buf := ⟨hm, hc, Or.inl hmach⟩
  have harch : native_arch buf = ARCH_AARCH64 := by
    simp only [native_arch, hmach, if_true]
  have ht' : ¬ (e_type buf ≠ ET_EXEC ∧ e_type buf ≠ ET_DYN) := by
    rcases htype with h | h <;> simp [h]
  rw [analyze_binary, traced_of_native fd buf n hfd' hn' hnat, harch]
  unfold is_glibc_elf
  rw [if_neg hfd, if_neg hn, if_neg (not_not.mpr hm), if_neg (not_not.mpr hc), if_neg ht']
  by_cases hp : e_phoff buf = 0
  · rw [if_pos hp, if_pos (Or.inl hp)]
    simp only [info_init, reduceCtorEq, and_false, iff_false]
    decide
  by_cases hq : e_phnum buf = 0
  · rw [if_neg hp, if_pos hq, if_pos (Or.inr hq)]
    simp only [info_init, reduceCtorEq, and_false, iff_false]
    decide
  rw [if_neg hp, if_neg hq, if_neg (not_or.mpr ⟨hp, hq⟩)]
  by_cases hw : (e_phoff buf + e_phnum buf * sizeof_Elf64_Phdr) % U64 > n.toNat
  · rw [if_pos hw, if_pos hw]
    simp only [info_init, reduceCtorEq, and_false, iff_false]
    decide
  rw [if_neg hw, if_neg hw, scan_arch]
  rw [scan_glibc_iff environ buf n.toNat (info_init ARCH_AARCH64) (hne _) (e_phnum buf) 0
    header_reads (fun j _ h2 h3 h4 =>
      hstr j (by omega) ⟨h3, fun j' hj' => h4 j' (Nat.zero_le _) hj'⟩)]
  simp only [info_init, true_and]

theorem is_glibc_elf_iff_loader_branch_witness :
    (e_machine (memOf img_glibc 0) = EM_AARCH64 ∧
      (e_type (memOf img_glibc 0) = ET_EXEC ∨ e_type (memOf img_glibc 0) = ET_DYN) ∧
      ∀ i, i < e_phnum (memOf img_glibc 0) → first_interp (memOf img_glibc 0) i →
        same_interp_string ["OVGL_GLIBC_LIB=/data/data/com.termux/files/usr/glibc/lib"]
          (memOf img_glibc 0) i) ∧
    (is_glibc_elf ["OVGL_GLIBC_LIB=/data/data/com.termux/files/usr/glibc/lib"] 3
        (memOf img_glibc 0) 203 = 1 ↔
      (analyze_binary 3 (memOf img_glibc 0) 203).arch = ARCH_AARCH64 ∧
        (analyze_binary 3 (memOf img_glibc 0) 203).interp = INTERP_GLIBC) ∧
    is_glibc_elf ["OVGL_GLIBC_LIB=/data/data/com.termux/files/usr/glibc/lib"] 3
      (memOf img_glibc 0) 203 = 1 :=
  ⟨⟨by decide, by decide, by decide⟩,
    is_glibc_elf_iff_loader_branch
      ["OVGL_GLIBC_LIB=/data/data/com.termux/files/usr/glibc/lib"] 3 (memOf img_glibc 0) 203
      (by decide) (by decide) (by decide),
    by decide⟩

/-! ## The hooks of readlink: property C24 -/

/-- C24, counterexamples: in a process with `OVGL_ORIG_EXE=/usr/bin/tool` (13 bytes) whose
`/proc/self/exe` really points to the glibc loader, `readlink("/proc/self/exe", buf, 13)`
returns 13 and `buf` holds the first 13 bytes of the loader path, not `/usr/bin/tool`;
with `bufsiz = 14` the hook does return 13 and `/usr/bin/tool`; and when the real
`readlink` fails, the hook returns -1 whatever `bufsiz` is (here 64).  The same holds for
`readlinkat`. -/
theorem readlink_keeps_real_answer :
    readlink ["OVGL_ORIG_EXE=/usr/bin/tool"] (real_readlink_to GLIBC_LOADER) "/proc/self/exe" 13
        = (13, cbytes "/data/data/co") ∧
      readlink ["OVGL_ORIG_EXE=/usr/bin/tool"] (real_readlink_to GLIBC_LOADER) "/proc/self/exe"
          14 = (13, cbytes "/usr/bin/tool" ++ cbytes "m") ∧
      readlink ["OVGL_ORIG_EXE=/usr/bin/tool"] real_readlink_fails "/proc/self/exe" 64
        = (-1, List.replicate 64 0) ∧
      readlinkat ["OVGL_ORIG_EXE=/usr/bin/tool"] (fun _ => real_readlink_to GLIBC_LOADER) 3
          "/proc/self/exe" 13 = (13, cbytes "/data/data/co") ∧
      readlinkat ["OVGL_ORIG_EXE=/usr/bin/tool"] (fun _ => real_readlink_fails) 3
          "/proc/self/exe" 64 = (-1, List.replicate 64 0) := by
  refine ⟨by decide, by decide, by decide, by decide, by decide⟩

/-- C24, amended: in a process whose environment sets `OVGL_ORIG_EXE` to `P`, the hooked
`readlink("/proc/self/exe", buf, bufsiz)` returns `strlen(P)` with `P` in the first
`strlen(P)` bytes of `buf`, whatever path the real `readlink` reported, when the real
`readlink` returned a positive value and `strlen(P) < bufsiz`; in every other case it
returns the result of the real `readlink` and `buf` is as the real `readlink` left it.
The hooked `readlinkat` does the same. -/
theorem readlink_reports_orig_exe (environ : List String) (P : String)
    (real_readlink : String → Nat → Int × List Nat)
    (real_readlinkat : Int → String → Nat → Int × List Nat) (dirfd : Int) (bufsiz : Nat)
    (hP : getenv environ "OVGL_ORIG_EXE" = some P) :
    (readlink environ real_readlink "/proc/self/exe" bufsiz =
        if 0 < (real_readlink "/proc/self/exe" bufsiz).1 ∧ P.length < bufsiz then
          ((P.length : Int),
            cbytes P ++ (real_readlink "/proc/self/exe" bufsiz).2.drop P.length)
        else real_readlink "/proc/self/exe" bufsiz) ∧
      (readlinkat environ real_readlinkat dirfd "/proc/self/exe" bufsiz =
        if 0 < (real_readlinkat dirfd "/proc/self/exe" bufsiz).1 ∧ P.length < bufsiz then
          ((P.length : Int),
            cbytes P ++ (real_readlinkat dirfd "/proc/self/exe" bufsiz).2.drop P.length)
        else real_readlinkat dirfd "/proc/self/exe" bufsiz) ∧
      (0 < (real_readlink "/proc/self/exe" bufsiz).1 ∧ P.length < bufsiz →
        (readlink environ real_readlink "/proc/self/exe" bufsiz).1 = P.length ∧
        (readlink environ real_readlink "/proc/self/exe" bufsiz).2.take P.length = cbytes P) ∧
      (0 < (real_readlinkat dirfd "/proc/self/exe" bufsiz).1 ∧ P.length < bufsiz →
        (readlinkat environ real_readlinkat dirfd "/proc/self/exe" bufsiz).1 = P.length ∧
        (readlinkat environ real_readlinkat dirfd "/proc/self/exe" bufsiz).2.take P.length
          = cbytes P) := by
  have hlen : (cbytes P).length = P.length := by
    simp only [cbytes, List.length_map]
    rfl
  have h1 : readlink environ real_readlink "/proc/self/exe" bufsiz =
      if 0 < (real_readlink "/proc/self/exe" bufsiz).1 ∧ P.length < bufsiz then
        ((P.length : Int),
          cbytes P ++ (real_readlink "/proc/self/exe" bufsiz).2.drop P.length)
      else real_readlink "/proc/self/exe" bufsiz := by
    unfold readlink
    simp only [hP, gt_iff_lt, and_true]
    by_cases hr : 0 < (real_readlink "/proc/self/exe" bufsiz).1
    · by_cases hl : P.length < bufsiz
      · simp only [hr, hl, if_true, and_self]
      · simp only [hr, hl, if_true, if_false, and_false]
    · simp only [hr, if_false, false_and]
  have h2 : readlinkat environ real_readlinkat dirfd "/proc/self/exe" bufsiz =
      if 0 < (real_readlinkat dirfd "/proc/self/exe" bufsiz).1 ∧ P.length < bufsiz then
        ((P.length : Int),
          cbytes P ++ (real_readlinkat dirfd "/proc/self/exe" bufsiz).2.drop P.length)
      else real_readlinkat dirfd "/proc/self/exe" bufsiz := by
    unfold readlinkat
    simp only [hP, gt_iff_lt, and_true]
    by_cases hr : 0 < (real_readlinkat dirfd "/proc/self/exe" bufsiz).1
    · by_cases hl : P.length < bufsiz
      · simp only [hr, hl, if_true, and_self]
      · simp only [hr, hl, if_true, if_false, and_false]
    · simp only [hr, if_false, false_and]
  refine ⟨h1, h2, ?_, ?_⟩
  · intro hc
    rw [h1, if_pos hc]
    exact ⟨rfl, by rw [← hlen, List.take_left']; rfl⟩
  · intro hc
    rw [h2, if_pos hc]
    exact ⟨rfl, by rw [← hlen, List.take_left']; rfl⟩

theorem readlink_reports_orig_exe_witness :
    getenv ["A=1", "OVGL_ORIG_EXE=/usr/bin/tool"] "OVGL_ORIG_EXE" = some "/usr/bin/tool" ∧
    readlink ["A=1", "OVGL_ORIG_EXE=/usr/bin/tool"] (real_readlink_to GLIBC_LOADER)
        "/proc/self/exe" 4096 =
      (if 0 < (real_readlink_to GLIBC_LOADER "/proc/self/exe" 4096).1 ∧
          "/usr/bin/tool".length < 4096 then
        (("/usr/bin/tool".length : Int),
          cbytes "/usr/bin/tool" ++
            (real_readlink_to GLIBC_LOADER "/proc/self/exe" 4096).2.drop "/usr/bin/tool".length)
      else real_readlink_to GLIBC_LOADER "/proc/self/exe" 4096) ∧
    (readlink ["A=1", "OVGL_ORIG_EXE=/usr/bin/tool"] (real_readlink_to GLIBC_LOADER)
        "/proc/self/exe" 4096).1 = 13 :=
  ⟨by decide,
    (readlink_reports_orig_exe ["A=1", "OVGL_ORIG_EXE=/usr/bin/tool"] "/usr/bin/tool"
      (real_readlink_to GLIBC_LOADER) (fun _ => real_readlink_to GLIBC_LOADER) 3 4096
      (by decide)).1,
    ((readlink_reports_orig_exe ["A=1", "OVGL_ORIG_EXE=/usr/bin/tool"] "/usr/bin/tool"
      (real_readlink_to GLIBC_LOADER) (fun _ => real_readlink_to GLIBC_LOADER) 3 4096
      (by decide)).2.2.1 ⟨by decide, by decide⟩).1⟩

set_option maxRecDepth 20000

/-! ## Lemmas: the relay script -/

theorem fgets_line_stop (a unread : List Char) (k : Nat) (ha : ∀ c ∈ a, c ≠ Char.ofNat 10)
    (hk : a.length < k) : fgets_line k (a ++ Char.ofNat 10 :: unread) = a ++ [Char.ofNat 10] := by
  induction a generalizing k with
  | nil =>
    obtain ⟨k, rfl⟩ : ∃ j, k = j + 1 := ⟨k - 1, by simp only [List.length_nil] at hk; omega⟩
    simp only [List.nil_append, fgets_line, if_true]
  | cons c t ih =>
    obtain ⟨k, rfl⟩ : ∃ j, k = j + 1 := ⟨k - 1, by omega⟩
    have hc : c ≠ Char.ofNat 10 := ha c (List.mem_cons_self c t)
    rw [List.cons_append, fgets_line, if_neg hc,
      ih k (fun d hd => ha d (List.mem_cons_of_mem c hd))
        (by simp only [List.length_cons] at hk; omega), List.cons_append]

theorem fgets_line_prefix (a unread : List Char) (k : Nat)
    (ha : ∀ c ∈ a, c ≠ Char.ofNat 10) (hk : a.length ≤ k) :
    ∃ t, fgets_line k (a ++ unread) = a ++ t := by
  induction a generalizing k with
  | nil => exact ⟨_, rfl⟩
  | cons c t ih =>
    obtain ⟨k, rfl⟩ : ∃ j, k = j + 1 := ⟨k - 1, by simp only [List.length_cons] at hk; omega⟩
    have hc : c ≠ Char.ofNat 10 := ha c (List.mem_cons_self c t)
    obtain ⟨u, hu⟩ := ih k (fun d hd => ha d (List.mem_cons_of_mem c hd))
      (by simp only [List.length_cons] at hk; omega)
    exact ⟨u, by rw [List.cons_append, fgets_line, if_neg hc, hu, List.cons_append]⟩

theorem cstr_map_append (a : List Char) (t : List Nat) (ha : ∀ c ∈ a, c ≠ Char.ofNat 0) :
    cstr (a.map Char.toNat ++ t) = a.map Char.toNat ++ cstr t := by
  unfold cstr
  apply List.takeWhile_append_of_pos
  intro b hb
  obtain ⟨c, hc, rfl⟩ := List.mem_map.mp hb
  simp only [bne_iff_ne, ne_eq]
  intro h0
  apply ha c hc
  rw [← Char.ofNat_toNat c, h0]

theorem fgets_of_line (size : Nat) (a unread : List Char) (ha : ∀ c ∈ a, c ≠ Char.ofNat 10)
    (hk : a.length < size - 1) :
    fgets size (a ++ Char.ofNat 10 :: unread) = some (a ++ [Char.ofNat 10], unread) := by
  have hne : (a ++ Char.ofNat 10 :: unread).isEmpty = false := by cases a <;> rfl
  have hsplit : a ++ Char.ofNat 10 :: unread = (a ++ [Char.ofNat 10]) ++ unread := by
    rw [List.append_assoc]; rfl
  unfold fgets
  rw [hne, fgets_line_stop a unread _ ha hk]
  simp only [Bool.false_eq_true, if_false, Option.some.injEq, Prod.mk.injEq, true_and]
  rw [hsplit]
  exact List.drop_left' rfl

theorem fgets_of_prefix (size : Nat) (a unread : List Char) (hne : a ≠ [])
    (ha : ∀ c ∈ a, c ≠ Char.ofNat 10) (hk : a.length ≤ size - 1) :
    ∃ t u, fgets size (a ++ unread) = some (a ++ t, u) := by
  have hne' : (a ++ unread).isEmpty = false := by
    cases a with
    | nil => exact absurd rfl hne
    | cons c t => rfl
  obtain ⟨t, ht⟩ := fgets_line_prefix a unread (size - 1) ha hk
  refine ⟨t, (a ++ unread).drop (a ++ t).length, ?_⟩
  unfold fgets
  rw [hne', ht]
  simp only [Bool.false_eq_true, if_false]

/-- The check of the second call passes on the script the first call wrote, when the
second line with the path fits into `buf` and the path holds no newline. -/
theorem wrapper_is_correct_of_short_path (p : String) (hlen : p.length ≤ 385)
    (hp : ∀ c ∈ p.toList, c ≠ Char.ofNat 10 ∧ c ≠ Char.ofNat 0) :
    wrapper_is_correct (wrapper_script p) p = true := by
  have hscript : (wrapper_script p).toList =
      "#!/data/data/com.termux/files/usr/bin/sh".toList ++ Char.ofNat 10 ::
        ((("exec " ++ GLIBC_LOADER ++ " --library-path " ++ GLIBC_LIB ++ " ").toList
          ++ p.toList) ++ (" " ++
            String.mk [Char.ofNat 34, '$', '@', Char.ofNat 34, Char.ofNat 10]).toList) := by
    simp only [wrapper_script, toList_append, List.append_assoc]
    rfl
  have hpre : ∀ c ∈ ("exec " ++ GLIBC_LOADER ++ " --library-path " ++ GLIBC_LIB ++ " ").toList,
      c ≠ Char.ofNat 10 ∧ c ≠ Char.ofNat 0 := by decide
  have hall : ∀ c ∈ ("exec " ++ GLIBC_LOADER ++ " --library-path " ++ GLIBC_LIB ++ " ").toList
      ++ p.toList, c ≠ Char.ofNat 10 ∧ c ≠ Char.ofNat 0 := by
    intro c hc
    rcases List.mem_append.mp hc with h | h
    · exact hpre c h
    · exact hp c h
  have hlen2 : (("exec " ++ GLIBC_LOADER ++ " --library-path " ++ GLIBC_LIB ++ " ").toList
      ++ p.toList).length ≤ 512 - 1 := by
    have : ("exec " ++ GLIBC_LOADER ++ " --library-path " ++ GLIBC_LIB ++ " ").toList.length
        = 126 := by decide
    rw [List.length_append, this]
    have hpl : p.toList.length = p.length := rfl
    omega
  obtain ⟨t, u, h2⟩ := fgets_of_prefix 512 _
    (" " ++ String.mk [Char.ofNat 34, '$', '@', Char.ofNat 34, Char.ofNat 10]).toList
    (by
      intro h
      have := congrArg List.length h
      rw [List.length_append] at this
      simp only [List.length_nil] at this
      have h126 : ("exec " ++ GLIBC_LOADER ++ " --library-path " ++ GLIBC_LIB ++ " ").toList.length
          = 126 := by decide
      omega)
    (fun c hc => (hall c hc).1) hlen2
  unfold wrapper_is_correct
  rw [hscript, fgets_of_line 512 _ _ (by decide) (by decide)]
  dsimp only
  rw [if_pos (by decide), h2]
  dsimp only
  unfold strstr
  rw [List.map_append, cstr_map_append _ _ (fun c hc => (hall c hc).2), occursIn_iff_infix,
    List.map_append]
  exact ⟨_, _, rfl⟩

/-- On a writable location and for a path whose line fits into `buf`, the second of two
calls in a row changes nothing. -/
theorem ensure_box64_wrapper_twice_of_short_path (fs : Fs) (p : String)
    (hr : fs.fopen_r_ok = true) (hw : fs.fopen_w_ok = true) (hc : fs.chmod_ok = true)
    (hlen : p.length ≤ 385) (hp : ∀ c ∈ p.toList, c ≠ Char.ofNat 10 ∧ c ≠ Char.ofNat 0) :
    ensure_box64_wrapper (ensure_box64_wrapper fs p).1 p
      = ((ensure_box64_wrapper fs p).1, []) := by
  by_cases h1 : wrapper_already_correct fs p = true
  · have e1 : ensure_box64_wrapper fs p = (fs, []) := by
      unfold ensure_box64_wrapper
      rw [if_pos h1]
    rw [e1]
    exact e1
  · have e1 : (ensure_box64_wrapper fs p).1.node = .regular true (wrapper_script p) ∧
        (ensure_box64_wrapper fs p).1.fopen_r_ok = true := by
      unfold ensure_box64_wrapper
      rw [if_neg h1]
      simp only [hw, hc, hr, Bool.not_true, Bool.false_eq_true, if_false, Bool.true_or,
        and_self]
    have h2 : wrapper_already_correct (ensure_box64_wrapper fs p).1 p = true := by
      unfold wrapper_already_correct
      rw [e1.1]
      simp only [e1.2, wrapper_is_correct_of_short_path p hlen hp, Bool.and_self]
    generalize ensure_box64_wrapper fs p = r at h2 ⊢
    unfold ensure_box64_wrapper
    rw [if_pos h2]

/-! ## The relay script: property C25 -/

/-- C25 fails on the code for long emulator paths.  For the 408-byte path
`long_box64_path` and a writable location that holds nothing, the first call writes the
script and makes it executable; the second call reads the second line into `char
buf[512]`, finds only the first 385 bytes of the path in it, and so unlinks the file and
writes it again.  The bytes after the second call are those after the first. -/
theorem ensure_box64_wrapper_rewrites_long_path :
    long_box64_path.length = 408 ∧
      (ensure_box64_wrapper fs_empty long_box64_path).1.node
        = .regular true (wrapper_script long_box64_path) ∧
      wrapper_is_correct (wrapper_script long_box64_path) long_box64_path = false ∧
      (ensure_box64_wrapper (ensure_box64_wrapper fs_empty long_box64_path).1
          long_box64_path).2
        = [.unlink, .write (wrapper_script long_box64_path), .chmod] ∧
      (ensure_box64_wrapper (ensure_box64_wrapper fs_empty long_box64_path).1
          long_box64_path).1
        = (ensure_box64_wrapper fs_empty long_box64_path).1 := by
  refine ⟨by decide, by decide, by decide, by decide, by decide⟩

/-! ## Lemmas: the option loop -/

theorem parse_options_flags (opts tail : List String) (debug use_preload : Bool)
    (arg_start : Nat)
    (h : ∀ o ∈ opts, o = "-d" ∨ o = "--debug" ∨ o = "-n" ∨ o = "--no-preload") :
    parse_options (opts ++ tail) debug use_preload arg_start =
      parse_options tail (debug || opts.any is_debug_option)
        (use_preload && !opts.any is_no_preload_option) (arg_start + opts.length) := by
  induction opts generalizing debug use_preload arg_start with
  | nil => simp only [List.nil_append, List.any_nil, Bool.or_false, Bool.not_false,
      Bool.and_true, List.length_nil, Nat.add_zero]
  | cons a t ih =>
    have ht : ∀ o ∈ t, o = "-d" ∨ o = "--debug" ∨ o = "-n" ∨ o = "--no-preload" :=
      fun o ho => h o (List.mem_cons_of_mem a ho)
    have hlen : arg_start + (a :: t).length = arg_start + 1 + t.length := by
      rw [List.length_cons]; omega
    rw [List.cons_append, hlen]
    rcases h a (List.mem_cons_self a t) with rfl | rfl | rfl | rfl
    · rw [parse_options, if_pos (by decide), if_neg (by decide), if_neg (by decide), if_pos (by decide), ih _ _ _ ht]
      simp only [List.any_cons, (by decide : is_debug_option "-d" = true),
        (by decide : is_no_preload_option "-d" = false), Bool.true_or,
        Bool.or_true, Bool.false_or, Bool.not_true, Bool.and_false, Bool.false_and]
    · rw [parse_options, if_pos (by decide), if_neg (by decide), if_neg (by decide), if_pos (by decide), ih _ _ _ ht]
      simp only [List.any_cons, (by decide : is_debug_option "--debug" = true),
        (by decide : is_no_preload_option "--debug" = false), Bool.true_or,
        Bool.or_true, Bool.false_or, Bool.not_true, Bool.and_false, Bool.false_and]
    · rw [parse_options, if_pos (by decide), if_neg (by decide), if_neg (by decide), if_neg (by decide), if_pos (by decide), ih _ _ _ ht]
      simp only [List.any_cons, (by decide : is_debug_option "-n" = false),
        (by decide : is_no_preload_option "-n" = true), Bool.true_or,
        Bool.or_true, Bool.false_or, Bool.not_true, Bool.and_false, Bool.false_and]
    · rw [parse_options, if_pos (by decide), if_neg (by decide), if_neg (by decide), if_neg (by decide), if_pos (by decide), ih _ _ _ ht]
      simp only [List.any_cons, (by decide : is_debug_option "--no-preload" = false),
        (by decide : is_no_preload_option "--no-preload" = true), Bool.true_or,
        Bool.or_true, Bool.false_or, Bool.not_true, Bool.and_false, Bool.false_and]

/-- Two runs of `main` whose option loops end alike at the same target, the second
argument vector holding `rest` after what the first holds: the second outcome is the
first with `rest` appended to the arguments of the plan. -/
theorem main_append_args (w : World) (argv argv0 rest : List String) (debug use_preload : Bool)
    (arg_start : Nat)
    (hparse : parse_options (argv.drop 1) false true 1 = .run debug use_preload arg_start)
    (hparse0 : parse_options (argv0.drop 1) false true 1 = .run debug use_preload arg_start)
    (hstart : arg_start < argv.length) (hstart0 : arg_start < argv0.length)
    (htarget : argv.getD arg_start "" = argv0.getD arg_start "")
    (hrest : argv.drop (arg_start + 1) = argv0.drop (arg_start + 1) ++ rest) :
    main w argv = append_args (main w argv0) rest := by
  have hdrop : ∀ a : List String, arg_start < a.length →
      a.drop arg_start = a.getD arg_start "" :: a.drop (arg_start + 1) := by
    intro a ha
    rw [List.getD_eq_getElem _ _ ha]
    exact List.drop_eq_getElem_cons ha
  cases hfind : find_in_path w (argv.getD arg_start "") PATH_MAX with
  | none =>
    have hfind0 := hfind
    rw [htarget] at hfind0
    simp only [main, hparse, hparse0, hfind, hfind0, Nat.not_le.mpr hstart,
      Nat.not_le.mpr hstart0, if_false, ge_iff_le, append_args]
  | some P =>
    have hfind0 := hfind
    rw [htarget] at hfind0
    rw [main_of_resolved w argv debug use_preload arg_start P hparse hstart hfind,
      main_of_resolved w argv0 debug use_preload arg_start P hparse0 hstart0 hfind0]
    split_ifs with h1 h2 h3 h4 h5
    · rfl
    · rfl
    · rfl
    · unfold dispatch_x86_64
      cases hbox : find_box64 w PATH_MAX with
      | none => rfl
      | some B =>
        simp only [trailing_args_eq_drop argv arg_start hstart,
          trailing_args_eq_drop argv0 arg_start hstart0, hrest]
        split_ifs <;> simp only [append_args, List.append_assoc]
    · unfold dispatch_aarch64
      simp only [trailing_args_eq_drop argv arg_start hstart,
        trailing_args_eq_drop argv0 arg_start hstart0, hrest, hdrop argv hstart,
        hdrop argv0 hstart0, htarget]
      split_ifs <;> simp only [append_args, List.append_assoc, List.cons_append]
    · rfl

/-! ## The option loop: property C26 -/

/-- C26: let `opts` be launcher options that the loop consumes (`-d`, `--debug`, `-n`,
`--no-preload`).  On `ovgl opts t rest` with `t` not beginning with `-` the loop stops at
`t`, and on `ovgl opts -- t rest` it stops right after `--`, whatever `t` begins with: in
both cases `debug` and `use_preload` are what `opts` alone say, `argv[arg_start]` is `t`,
and the outcome of `main` is the outcome on the same command line without `rest`, with
`rest` appended unchanged and in order to the arguments of the plan.  So no argument after
the target stops the launcher or changes `debug` or `use_preload`. -/
theorem main_options_end_at_target (w : World) (prog t : String) (opts rest : List String)
    (h : ∀ o ∈ opts, o = "-d" ∨ o = "--debug" ∨ o = "-n" ∨ o = "--no-preload") :
    (t.toList.head? ≠ some '-' →
        parse_options ((prog :: (opts ++ t :: rest)).drop 1) false true 1 =
          .run (opts.any is_debug_option) (!opts.any is_no_preload_option)
            (1 + opts.length) ∧
        (prog :: (opts ++ t :: rest)).getD (1 + opts.length) "" = t ∧
        main w (prog :: (opts ++ t :: rest)) =
          append_args (main w (prog :: (opts ++ [t]))) rest) ∧
      parse_options ((prog :: (opts ++ "--" :: t :: rest)).drop 1) false true 1 =
        .run (opts.any is_debug_option) (!opts.any is_no_preload_option)
          (1 + opts.length + 1) ∧
      (prog :: (opts ++ "--" :: t :: rest)).getD (1 + opts.length + 1) "" = t ∧
      main w (prog :: (opts ++ "--" :: t :: rest)) =
        append_args (main w (prog :: (opts ++ ["--", t]))) rest := by
  have hstop : ∀ tail : List String, t.toList.head? ≠ some '-' →
      parse_options ((prog :: (opts ++ t :: tail)).drop 1) false true 1 =
        .run (opts.any is_debug_option) (!opts.any is_no_preload_option)
          (1 + opts.length) := by
    intro tail ht
    rw [List.drop_one, List.tail_cons, parse_options_flags opts _ _ _ _ h, parse_options,
      if_neg ht, Bool.false_or, Bool.true_and]
  have hdash : ∀ tail : List String,
      parse_options ((prog :: (opts ++ "--" :: tail)).drop 1) false true 1 =
        .run (opts.any is_debug_option) (!opts.any is_no_preload_option)
          (1 + opts.length + 1) := by
    intro tail
    rw [List.drop_one, List.tail_cons, parse_options_flags opts _ _ _ _ h, parse_options,
      if_pos (by decide), if_neg (by decide), if_neg (by decide), if_neg (by decide),
      if_neg (by decide), if_pos rfl, Bool.false_or, Bool.true_and]
  have hget : ∀ tail : List String,
      (prog :: (opts ++ t :: tail)).getD (1 + opts.length) "" = t := by
    intro tail
    rw [Nat.add_comm, List.getD_cons_succ, List.getD_append_right _ _ _ _ (Nat.le_refl _),
      Nat.sub_self, List.getD_cons_zero]
  have hget2 : ∀ tail : List String,
      (prog :: (opts ++ "--" :: t :: tail)).getD (1 + opts.length + 1) "" = t := by
    intro tail
    have : 1 + opts.length + 1 = (opts.length + 1) + 1 := by omega
    rw [this, List.getD_cons_succ, List.getD_append_right _ _ _ _ (Nat.le_succ _),
      Nat.succ_sub (Nat.le_refl _), Nat.sub_self, List.getD_cons_succ, List.getD_cons_zero]
  have hdrop : ∀ tail : List String,
      (prog :: (opts ++ t :: tail)).drop (1 + opts.length + 1) = tail := by
    intro tail
    have e : prog :: (opts ++ t :: tail) = (prog :: (opts ++ [t])) ++ tail := by
      simp only [List.cons_append, List.append_assoc, List.nil_append]
    rw [e]
    apply List.drop_left'
    simp only [List.length_cons, List.length_append, List.length_nil]
    omega
  have hdrop2 : ∀ tail : List String,
      (prog :: (opts ++ "--" :: t :: tail)).drop (1 + opts.length + 1 + 1) = tail := by
    intro tail
    have e : prog :: (opts ++ "--" :: t :: tail) = (prog :: (opts ++ ["--", t])) ++ tail := by
      simp only [List.cons_append, List.append_assoc, List.nil_append]
    rw [e]
    apply List.drop_left'
    simp only [List.length_cons, List.length_append, List.length_nil]
    omega
  refine ⟨fun ht => ⟨hstop rest ht, hget rest, ?_⟩, hdash (t :: rest), hget2 rest, ?_⟩
  · apply main_append_args w _ _ rest _ _ (1 + opts.length) (hstop rest ht) (hstop [] ht)
    · simp only [List.length_cons, List.length_append]; omega
    · simp only [List.length_cons, List.length_append, List.length_nil]; omega
    · rw [hget rest, hget []]
    · rw [hdrop rest, hdrop [], List.nil_append]
  · apply main_append_args w _ _ rest _ _ (1 + opts.length + 1) (hdash (t :: rest))
      (hdash [t])
    · simp only [List.length_cons, List.length_append]; omega
    · simp only [List.length_cons, List.length_append, List.length_nil]; omega
    · rw [hget2 rest, hget2 []]
    · rw [hdrop2 rest, hdrop2 [], List.nil_append]

theorem main_options_end_at_target_witness :
    (∀ o ∈ ["-d", "-n"], o = "-d" ∨ o = "--debug" ∨ o = "-n" ∨ o = "--no-preload") ∧
    (main (world_host true) ["ovgl", "-d", "-n", "sh", "-h", "-d"] =
        .exec "/home/u/sh" ["sh", "-h", "-d"] (world_host true).environ ∧
      main (world_host true) ["ovgl", "-d", "-n", "--", "-x", "-h", "-d"] = .exit 127) ∧
    (("sh".toList.head? ≠ some '-' →
        parse_options (("ovgl" :: (["-d", "-n"] ++ "sh" :: ["-h", "-d"])).drop 1) false true 1 =
          .run (["-d", "-n"].any is_debug_option) (!List.any ["-d", "-n"] is_no_preload_option)
            (1 + ["-d", "-n"].length) ∧
        ("ovgl" :: (["-d", "-n"] ++ "sh" :: ["-h", "-d"])).getD (1 + ["-d", "-n"].length) ""
          = "sh" ∧
        main (world_host true) ("ovgl" :: (["-d", "-n"] ++ "sh" :: ["-h", "-d"])) =
          append_args (main (world_host true) ("ovgl" :: (["-d", "-n"] ++ ["sh"])))
            ["-h", "-d"]) ∧
      parse_options (("ovgl" :: (["-d", "-n"] ++ "--" :: "sh" :: ["-h", "-d"])).drop 1)
          false true 1 =
        .run (["-d", "-n"].any is_debug_option) (!List.any ["-d", "-n"] is_no_preload_option)
          (1 + ["-d", "-n"].length + 1) ∧
      ("ovgl" :: (["-d", "-n"] ++ "--" :: "sh" :: ["-h", "-d"])).getD
          (1 + ["-d", "-n"].length + 1) "" = "sh" ∧
      main (world_host true) ("ovgl" :: (["-d", "-n"] ++ "--" :: "sh" :: ["-h", "-d"])) =
        append_args (main (world_host true) ("ovgl" :: (["-d", "-n"] ++ ["--", "sh"])))
          ["-h", "-d"]) :=
  ⟨by decide, ⟨by decide, by decide⟩,
    main_options_end_at_target (world_host true) "ovgl" "sh" ["-d", "-n"] ["-h", "-d"]
      (by decide)⟩

/-! ## Lemmas: the sizes of the vectors -/

theorem trailing_args_length (argv : List String) (arg_start orig_argc : Nat) :
    (trailing_args argv arg_start orig_argc).length = orig_argc - 1 := by
  simp only [trailing_args, List.length_map, List.length_range']

theorem build_environment_length_le (environ : List String) (preload_path : Option String)
    (for_box64 use_preload : Bool) (orig_binary : Option String) (debug : Bool) :
    (build_environment environ preload_path for_box64 use_preload orig_binary debug).length + 1
      ≤ environ.length + 10 := by
  have hk := List.length_filter_le (fun e => !env_filtered for_box64 e) environ
  unfold build_environment
  cases orig_binary <;> cases for_box64 <;> cases preload_path <;> cases use_preload <;>
    cases debug <;> cases (getenv environ "BOX64_LD_LIBRARY_PATH").isNone <;>
    simp only [List.length_append, List.length_cons, List.length_nil, if_true, if_false,
      Bool.false_eq_true] <;> omega

theorem build_new_envp_length_le (envp : List String) (orig_exe : String) :
    (build_new_envp envp orig_exe).length + 1 ≤ envp.length + 2 := by
  have hk := List.length_filter_le (fun e => !envp_skipped e) envp
  simp only [build_new_envp, List.length_append, List.length_cons, List.length_nil]
  omega

theorem build_loader_argv_length (loader lib_path binary : String) (argv : List String) :
    (build_loader_argv loader lib_path binary argv).length = new_argc argv := by
  simp only [build_loader_argv, new_argc, List.length_append, List.length_cons,
    List.length_nil, trailing_args_length]
  split_ifs <;> omega

/-! ## Lemmas: the names of environment entries -/

/-- The name of an entry that starts with `name=`. -/
theorem env_key_of_starts_with (e name : String) (hname : '=' ∉ name.toList)
    (h : starts_with e (name ++ "=") = true) : env_key e = name := by
  unfold starts_with at h
  rw [List.isPrefixOf_iff_prefix] at h
  obtain ⟨t, ht⟩ := h
  unfold env_key
  rw [← ht, toList_append, List.append_assoc, List.takeWhile_append_of_pos]
  · have : ("=".toList ++ t).takeWhile (fun c => c != '=') = [] := by
      show List.takeWhile (fun c => c != '=') ('=' :: t) = []
      rw [List.takeWhile_cons]
      simp only [bne_self_eq_false, Bool.false_eq_true, if_false]
    rw [this, List.append_nil]
    rfl
  · intro c hc
    simp only [bne_iff_ne, ne_eq]
    intro hce
    exact hname (hce ▸ hc)

/-- An entry the copy loop of `build_environment` skips has one of the filtered names. -/
theorem env_key_mem_of_filtered (for_box64 : Bool) (e : String)
    (h : env_filtered for_box64 e = true) : env_key e ∈ filtered_names for_box64 := by
  unfold env_filtered at h
  simp only [Bool.or_eq_true, Bool.and_eq_true, Bool.not_eq_true'] at h
  rcases h with (((((h | h) | h) | h) | h) | h) | ⟨hb, h⟩
  · rw [env_key_of_starts_with e "LD_PRELOAD" (by decide) h]; simp [filtered_names]
  · rw [env_key_of_starts_with e "OVGL_GLIBC_LIB" (by decide) h]; simp [filtered_names]
  · rw [env_key_of_starts_with e "OVGL_GLIBC_LOADER" (by decide) h]; simp [filtered_names]
  · rw [env_key_of_starts_with e "OVGL_ORIG_EXE" (by decide) h]; simp [filtered_names]
  · rw [env_key_of_starts_with e "BOX64_LD_PRELOAD" (by decide) h]; simp [filtered_names]
  · rw [env_key_of_starts_with e "BOX64_PATH" (by decide) h]; simp [filtered_names]
  · rw [env_key_of_starts_with e "BOX64_LD_LIBRARY_PATH" (by decide) h, hb]
    simp [filtered_names]

/-! ## The sizes of the vectors: property C27 -/

/-- C27: every vector builder writes at most as many pointers as it allocated, the
terminating NULL counted.  `build_environment` writes at most `envc + 10` into
`envc + 15`; `build_new_envp` at most `envc + 2` into `envc + 2`; `build_loader_argv`
exactly `new_argc + 1` into `new_argc + 1`; and in `main`, with `orig_argc = argc -
arg_start ≥ 1`, the loader plan writes `orig_argc + 6` into `orig_argc + 6`, the nested
emulator plan `orig_argc + 7` into `orig_argc + 8`, the direct emulator plan
`orig_argc + 2` into `orig_argc + 2`.  The counts are natural numbers; the hypotheses on
the world only make `main` reach the plans. -/
theorem vector_builders_fit (environ : List String) (preload_path : Option String)
    (for_box64 use_preload : Bool) (orig_binary : Option String) (debug : Bool)
    (envp : List String) (orig_exe loader lib_path binary : String) (hook_argv : List String)
    (w : World) (argv : List String) (arg_start : Nat) (P B : String) (info : binary_info_t)
    (hstart : arg_start < argv.length) (hinterp : info.interp ≠ INTERP_BIONIC)
    (hloader : w.access_x GLIBC_LOADER = true) (hlib : w.access_f GLIBC_LIB = true)
    (halloc : w.alloc_ok = true) (hbox : find_box64 w PATH_MAX = some B) :
    ((build_environment environ preload_path for_box64 use_preload orig_binary debug).length
          + 1 ≤ environ.length + 10 ∧
        environ.length + 10 ≤ build_environment_alloc environ.length) ∧
      ((build_new_envp envp orig_exe).length + 1 ≤ envp.length + 2 ∧
        envp.length + 2 ≤ build_new_envp_alloc envp.length) ∧
      ((build_loader_argv loader lib_path binary hook_argv).length + 1 = new_argc hook_argv + 1 ∧
        new_argc hook_argv + 1 ≤ build_loader_argv_alloc hook_argv) ∧
      1 ≤ argv.length - arg_start ∧
      (∃ av env,
        dispatch_aarch64 w argv debug use_preload arg_start P info = .exec GLIBC_LOADER av env ∧
        av.length + 1 = (argv.length - arg_start) + 6 ∧
        (argv.length - arg_start) + 6 ≤ loader_plan_alloc (argv.length - arg_start)) ∧
      (∃ prog av env,
        dispatch_x86_64 w argv debug use_preload arg_start P = .exec prog av env ∧
        if (analyze_file w B).interp = INTERP_GLIBC then
          av.length + 1 = (argv.length - arg_start) + 7 ∧
          (argv.length - arg_start) + 7 ≤ nested_emulator_plan_alloc (argv.length - arg_start)
        else
          av.length + 1 = (argv.length - arg_start) + 2 ∧
          (argv.length - arg_start) + 2 ≤
            direct_emulator_plan_alloc (argv.length - arg_start)) := by
  refine ⟨⟨build_environment_length_le _ _ _ _ _ _, ?_⟩,
    ⟨build_new_envp_length_le _ _, ?_⟩, ⟨?_, ?_⟩, ?_, ?_, ?_⟩
  · unfold build_environment_alloc; omega
  · unfold build_new_envp_alloc; omega
  · rw [build_loader_argv_length]
  · unfold build_loader_argv_alloc; omega
  · omega
  · refine ⟨[GLIBC_LOADER, "--library-path", GLIBC_LIB, "--argv0", argv.getD arg_start "", P]
        ++ trailing_args argv arg_start (argv.length - arg_start),
      build_environment w.environ (extract_preload_library w) false use_preload (some P)
        debug, ?_, ?_, ?_⟩
    · simp only [dispatch_aarch64, hinterp, hloader, hlib, halloc, Bool.not_true,
        Bool.false_eq_true, if_false]
    · simp only [List.length_append, List.length_cons, List.length_nil,
        trailing_args_length]
      omega
    · unfold loader_plan_alloc; omega
  · by_cases hg : (analyze_file w B).interp = INTERP_GLIBC
    · refine ⟨GLIBC_LOADER,
        [GLIBC_LOADER, "--library-path", GLIBC_LIB, "--argv0", "box64", B, P]
          ++ trailing_args argv arg_start (argv.length - arg_start),
        build_environment w.environ (extract_preload_library w) true use_preload (some P)
          debug, ?_, ?_⟩
      · simp only [dispatch_x86_64, hbox, halloc, hg, Bool.not_true, Bool.false_eq_true,
          if_false, decide_True, if_true]
      · rw [if_pos hg]
        simp only [List.length_append, List.length_cons, List.length_nil,
          trailing_args_length, nested_emulator_plan_alloc]
        omega
    · refine ⟨B, [B, P] ++ trailing_args argv arg_start (argv.length - arg_start),
        build_environment w.environ (extract_preload_library w) true use_preload (some P)
          debug, ?_, ?_⟩
      · simp only [dispatch_x86_64, hbox, halloc, hg, Bool.not_true, Bool.false_eq_true,
          if_false, decide_False]
      · rw [if_neg hg]
        simp only [List.length_append, List.length_cons, List.length_nil,
          trailing_args_length, direct_emulator_plan_alloc]
        omega

theorem vector_builders_fit_witness :
    (1 < ["ovgl", "app", "a", "b"].length ∧
      (analyze_file world_demo "/work/app").interp ≠ INTERP_BIONIC ∧
      world_demo.access_x GLIBC_LOADER = true ∧ world_demo.access_f GLIBC_LIB = true ∧
      world_demo.alloc_ok = true ∧
      find_box64 world_demo PATH_MAX = some "/data/data/com.termux/files/usr/bin/box64") ∧
    ((build_environment env_inherited (some "/p.so") true true (some "/work/app") true).length
          + 1 ≤ env_inherited.length + 10 ∧
        env_inherited.length + 10 ≤ build_environment_alloc env_inherited.length) ∧
    ((build_new_envp env_inherited "/work/app").length + 1 ≤ env_inherited.length + 2 ∧
        env_inherited.length + 2 ≤ build_new_envp_alloc env_inherited.length) ∧
    ((build_loader_argv "/ld.so" "/lib" "/work/app" ["app", "x"]).length + 1
          = new_argc ["app", "x"] + 1 ∧
        new_argc ["app", "x"] + 1 ≤ build_loader_argv_alloc ["app", "x"]) ∧
    1 ≤ ["ovgl", "app", "a", "b"].length - 1 ∧
    (∃ av env,
      dispatch_aarch64 world_demo ["ovgl", "app", "a", "b"] true true 1 "/work/app"
          (analyze_file world_demo "/work/app") = .exec GLIBC_LOADER av env ∧
        av.length + 1 = (["ovgl", "app", "a", "b"].length - 1) + 6 ∧
        (["ovgl", "app", "a", "b"].length - 1) + 6
          ≤ loader_plan_alloc (["ovgl", "app", "a", "b"].length - 1)) ∧
    (∃ prog av env,
      dispatch_x86_64 world_demo ["ovgl", "app", "a", "b"] true true 1 "/work/app"
          = .exec prog av env ∧
        if (analyze_file world_demo "/data/data/com.termux/files/usr/bin/box64").interp
            = INTERP_GLIBC then
          av.length + 1 = (["ovgl", "app", "a", "b"].length - 1) + 7 ∧
          (["ovgl", "app", "a", "b"].length - 1) + 7
            ≤ nested_emulator_plan_alloc (["ovgl", "app", "a", "b"].length - 1)
        else
          av.length + 1 = (["ovgl", "app", "a", "b"].length - 1) + 2 ∧
          (["ovgl", "app", "a", "b"].length - 1) + 2 ≤
            direct_emulator_plan_alloc (["ovgl", "app", "a", "b"].length - 1)) :=
  ⟨⟨by decide, by decide, by decide, by decide, by decide, by decide⟩,
    vector_builders_fit env_inherited (some "/p.so") true true (some "/work/app") true
      env_inherited "/work/app" "/ld.so" "/lib" "/work/app" ["app", "x"] world_demo
      ["ovgl", "app", "a", "b"] 1 "/work/app" "/data/data/com.termux/files/usr/bin/box64"
      (analyze_file world_demo "/work/app") (by decide) (by decide) (by decide) (by decide)
      (by decide) (by decide)⟩

/-! ## The inherited entries: property C28 -/

/-- C28: for every inherited environment, the result of `build_environment` starts with
the entries the copy loop keeps, in their original order, so that they come before every
entry the function adds; and the loop keeps every entry whose name (its text before the
first `=`) is none of `LD_PRELOAD`, `OVGL_GLIBC_LIB`, `OVGL_GLIBC_LOADER`,
`OVGL_ORIG_EXE`, `BOX64_LD_PRELOAD`, `BOX64_PATH`, nor `BOX64_LD_LIBRARY_PATH` when
`for_box64` is clear: the entries of such names in the kept part are those of the
inherited environment, unchanged and in the same order. -/
theorem build_environment_keeps_unrelated (environ : List String)
    (preload_path : Option String) (for_box64 use_preload : Bool)
    (orig_binary : Option String) (debug : Bool) :
    environ.filter (fun e => !env_filtered for_box64 e) <+:
        build_environment environ preload_path for_box64 use_preload orig_binary debug ∧
      (∀ e, env_key e ∉ filtered_names for_box64 → env_filtered for_box64 e = false) ∧
      ((build_environment environ preload_path for_box64 use_preload orig_binary debug).take
          (environ.filter (fun e => !env_filtered for_box64 e)).length).filter
          (fun e => decide (env_key e ∉ filtered_names for_box64))
        = environ.filter (fun e => decide (env_key e ∉ filtered_names for_box64)) := by
  have hpre : environ.filter (fun e => !env_filtered for_box64 e) <+:
      build_environment environ preload_path for_box64 use_preload orig_binary debug := by
    unfold build_environment
    simp only [List.append_assoc]
    exact List.prefix_append _ _
  have hkeep : ∀ e, env_key e ∉ filtered_names for_box64 → env_filtered for_box64 e = false := by
    intro e he
    rw [← Bool.not_eq_true]
    exact fun h => he (env_key_mem_of_filtered for_box64 e h)
  refine ⟨hpre, hkeep, ?_⟩
  rw [List.prefix_iff_eq_take.mp hpre |>.symm, List.filter_filter]
  apply List.filter_congr
  intro e _
  by_cases he : env_key e ∈ filtered_names for_box64
  · simp only [he, not_true_eq_false, decide_False, Bool.false_and]
  · simp only [he, not_false_eq_true, decide_True, hkeep e he, Bool.not_false, Bool.and_self]

theorem build_environment_keeps_unrelated_witness :
    env_inherited.filter (fun e => !env_filtered true e) =
        ["HOME=/home/u", "OVGL_DEBUG=1", "BOX64_UNAME=aarch64",
          "BOX64_LD_LIBRARY_PATH=/my/x86/libs"] ∧
      env_inherited.filter (fun e => !env_filtered true e) <+:
        build_environment env_inherited none true true (some "/home/u/app64") false ∧
      ((build_environment env_inherited none true true (some "/home/u/app64") false).take
          (env_inherited.filter (fun e => !env_filtered true e)).length).filter
          (fun e => decide (env_key e ∉ filtered_names true))
        = env_inherited.filter (fun e => decide (env_key e ∉ filtered_names true)) :=
  ⟨by decide,
    (build_environment_keeps_unrelated env_inherited none true true (some "/home/u/app64")
      false).1,
    (build_environment_keeps_unrelated env_inherited none true true (some "/home/u/app64")
      false).2.2⟩

/-! ## Lemmas: the log of loads of is_glibc_elf -/

theorem scan_glibc_traced_fst (environ : List String) (buf : Nat → Nat) (n k i : Nat)
    (r : List Nat) : (scan_glibc_traced environ buf n k i r).1 = scan_glibc environ buf n k i := by
  induction k generalizing i r with
  | zero => rfl
  | succ k ih =>
    simp only [scan_glibc_traced, scan_glibc]
    split_ifs
    · rfl
    · cases getenv environ "OVGL_GLIBC_LIB" with
      | none => rfl
      | some lib =>
        dsimp only
        split_ifs <;> rfl
    · rfl
    · exact ih _ _

/-- The traced function returns what `is_glibc_elf` returns. -/
theorem is_glibc_elf_traced_fst (environ : List String) (fd : Int) (buf : Nat → Nat)
    (n : Int) : (is_glibc_elf_traced environ fd buf n).1 = is_glibc_elf environ fd buf n := by
  unfold is_glibc_elf_traced is_glibc_elf
  by_cases hfd : fd < 0
  · rw [if_pos hfd, if_pos hfd]
  rw [if_neg hfd, if_neg hfd]
  by_cases hn : n < (sizeof_Elf64_Ehdr : Int)
  · rw [if_pos hn, if_pos hn]
  rw [if_neg hn, if_neg hn]
  by_cases hm : elf_magic buf
  · have hm' := hm
    obtain ⟨h0, h1, h2, h3⟩ := hm'
    rw [if_neg (not_not.mpr h0), if_neg (not_not.mpr h1), if_neg (not_not.mpr h2),
      if_neg (not_not.mpr h3), if_neg (not_not.mpr hm)]
    by_cases hc : byteAt buf EI_CLASS ≠ ELFCLASS64
    · rw [if_pos hc, if_pos hc]
    rw [if_neg hc, if_neg hc]
    dsimp only
    by_cases ht : e_type buf ≠ ET_EXEC ∧ e_type buf ≠ ET_DYN
    · rw [if_pos ht, if_pos ht]
    rw [if_neg ht, if_neg ht]
    by_cases hp : e_phoff buf = 0
    · rw [if_pos hp, if_pos (Or.inl hp)]
    rw [if_neg hp]
    by_cases hq : e_phnum buf = 0
    · rw [if_pos hq, if_pos (Or.inr hq)]
    rw [if_neg hq, if_neg (not_or.mpr ⟨hp, hq⟩)]
    by_cases hw : (e_phoff buf + e_phnum buf * sizeof_Elf64_Phdr) % U64 > n.toNat
    · rw [if_pos hw, if_pos hw]
    rw [if_neg hw, if_neg hw]
    exact scan_glibc_traced_fst _ _ _ _ _ _
  · rw [if_pos hm]
    by_cases h0 : byteAt buf 0 ≠ 0x7f
    · rw [if_pos h0]
    rw [if_neg h0]
    by_cases h1 : byteAt buf 1 ≠ 69
    · rw [if_pos h1]
    rw [if_neg h1]
    by_cases h2 : byteAt buf 2 ≠ 76
    · rw [if_pos h2]
    rw [if_neg h2]
    by_cases h3 : byteAt buf 3 ≠ 70
    · rw [if_pos h3]
    exact absurd ⟨not_not.mp h0, not_not.mp h1, not_not.mp h2, not_not.mp h3⟩ hm

/-- With a header that passes the checks of lines 51-74, `is_glibc_elf` is its loop. -/
theorem is_glibc_elf_traced_of_table (environ : List String) (fd : Int) (buf : Nat → Nat)
    (n : Int) (hfd : 0 ≤ fd) (hn : 64 ≤ n) (hm : elf_magic buf)
    (hc : byteAt buf EI_CLASS = ELFCLASS64) (ht : e_type buf = ET_EXEC ∨ e_type buf = ET_DYN)
    (hphoff : e_phoff buf ≠ 0) (hphnum : e_phnum buf ≠ 0)
    (htab : (e_phoff buf + e_phnum buf * sizeof_Elf64_Phdr) % U64 ≤ n.toNat) :
    is_glibc_elf_traced environ fd buf n =
      scan_glibc_traced environ buf n.toNat (e_phnum buf) 0
        (ident_reads ++ span off_e_type 2 ++ span off_e_phoff 8 ++ span off_e_phnum 2) := by
  obtain ⟨h0, h1, h2, h3⟩ := hm
  have hfd' : ¬ fd < 0 := not_lt.mpr hfd
  have hn' : ¬ n < (sizeof_Elf64_Ehdr : Int) := by
    simp only [sizeof_Elf64_Ehdr]; push_cast; omega
  have ht' : ¬ (e_type buf ≠ ET_EXEC ∧ e_type buf ≠ ET_DYN) := by
    rcases ht with h | h <;> simp [h]
  unfold is_glibc_elf_traced
  rw [if_neg hfd', if_neg hn', if_neg (not_not.mpr h0), if_neg (not_not.mpr h1),
    if_neg (not_not.mpr h2), if_neg (not_not.mpr h3), if_neg (not_not.mpr hc)]
  dsimp only
  rw [if_neg ht', if_neg hphoff, if_neg hphnum, if_neg (not_lt.mpr htab)]

/-- The log of the loop when it enters at a `PT_INTERP` entry whose string passes the
check of line 81: the string is read whatever the verdict. -/
theorem scan_glibc_traced_snd_interp (environ : List String) (buf : Nat → Nat) (n k i : Nat)
    (r : List Nat) (ht : p_type buf i = PT_INTERP)
    (hin : (p_offset buf i + p_filesz buf i) % U64 ≤ n) :
    (scan_glibc_traced environ buf n (k + 1) i r).2 =
      r ++ span (phdr_at buf i + off_p_type) 4 ++ span (phdr_at buf i + off_p_offset) 8
        ++ span (phdr_at buf i + off_p_filesz) 8
        ++ interp_reads environ (p_offset buf i) (cstr_at buf U64 (p_offset buf i)) := by
  simp only [scan_glibc_traced, ht, if_true, not_lt.mpr hin, if_false, gt_iff_lt]
  split_ifs
  · cases getenv environ "OVGL_GLIBC_LIB" with
    | none => rfl
    | some lib =>
      dsimp only
      split_ifs <;> rfl
  · rfl

theorem strstr_examined_pos (needle s : List Nat) (h : needle ≠ []) :
    1 ≤ strstr_examined needle s := by
  cases s with
  | nil =>
    have : needle.isEmpty = false := by
      cases needle with
      | nil => exact absurd rfl h
      | cons a t => rfl
    simp only [strstr_examined, this, Bool.false_eq_true, if_false, le_refl]
  | cons c t =>
    simp only [strstr_examined]
    split_ifs
    · cases needle with
      | nil => exact absurd rfl h
      | cons a t => simp only [List.length_cons]; omega
    · omega

/-- A C string whose first `m` bytes are not NUL starts with them. -/
theorem cstr_at_prefix (buf : Nat → Nat) (m fuel off : Nat)
    (h : ∀ k, k < m → byteAt buf (off + k) ≠ 0) :
    cstr_at buf (fuel + m) off =
      (List.range m).map (fun k => byteAt buf (off + k)) ++ cstr_at buf fuel (off + m) := by
  induction m generalizing off with
  | zero => simp only [Nat.add_zero, List.range_zero, List.map_nil, List.nil_append]
  | succ m ih =>
    have h0 : byteAt buf off ≠ 0 := by simpa using h 0 (by omega)
    have hstep : cstr_at buf (fuel + (m + 1)) off
        = byteAt buf off :: cstr_at buf (fuel + m) (off + 1) := by
      show cstr_at buf ((fuel + m) + 1) off = _
      simp only [cstr_at, h0, if_false]
    rw [hstep, ih (off + 1) (fun k hk => by
      have := h (k + 1) (by omega)
      rwa [show off + (k + 1) = off + 1 + k by omega] at this)]
    rw [List.range_succ_eq_map, List.map_cons, List.map_map, Nat.add_zero, List.cons_append]
    congr 2
    · apply List.map_congr_left
      intro k _
      simp only [Function.comp, Nat.succ_eq_add_one]
      rw [show off + 1 + k = off + (k + 1) by omega]
    · rw [show off + 1 + m = off + (m + 1) by omega]

/-- A search for a needle that starts with a byte the first `m` bytes of the string differ
from looks at more than `m` bytes. -/
theorem strstr_examined_gt (a : Nat) (needle pre rest : List Nat)
    (h : ∀ b ∈ pre, b ≠ a) : pre.length < strstr_examined (a :: needle) (pre ++ rest) := by
  induction pre with
  | nil => exact strstr_examined_pos _ _ (List.cons_ne_nil _ _)
  | cons c t ih =>
    have hc : c ≠ a := h c (List.mem_cons_self c t)
    have hp : (a :: needle).isPrefixOf (c :: (t ++ rest)) = false := by
      rw [List.isPrefixOf, Bool.and_eq_false_iff]
      exact Or.inl (by simpa using Ne.symm hc)
    have := ih (fun b hb => h b (List.mem_cons_of_mem c hb))
    rw [List.cons_append, strstr_examined, hp]
    simp only [Bool.false_eq_true, if_false, List.length_cons]
    omega

set_option maxRecDepth 4000

/-! ## The loads of is_glibc_elf: property C29 -/

/-- C29 fails on the code.  On every memory that holds the 128-byte file
`img_unterminated`, whose `PT_INTERP` entry declares the 8 bytes `/bin/cat` at offsets 120
to 127, the check of line 81 passes (`120 + 8 ≤ 128`) and the search of line 88 for
`ld-linux` loads the byte at offset 128 of `buf`, which is not below `n = 128`: `strstr`
runs to the first NUL, not to `p_filesz`.  The verdict then depends on bytes `read` did
not store: with zeros after the file the result is 0, with the stale bytes
`/ld-linux.so` after it the result is 1.  And on the 64-byte file `img_phoff_wrap` the
check of line 74 wraps around and the loop loads from offset `2^64 - 56`. -/
theorem is_glibc_elf_reads_past_the_file (environ : List String) (buf : Nat → Nat)
    (h : holds buf img_unterminated) :
    (p_offset buf 0 + p_filesz buf 0) % U64 = 128 ∧
      128 ∈ is_glibc_elf_reads environ 3 buf 128 ∧
      is_glibc_elf [] 3 (memOf img_unterminated 0) 128 = 0 ∧
      is_glibc_elf [] 3 (memOf (img_unterminated ++ cbytes "/ld-linux.so") 0) 128 = 1 ∧
      2 ^ 64 - 56 ∈ is_glibc_elf_reads [] 3 (memOf img_phoff_wrap 0) 64 := by
  have hl : img_unterminated.length = 128 := by decide
  obtain ⟨hnh, -, hpo, hpn⟩ := header_of_holds buf img_unterminated h (by decide) (by decide)
  have hnat : native_header buf := hnh.mpr (by decide)
  have hty : e_type buf = ET_EXEC := by
    rw [e_type, loadLE_of_holds buf img_unterminated h (by decide) _ _ (by decide)]
    decide
  have hpo' : e_phoff buf = 64 := by rw [hpo]; decide
  have hpn' : e_phnum buf = 0 + 1 := by rw [hpn]; decide
  obtain ⟨hpt, hoff, hsz⟩ :=
    phdr_of_holds buf img_unterminated h (by decide) (by decide) 0 (by decide)
  have hpt' : p_type buf 0 = PT_INTERP := by rw [hpt]; decide
  have hoff' : p_offset buf 0 = 120 := by rw [hoff]; decide
  have hsz' : p_filesz buf 0 = 8 := by rw [hsz]; decide
  have hsum : (p_offset buf 0 + p_filesz buf 0) % U64 = 128 := by rw [hoff', hsz']; decide
  refine ⟨hsum, ?_, by decide, by decide, by decide⟩
  have hb : ∀ k, k < 8 → byteAt buf (120 + k) = (cbytes "/bin/cat").getD k 0 := by
    intro k hk
    rw [byteAt_of_holds buf img_unterminated h (by decide) (120 + k) (by rw [hl]; omega)]
    interval_cases k <;> rfl
  have hmap : (List.range 8).map (fun k => byteAt buf (120 + k)) = cbytes "/bin/cat" := by
    have hr : List.range 8 = [0, 1, 2, 3, 4, 5, 6, 7] := by decide
    rw [hr]
    simp only [List.map_cons, List.map_nil, hb 0 (by omega), hb 1 (by omega),
      hb 2 (by omega), hb 3 (by omega), hb 4 (by omega), hb 5 (by omega), hb 6 (by omega),
      hb 7 (by omega)]
    decide
  have hs : cstr_at buf U64 120 = cbytes "/bin/cat" ++ cstr_at buf (U64 - 8) (120 + 8) := by
    have hp := cstr_at_prefix buf 8 (U64 - 8) 120 (fun k hk => by
      rw [hb k hk]
      interval_cases k <;> decide)
    rw [hmap] at hp
    exact hp
  have hex : 8 < strstr_examined (cbytes "ld-linux") (cstr_at buf U64 120) := by
    rw [hs, cbytes_ld_linux]
    exact strstr_examined_gt 108 _ (cbytes "/bin/cat") _ (by decide)
  rw [is_glibc_elf_reads, is_glibc_elf_traced_of_table environ 3 buf 128 (by decide)
    (by decide) hnat.1 hnat.2.1 (Or.inl hty) (by rw [hpo']; decide) (by rw [hpn']; decide)
    (by rw [hpo', hpn']; decide), hpn',
    scan_glibc_traced_snd_interp environ buf _ 0 0 _ hpt' (by rw [hsum]; decide), hoff']
  apply List.mem_append_right
  unfold interp_reads
  exact List.mem_append_left _ (List.mem_append_left _ (List.mem_append_right _
    (mem_span 120 _ 8 hex)))

theorem is_glibc_elf_reads_past_the_file_witness :
    holds (memOf img_unterminated 47) img_unterminated ∧
      128 ∈ is_glibc_elf_reads [] 3 (memOf img_unterminated 47) 128 :=
  ⟨holds_memOf_fill _ _,
    (is_glibc_elf_reads_past_the_file [] (memOf img_unterminated 47)
      (holds_memOf_fill _ _)).2.1⟩

end Ovgl
